import Mathlib

/-!
Verification development for the multi-device workout synchronization engine
(`src/services/syncService.ts`, `src/utils/validation.ts`, `src/index.ts`).

Modelling conventions:
* Timestamps (ISO-8601 strings converted with `new Date(...)` in the source) are
  modelled as naturals counting milliseconds; the string/Date conversions are the
  identity on this representation.
* Server-assigned row ids (`crypto.randomUUID()`) are modelled as naturals drawn
  from a monotone counter `gen` threaded through every operation that inserts rows.
* Database tables are lists of row structures; `insert` appends, `update ... where`
  maps over the list, `delete ... where` filters the list.
* JavaScript `Map` objects are modelled as association lists with the exact
  `Map.set` semantics (overwrite in place if the key is present, append otherwise)
  and `Map.get` as first-match lookup.
* `new Date()` calls inside one request are modelled by a single `now` parameter:
  the wall clock is not advanced during a request.
* `weightLbs` is stored in the database as the decimal string `weight.toString()`
  and read back with `parseFloat`; since this round trip is the identity we keep
  the numeric value.
* Updates keyed by the primary key of the single row previously fetched with
  `limit(1)` (sync metadata, user devices) are modelled as replacing the first
  matching row, which is the same operation given the schema's key uniqueness.
-/

namespace Recess

/-- `SetSyncData` from `syncService.ts`. -/
structure SetSyncData where
  clientId : String
  reps : Int
  weight : Int
  setType : String
  exerciseTypeName : String
  exerciseTypePrimaryMuscles : List String
  exerciseTypeMuscleGroups : Option (List String)
  updatedAt : Nat
deriving DecidableEq

/-- `ExerciseSyncData` from `syncService.ts`; `primaryMuscles` is optional because
older clients send the deprecated `muscleGroups` field instead. -/
structure ExerciseSyncData where
  clientId : String
  exerciseName : String
  primaryMuscles : Option (List String)
  muscleGroups : Option (List String)
  sets : List SetSyncData
  updatedAt : Nat
deriving DecidableEq

/-- `WorkoutSyncData` from `syncService.ts`. -/
structure WorkoutSyncData where
  clientId : String
  userId : String
  date : Nat
  name : Option String
  durationSeconds : Option Int
  isCompleted : Bool
  startTime : Option Nat
  endTime : Option Nat
  exercises : List ExerciseSyncData
  updatedAt : Nat
deriving DecidableEq

/-- `deviceInfo` in `SyncPayload`. -/
structure DeviceInfo where
  name : Option String
  type : String
  appVersion : String
  osVersion : Option String
deriving DecidableEq

/-- `SyncPayload` from `syncService.ts`. -/
structure SyncPayload where
  deviceId : String
  deviceInfo : Option DeviceInfo
  lastSyncTimestamp : Option Nat
  workouts : List WorkoutSyncData
deriving DecidableEq

/-- `normalizeExerciseData` from `syncHelpers.ts`:
`primaryMuscles || muscleGroups || []`. -/
def normalizedPrimaryMuscles (e : ExerciseSyncData) : List String :=
  match e.primaryMuscles with
  | some l => l
  | none => e.muscleGroups.getD []

/-- A row of the `workouts` table (the fields the sync engine touches). -/
structure WorkoutRow where
  id : Nat
  userId : String
  clientId : String
  date : Nat
  name : Option String
  durationSeconds : Option Int
  isCompleted : Bool
  startTime : Option Nat
  endTime : Option Nat
  updatedAt : Nat
  clientUpdatedAt : Nat
  lastSyncedAt : Nat
deriving DecidableEq

/-- A row of the `workout_exercises` table. -/
structure ExerciseRow where
  id : Nat
  workoutId : Nat
  clientId : String
  exerciseId : Nat
  orderIndex : Nat
  exerciseName : String
  primaryMuscles : List String
  updatedAt : Nat
  clientUpdatedAt : Nat
  lastSyncedAt : Nat
deriving DecidableEq

/-- A row of the `sets` table. -/
structure SetRow where
  id : Nat
  workoutExerciseId : Nat
  clientId : String
  setNumber : Nat
  reps : Int
  weightLbs : Int
  setType : String
  updatedAt : Nat
  clientUpdatedAt : Nat
  lastSyncedAt : Nat
deriving DecidableEq

/-- A row of the canonical `exercises` catalog table. -/
structure CatalogRow where
  id : Nat
  name : String
  primaryMuscles : List String
  isCustom : Bool
deriving DecidableEq

/-- A row of the append-only `sync_conflict_log` table (the raw client/server
data blobs are not needed by any property and are omitted). -/
structure ConflictRow where
  userId : String
  entityType : String
  entityId : Nat
  clientTimestamp : Nat
  serverTimestamp : Nat
  resolution : String
  resolvedAt : Nat
  resolvedBy : String
deriving DecidableEq

/-- The structured `{code, message, timestamp}` error stored on failure. -/
structure SyncErrorInfo where
  code : String
  message : String
  timestamp : Nat
deriving DecidableEq

/-- A row of the `sync_metadata` table (one per user). -/
structure SyncMetadataRow where
  userId : String
  currentSyncStatus : String
  lastSyncDeviceId : String
  updatedAt : Nat
  lastSyncStarted : Option Nat
  lastSyncCompleted : Option Nat
  lastSyncFailed : Option Nat
  totalSyncs : Nat
  successfulSyncs : Nat
  failedSyncs : Nat
  lastSyncError : Option SyncErrorInfo
deriving DecidableEq

/-- A row of the `user_devices` table. -/
structure UserDeviceRow where
  userId : String
  deviceId : String
  deviceName : Option String
  deviceType : String
  appVersion : String
  osVersion : Option String
  lastActiveAt : Nat
  lastSyncAt : Nat
  updatedAt : Nat
deriving DecidableEq

/-- A row of the `user_exercise_history` table written by `recordExerciseUsage`. -/
structure UsageRow where
  userId : String
  exerciseId : Nat
  useCount : Nat
  lastUsedAt : Nat
  updatedAt : Nat
deriving DecidableEq

/-- The database state touched by the sync subsystem. -/
structure Db where
  workouts : List WorkoutRow
  workoutExercises : List ExerciseRow
  sets : List SetRow
  exercises : List CatalogRow
  syncConflictLog : List ConflictRow
  syncMetadata : List SyncMetadataRow
  userDevices : List UserDeviceRow
  userExerciseHistory : List UsageRow
deriving DecidableEq

/-- JavaScript `Map.get`: first entry with the key. -/
def jsMapGet [BEq α] (m : List (α × β)) (k : α) : Option β :=
  (m.find? (fun p => p.1 == k)).map (·.2)

/-- JavaScript `Map.set`: overwrite in place when the key is present, else append. -/
def jsMapSet [BEq α] (m : List (α × β)) (k : α) (v : β) : List (α × β) :=
  if m.any (fun p => p.1 == k) then m.map (fun p => if p.1 == k then (k, v) else p)
  else m ++ [(k, v)]

/-- Build a `Map` keyed by `key` from a row list, as the source's
`for (row of rows) map.set(key(row), row)` loops do. -/
def buildMapBy [BEq α] (key : β → α) (rows : List β) : List (α × β) :=
  rows.foldl (fun m r => jsMapSet m (key r) r) []

/-- Replace the first row satisfying `p` (an `update ... where id = first.id`
under key uniqueness). -/
def replaceFirst (p : α → Bool) (f : α → α) : List α → List α
  | [] => []
  | x :: xs => if p x then f x :: xs else x :: replaceFirst p f xs

/-- `SyncService.getOrCreateExerciseId`: exact name lookup against the catalog,
lazily inserting a custom-flagged row when absent. -/
def getOrCreateExerciseId (db : Db) (gen : Nat) (name : String)
    (primaryMuscles : List String) : Nat × Db × Nat :=
  match db.exercises.find? (fun e => e.name == name) with
  | some e => (e.id, db, gen)
  | none =>
      (gen, { db with exercises := db.exercises ++
        [{ id := gen, name := name, primaryMuscles := primaryMuscles, isCustom := true }] },
       gen + 1)

/-- `SyncService.logSyncConflict`: pure append to the conflict log. -/
def logSyncConflict (db : Db) (now : Nat) (uid : String) (entityType : String)
    (entityId : Nat) (clientTimestamp serverTimestamp : Nat)
    (resolution : String) : Db :=
  { db with syncConflictLog := db.syncConflictLog ++
      [{ userId := uid, entityType := entityType, entityId := entityId,
         clientTimestamp := clientTimestamp, serverTimestamp := serverTimestamp,
         resolution := resolution, resolvedAt := now, resolvedBy := "system" }] }

/-- `SyncService.updateDeviceInfo`: upsert of the per-device row. On the update
path Drizzle skips columns whose value is `undefined`, so absent optional fields
keep the stored value. -/
def updateDeviceInfo (db : Db) (now : Nat) (uid deviceId : String)
    (info : Option DeviceInfo) : Db :=
  match db.userDevices.find? (fun d => d.userId == uid && d.deviceId == deviceId) with
  | some _ =>
      { db with userDevices := (replaceFirst (fun d => d.userId == uid && d.deviceId == deviceId)
          (fun d =>
            { d with
              deviceName := (match info.bind (·.name) with | some n => some n | none => d.deviceName),
              deviceType := (info.map (·.type)).getD d.deviceType,
              appVersion := (info.map (·.appVersion)).getD d.appVersion,
              osVersion := (match info.bind (·.osVersion) with | some v => some v | none => d.osVersion),
              lastActiveAt := now, lastSyncAt := now, updatedAt := now }) db.userDevices) }
  | none =>
      { db with userDevices := db.userDevices ++
          [{ userId := uid, deviceId := deviceId,
             deviceName := info.bind (·.name),
             deviceType := (info.map (·.type)).getD "unknown",
             appVersion := (info.map (·.appVersion)).getD "unknown",
             osVersion := info.bind (·.osVersion),
             lastActiveAt := now, lastSyncAt := now, updatedAt := now }] }

/-- The `updateData` computation of `SyncService.updateSyncMetadata`, applied to
one metadata row: the common fields plus the status-dependent counter and error
bookkeeping (counters read from the previously fetched row). -/
def applySyncMetadataUpdate (now : Nat) (stat deviceId : String) (err : Option String)
    (existing : Option SyncMetadataRow) (m0 : SyncMetadataRow) : SyncMetadataRow :=
  let m := { m0 with currentSyncStatus := stat, lastSyncDeviceId := deviceId, updatedAt := now }
  if stat = "syncing" then { m with lastSyncStarted := some now }
  else if stat = "completed" then
    { m with
      lastSyncCompleted := some now,
      totalSyncs := (existing.map (·.totalSyncs)).getD 0 + 1,
      successfulSyncs := (existing.map (·.successfulSyncs)).getD 0 + 1 }
  else if stat = "failed" then
    { m with
      lastSyncFailed := some now,
      totalSyncs := (existing.map (·.totalSyncs)).getD 0 + 1,
      failedSyncs := (existing.map (·.failedSyncs)).getD 0 + 1,
      lastSyncError := (err.map (fun msg =>
        { code := "SYNC_ERROR", message := msg, timestamp := now })) }
  else m

/-- `SyncService.updateSyncMetadata`: upsert of the per-user session row with the
status-dependent counter and error bookkeeping. -/
def updateSyncMetadata (db : Db) (now : Nat) (uid : String) (stat : String)
    (deviceId : String) (err : Option String) : Db :=
  let existing := db.syncMetadata.find? (fun m => m.userId == uid)
  match existing with
  | some _ =>
      { db with syncMetadata := (replaceFirst (fun m => m.userId == uid)
          (applySyncMetadataUpdate now stat deviceId err existing) db.syncMetadata) }
  | none =>
      { db with syncMetadata := db.syncMetadata ++
          [applySyncMetadataUpdate now stat deviceId err none
             { userId := uid, currentSyncStatus := "pending", lastSyncDeviceId := deviceId,
               updatedAt := now, lastSyncStarted := none, lastSyncCompleted := none,
               lastSyncFailed := none, totalSyncs := 0, successfulSyncs := 0,
               failedSyncs := 0, lastSyncError := none }] }

/-- The `for (const [setIndex, setData] of exerciseData.sets.entries())` insert
loop used for brand-new exercises: every set is inserted with
`setNumber = setIndex + 1`. -/
def insertSetsLoop (now : Nat) (exRowId : Nat) :
    Db → Nat → List SetSyncData → Nat → Db × Nat
  | db, gen, [], _ => (db, gen)
  | db, gen, s :: rest, i =>
      insertSetsLoop now exRowId
        { db with sets := db.sets ++
            [{ id := gen, workoutExerciseId := exRowId, clientId := s.clientId,
               setNumber := i + 1, reps := s.reps, weightLbs := s.weight,
               setType := s.setType, updatedAt := now, clientUpdatedAt := s.updatedAt,
               lastSyncedAt := now }] }
        (gen + 1) rest (i + 1)

/-- The exercise/set insert loop of `createWorkoutFromSync`, consuming the
pre-resolved catalog ids positionally. -/
def insertExercisesLoop (now : Nat) (wid : Nat) :
    Db → Nat → List (ExerciseSyncData × Nat) → Nat → Db × Nat
  | db, gen, [], _ => (db, gen)
  | db, gen, (e, libId) :: rest, i =>
      let exId := gen
      let db' := { db with workoutExercises := db.workoutExercises ++
        [{ id := exId, workoutId := wid, clientId := e.clientId, exerciseId := libId,
           orderIndex := i, exerciseName := e.exerciseName,
           primaryMuscles := normalizedPrimaryMuscles e,
           updatedAt := now, clientUpdatedAt := e.updatedAt, lastSyncedAt := now }] }
      let (db1, gen1) := insertSetsLoop now exId db' (gen + 1) e.sets 0
      insertExercisesLoop now wid db1 gen1 rest (i + 1)

/-- The `for (const exerciseData of workoutData.exercises)` pre-fetch loop of
`createWorkoutFromSync`, building the positional catalog id list. -/
def resolveLibraryIdList (now : Nat) :
    Db → Nat → List ExerciseSyncData → Db × Nat × List Nat
  | db, gen, [] => (db, gen, [])
  | db, gen, e :: rest =>
      let (libId, db1, gen1) := getOrCreateExerciseId db gen e.exerciseName (normalizedPrimaryMuscles e)
      let (db2, gen2, ids) := resolveLibraryIdList now db1 gen1 rest
      (db2, gen2, libId :: ids)

/-- `recordExerciseUsage` (exerciseService.ts): insert-or-bump of the
per-(user, exercise) usage row, called once per resolved catalog id after the
creation transaction commits. -/
def recordUsageLoop (now : Nat) (uid : String) : Db → List Nat → Db
  | db, [] => db
  | db, libId :: rest =>
      let db' :=
        if db.userExerciseHistory.any (fun h => h.userId == uid && h.exerciseId == libId) then
          { db with userExerciseHistory := db.userExerciseHistory.map (fun h =>
              if h.userId == uid && h.exerciseId == libId then
                { h with lastUsedAt := now, useCount := h.useCount + 1, updatedAt := now }
              else h) }
        else
          { db with userExerciseHistory := db.userExerciseHistory ++
              [{ userId := uid, exerciseId := libId, useCount := 1,
                 lastUsedAt := now, updatedAt := now }] }
      recordUsageLoop now uid db' rest

/-- `SyncService.createWorkoutFromSync`, successful-transaction path: resolve all
catalog ids, insert the workout, its exercises in array order and their sets,
then record catalog usage. -/
def createWorkoutFromSync (db : Db) (gen : Nat) (now : Nat) (uid : String)
    (w : WorkoutSyncData) (clientTimestamp : Nat) : Db × Nat :=
  let workoutId := gen
  let (db1, gen1, libIds) := resolveLibraryIdList now db (gen + 1) w.exercises
  let db2 := { db1 with workouts := db1.workouts ++
    [{ id := workoutId, userId := uid, clientId := w.clientId, date := w.date,
       name := w.name, durationSeconds := w.durationSeconds, isCompleted := w.isCompleted,
       startTime := w.startTime, endTime := w.endTime, updatedAt := now,
       clientUpdatedAt := clientTimestamp, lastSyncedAt := now }] }
  let (db3, gen3) := insertExercisesLoop now workoutId db2 gen1 (w.exercises.zip libIds) 0
  (recordUsageLoop now uid db3 libIds, gen3)

/-- The `tx.update(sets).set({...}).where(eq(sets.id, existingSet.id))` write of
`syncExerciseSets`, applied to one row of the table. -/
def updateSetFromSync (now : Nat) (i : Nat) (s : SetSyncData) (sid : Nat)
    (r : SetRow) : SetRow :=
  if r.id = sid then
    { r with
      setNumber := i + 1, reps := s.reps, weightLbs := s.weight,
      setType := s.setType, clientUpdatedAt := s.updatedAt, lastSyncedAt := now,
      updatedAt := now }
  else r

/-- The `for (const [setIndex, setData] of clientSets.entries())` loop of
`syncExerciseSets`: update a matched set only when the client timestamp is
strictly newer, insert unmatched sets. -/
def processClientSets (now : Nat) (exRowId : Nat) (setMap : List (String × SetRow)) :
    Db → Nat → List SetSyncData → Nat → Db × Nat
  | db, gen, [], _ => (db, gen)
  | db, gen, s :: rest, i =>
      let next : Db × Nat :=
        match jsMapGet setMap s.clientId with
        | some existingSet =>
            if existingSet.updatedAt < s.updatedAt then
              ({ db with sets := db.sets.map (updateSetFromSync now i s existingSet.id) }, gen)
            else (db, gen)
        | none =>
            ({ db with sets := db.sets ++
                [{ id := gen, workoutExerciseId := exRowId, clientId := s.clientId,
                   setNumber := i + 1, reps := s.reps, weightLbs := s.weight,
                   setType := s.setType, updatedAt := now, clientUpdatedAt := s.updatedAt,
                   lastSyncedAt := now }] }, gen + 1)
      processClientSets now exRowId setMap next.1 next.2 rest (i + 1)

/-- The deletion reference of `syncExerciseSets`: the newest client timestamp
among the incoming sets, falling back to the exercise's own client timestamp
when the client sent zero sets. -/
def newestClientSetTime (clientSets : List SetSyncData) (exerciseClientTimestamp : Nat) :
    Nat :=
  match clientSets with
  | [] => exerciseClientTimestamp
  | s :: rest => (rest.map (·.updatedAt)).foldl max s.updatedAt

/-- The trailing deletion loop of `syncExerciseSets`: a stored set absent from the
incoming list is removed exactly when the deletion reference is strictly newer
than its stored server timestamp. -/
def deleteMissingSets (threshold : Nat) (processedIds : List String) :
    Db → List (String × SetRow) → Db
  | db, [] => db
  | db, (cid, srow) :: rest =>
      let db' :=
        if processedIds.contains cid then db
        else if srow.updatedAt < threshold then
          { db with sets := db.sets.filter (fun s => s.id != srow.id) }
        else db
      deleteMissingSets threshold processedIds db' rest

/-- `SyncService.syncExerciseSets`: per-set reconciliation for one existing
exercise instance. -/
def syncExerciseSets (db : Db) (gen : Nat) (now : Nat) (workoutExerciseId : Nat)
    (clientSets : List SetSyncData) (exerciseClientTimestamp : Nat) : Db × Nat :=
  let existingSets := db.sets.filter (fun s => s.workoutExerciseId == workoutExerciseId)
  let setMap := buildMapBy (·.clientId) (existingSets.filter (fun s => s.clientId != ""))
  let (db1, gen1) := processClientSets now workoutExerciseId setMap db gen clientSets 0
  let threshold := newestClientSetTime clientSets exerciseClientTimestamp
  (deleteMissingSets threshold (clientSets.map (·.clientId)) db1 setMap, gen1)

/-- The `tx.update(workoutExercises).set({...}).where(eq(workoutExercises.id, ...))`
write of `updateWorkoutFromSync`, applied to one row of the table. -/
def updateExerciseFromSync (now : Nat) (i : Nat) (e : ExerciseSyncData)
    (libId : Nat) (exId : Nat) (r : ExerciseRow) : ExerciseRow :=
  if r.id = exId then
    { r with
      exerciseId := libId, orderIndex := i, exerciseName := e.exerciseName,
      primaryMuscles := normalizedPrimaryMuscles e, clientUpdatedAt := e.updatedAt,
      lastSyncedAt := now, updatedAt := now }
  else r

/-- The catalog pre-fetch loop of `updateWorkoutFromSync`, building the
clientId-keyed catalog id map. -/
def resolveLibraryIds : Db → Nat → List ExerciseSyncData → Db × Nat × List (String × Nat)
  | db, gen, [] => (db, gen, [])
  | db, gen, e :: rest =>
      let (libId, db1, gen1) := getOrCreateExerciseId db gen e.exerciseName (normalizedPrimaryMuscles e)
      let (db2, gen2, m) := resolveLibraryIds db1 gen1 rest
      (db2, gen2, jsMapSet m e.clientId libId)

/-- The `for (const [exerciseIndex, exerciseData] of workoutData.exercises.entries())`
loop of `updateWorkoutFromSync`: update matched exercises only when strictly
newer, recurse into their sets regardless of that outcome, insert unmatched
exercises with all their sets. -/
def processClientExercises (now : Nat) (wid : Nat) (libIds : List (String × Nat))
    (exMap : List (String × ExerciseRow)) :
    Db → Nat → List ExerciseSyncData → Nat → Db × Nat
  | db, gen, [], _ => (db, gen)
  | db, gen, e :: rest, i =>
      let libId := (jsMapGet libIds e.clientId).getD 0
      let next : Db × Nat :=
        match jsMapGet exMap e.clientId with
        | some existingExercise =>
            let db' :=
              if existingExercise.updatedAt < e.updatedAt then
                { db with workoutExercises :=
                    db.workoutExercises.map (updateExerciseFromSync now i e libId existingExercise.id) }
              else db
            syncExerciseSets db' gen now existingExercise.id e.sets e.updatedAt
        | none =>
            let newExId := gen
            let db' := { db with workoutExercises := db.workoutExercises ++
              [{ id := newExId, workoutId := wid, clientId := e.clientId, exerciseId := libId,
                 orderIndex := i, exerciseName := e.exerciseName,
                 primaryMuscles := normalizedPrimaryMuscles e,
                 updatedAt := now, clientUpdatedAt := e.updatedAt, lastSyncedAt := now }] }
            insertSetsLoop now newExId db' (gen + 1) e.sets 0
      processClientExercises now wid libIds exMap next.1 next.2 rest (i + 1)

/-- Step 5 of `updateWorkoutFromSync`: a stored exercise instance absent from the
incoming list is removed, cascading to its sets, exactly when the workout's
incoming client timestamp is strictly newer than its stored server timestamp. -/
def deleteMissingExercises (clientTimestamp : Nat) (processedIds : List String) :
    Db → List (String × ExerciseRow) → Db
  | db, [] => db
  | db, (cid, ex) :: rest =>
      let db' :=
        if processedIds.contains cid then db
        else if ex.updatedAt < clientTimestamp then
          { db with
            sets := db.sets.filter (fun s => s.workoutExerciseId != ex.id),
            workoutExercises := db.workoutExercises.filter (fun r => r.id != ex.id) }
        else db
      deleteMissingExercises clientTimestamp processedIds db' rest

/-- The `tx.update(workouts).set({...}).where(eq(workouts.id, workoutId))` write of
`updateWorkoutFromSync`, applied to one row of the table. -/
def applyWorkoutFieldsUpdate (now : Nat) (w : WorkoutSyncData) (ts : Nat)
    (wid : Nat) (r : WorkoutRow) : WorkoutRow :=
  if r.id = wid then
    { r with
      date := w.date, name := w.name, durationSeconds := w.durationSeconds,
      isCompleted := w.isCompleted, startTime := w.startTime, endTime := w.endTime,
      clientUpdatedAt := ts, lastSyncedAt := now, updatedAt := now }
  else r

/-- `SyncService.updateWorkoutFromSync`: persist the workout-level fields, then
reconcile the exercise list against the stored instances keyed by client id,
and finally apply the implicit-deletion rule. -/
def updateWorkoutFromSync (db : Db) (gen : Nat) (now : Nat) (workoutId : Nat)
    (w : WorkoutSyncData) (clientTimestamp : Nat) : Db × Nat :=
  let r := resolveLibraryIds db gen w.exercises
  let db2 := { r.1 with workouts := r.1.workouts.map (applyWorkoutFieldsUpdate now w clientTimestamp workoutId) }
  let existingExercises := db2.workoutExercises.filter (fun e => e.workoutId == workoutId)
  let exMap := buildMapBy (·.clientId) (existingExercises.filter (fun e => e.clientId != ""))
  let pce := processClientExercises now workoutId r.2.2 exMap db2 r.2.1 w.exercises 0
  (deleteMissingExercises clientTimestamp (w.exercises.map (·.clientId)) pce.1 exMap, pce.2)

/-- A conflict entry of the sync response (`ConflictData` in the source; the raw
data blobs are omitted). -/
structure ConflictData where
  entityType : String
  entityId : Nat
  resolution : String
deriving DecidableEq

/-- `SyncService.handleWorkoutUpdate`: strict last-writer-wins at the workout
level; a strictly newer client timestamp triggers the nested update, anything
else logs a single server-wins conflict and leaves the data untouched. -/
def handleWorkoutUpdate (db : Db) (gen : Nat) (now : Nat) (existing : WorkoutRow)
    (w : WorkoutSyncData) (clientTimestamp : Nat) : Db × Nat × Option ConflictData :=
  if existing.updatedAt < clientTimestamp then
    let r := updateWorkoutFromSync db gen now existing.id w clientTimestamp
    (r.1, r.2, none)
  else
    (logSyncConflict db now existing.userId "workout" existing.id clientTimestamp
       existing.updatedAt "server_wins",
     gen,
     some { entityType := "workout", entityId := existing.id, resolution := "server_wins" })

/-- `SyncService.getExistingWorkoutsMap`: single batched read of the user's
workouts for the submitted client ids, keyed by client id. -/
def getExistingWorkoutsMap (db : Db) (uid : String) (clientIds : List String) :
    List (String × WorkoutRow) :=
  buildMapBy (·.clientId)
    ((db.workouts.filter (fun r => r.userId == uid && clientIds.contains r.clientId)).filter
      (fun r => r.clientId != ""))

/-- `SyncService.processWorkoutSyncWithExisting`: route one incoming workout to
the create or the merge path using the pre-fetched row. -/
def processWorkoutSyncWithExisting (db : Db) (gen : Nat) (now : Nat) (uid : String)
    (w : WorkoutSyncData) (existing : Option WorkoutRow) : Db × Nat × Option ConflictData :=
  let clientTimestamp := w.updatedAt
  match existing with
  | some ex => handleWorkoutUpdate db gen now ex w clientTimestamp
  | none =>
      let r := createWorkoutFromSync db gen now uid w clientTimestamp
      (r.1, r.2, none)

/-- One row of the `workouts leftJoin workout_exercises leftJoin sets` read in
`getServerWorkoutsSince`. -/
structure JoinRow where
  w : WorkoutRow
  e : Option ExerciseRow
  s : Option SetRow
deriving DecidableEq

/-- The rows the left joins produce for one workout: one row per set, one row
with a null set for a set-less exercise, one row with null exercise and set for
an exercise-less workout. -/
def joinRowsFor (db : Db) (w : WorkoutRow) : List JoinRow :=
  let exs := db.workoutExercises.filter (fun e => e.workoutId == w.id)
  if exs.isEmpty then [{ w := w, e := none, s := none }]
  else exs.flatMap (fun e =>
    let ss := db.sets.filter (fun s => s.workoutExerciseId == e.id)
    if ss.isEmpty then [{ w := w, e := some e, s := none }]
    else ss.map (fun s => { w := w, e := some e, s := some s }))

/-- The workout skeleton `transformServerDataToClientFormat` stores on first
encounter of a workout id (`exercises` filled in by the final pass). -/
def baseWorkoutData (w : WorkoutRow) : WorkoutSyncData :=
  { clientId := w.clientId, userId := w.userId, date := w.date, name := w.name,
    durationSeconds := w.durationSeconds, isCompleted := w.isCompleted,
    startTime := w.startTime, endTime := w.endTime, exercises := [],
    updatedAt := w.updatedAt }

/-- The exercise skeleton stored on first encounter of an exercise id. -/
def baseExerciseData (e : ExerciseRow) : ExerciseSyncData :=
  { clientId := e.clientId, exerciseName := e.exerciseName,
    primaryMuscles := some e.primaryMuscles, muscleGroups := none, sets := [],
    updatedAt := e.updatedAt }

/-- The set entry pushed onto its exercise's `sets` array. -/
def renderSetData (e : ExerciseRow) (s : SetRow) : SetSyncData :=
  { clientId := s.clientId, reps := s.reps, weight := s.weightLbs,
    setType := s.setType, exerciseTypeName := e.exerciseName,
    exerciseTypePrimaryMuscles := e.primaryMuscles,
    exerciseTypeMuscleGroups := none, updatedAt := s.updatedAt }

/-- `exercise.sets.push(...)` on the exercise object held in the inner map. -/
def pushSetIntoExercise (s : SetSyncData) (eid : Nat)
    (inner : List (Nat × ExerciseSyncData)) : List (Nat × ExerciseSyncData) :=
  inner.map (fun p => if p.1 == eid then (p.1, { p.2 with sets := p.2.sets ++ [s] }) else p)

/-- The accumulator of `transformServerDataToClientFormat`: the workout map and
the per-workout exercise maps, both keyed by server id. -/
abbrev TransformAcc :=
  List (Nat × WorkoutSyncData) × List (Nat × List (Nat × ExerciseSyncData))

/-- The body of the `for (const row of serverData)` loop of
`transformServerDataToClientFormat`. -/
def transformStep (acc : TransformAcc) (row : JoinRow) : TransformAcc :=
  let wid := row.w.id
  let acc1 : TransformAcc :=
    if (jsMapGet acc.1 wid).isSome then acc
    else (jsMapSet acc.1 wid (baseWorkoutData row.w), jsMapSet acc.2 wid [])
  match row.e with
  | none => acc1
  | some e =>
      let inner := (jsMapGet acc1.2 wid).getD []
      let inner1 :=
        if (jsMapGet inner e.id).isSome then inner
        else jsMapSet inner e.id (baseExerciseData e)
      let inner2 :=
        match row.s with
        | none => inner1
        | some s => pushSetIntoExercise (renderSetData e s) e.id inner1
      (acc1.1, jsMapSet acc1.2 wid inner2)

/-- `SyncService.transformServerDataToClientFormat`: fold the flat joined rows
back into a nested tree keyed by server id, then convert the maps to arrays. -/
def transformServerDataToClientFormat (rows : List JoinRow) : List WorkoutSyncData :=
  let acc := rows.foldl transformStep ([], [])
  acc.1.map (fun p => { p.2 with exercises := ((jsMapGet acc.2 p.1).getD []).map (·.2) })

/-- `SyncService.getServerWorkoutsSince`: the user's workouts with a server-side
last-modified timestamp strictly greater than `since`, ordered by workout date,
joined with their exercises and sets and folded back into client format. -/
def getServerWorkoutsSince (db : Db) (uid : String) (since : Nat) :
    List WorkoutSyncData :=
  let filtered := db.workouts.filter (fun w => w.userId == uid && since < w.updatedAt)
  let sorted := List.insertionSort (fun a b => a.date ≤ b.date) filtered
  transformServerDataToClientFormat (sorted.flatMap (joinRowsFor db))

/-- Failure injection for the effectful steps of one sync call: `none` means the
step succeeds, `some msg` that the underlying awaited operation throws. -/
structure SyncEnv where
  deviceFail : Option String
  workoutFail : String → Option String
  feedFail : Option String

/-- The environment in which every database operation succeeds. -/
def noFail : SyncEnv :=
  { deviceFail := none, workoutFail := fun _ => none, feedFail := none }

/-- `stats` of the sync response. -/
structure SyncStats where
  uploaded : Nat
  downloaded : Nat
  conflicts : Nat
deriving DecidableEq

/-- `serverData` of the sync response. -/
structure ServerData where
  workouts : List WorkoutSyncData
  lastServerSync : Nat
deriving DecidableEq

/-- `SyncResponse` from `syncService.ts` (the `conflicts` field is the list that
the source leaves `undefined` when empty). -/
structure SyncResponse where
  success : Bool
  syncedAt : Nat
  conflicts : List ConflictData
  serverData : ServerData
  stats : SyncStats
deriving DecidableEq

/-- The `for (const workoutData of payload.workouts)` loop of `syncUserData`,
accumulating conflicts and the uploaded/conflict counters; a thrown per-workout
transaction aborts the loop with the database as committed so far. -/
def processWorkoutsLoop (env : SyncEnv) (now : Nat) (uid : String)
    (wmap : List (String × WorkoutRow)) :
    Db → Nat → List ConflictData → Nat → Nat → List WorkoutSyncData →
    Except (String × Db × Nat) (Db × Nat × List ConflictData × Nat × Nat)
  | db, gen, conflicts, uploaded, nconf, [] => .ok (db, gen, conflicts, uploaded, nconf)
  | db, gen, conflicts, uploaded, nconf, w :: rest =>
      match env.workoutFail w.clientId with
      | some msg => .error (msg, db, gen)
      | none =>
          let r := processWorkoutSyncWithExisting db gen now uid w (jsMapGet wmap w.clientId)
          match r.2.2 with
          | some c =>
              processWorkoutsLoop env now uid wmap r.1 r.2.1 (conflicts ++ [c]) uploaded (nconf + 1) rest
          | none =>
              processWorkoutsLoop env now uid wmap r.1 r.2.1 conflicts (uploaded + 1) nconf rest

/-- The tail of `SyncService.syncUserData` from the per-workout loop onwards:
compute the server change feed, mark the session completed and build the
response; any failure marks the session failed with the structured error before
the error propagates. -/
def finishSync (env : SyncEnv) (uid : String) (payload : SyncPayload) (now : Nat) :
    Except (String × Db × Nat) (Db × Nat × List ConflictData × Nat × Nat) →
      Except String SyncResponse × Db × Nat
  | .error r =>
      (.error r.1, updateSyncMetadata r.2.1 now uid "failed" payload.deviceId (some r.1), r.2.2)
  | .ok r =>
      let db3 := r.1
      let gen3 := r.2.1
      let conflicts := r.2.2.1
      let uploaded := r.2.2.2.1
      let nconf := r.2.2.2.2
      match env.feedFail with
      | some msg =>
          (.error msg, updateSyncMetadata db3 now uid "failed" payload.deviceId (some msg), gen3)
      | none =>
          let since := payload.lastSyncTimestamp.getD 0
          let serverWorkouts := getServerWorkoutsSince db3 uid since
          let db4 := updateSyncMetadata db3 now uid "completed" payload.deviceId none
          (.ok { success := true, syncedAt := now, conflicts := conflicts,
                 serverData := { workouts := serverWorkouts, lastServerSync := now },
                 stats := { uploaded := uploaded, downloaded := serverWorkouts.length,
                            conflicts := nconf } }, db4, gen3)

/-- `SyncService.syncUserData` (continued in `finishSync` above): upsert device
info, mark the session syncing, batch-prefetch the existing workouts, reconcile
every submitted workout, then compute the change feed and the response. -/
def syncUserData (env : SyncEnv) (db0 : Db) (gen0 : Nat) (uid : String)
    (payload : SyncPayload) (now : Nat) : Except String SyncResponse × Db × Nat :=
  match env.deviceFail with
  | some msg =>
      (.error msg, updateSyncMetadata db0 now uid "failed" payload.deviceId (some msg), gen0)
  | none =>
    let db1 := updateDeviceInfo db0 now uid payload.deviceId payload.deviceInfo
    let db2 := updateSyncMetadata db1 now uid "syncing" payload.deviceId none
    let clientIds := payload.workouts.map (·.clientId)
    let wmap := getExistingWorkoutsMap db2 uid clientIds
    finishSync env uid payload now (processWorkoutsLoop env now uid wmap db2 gen0 [] 0 0 payload.workouts)

/-- `SYNC_LIMITS.MAX_WORKOUTS_PER_SYNC` from `validation.ts`. -/
def MAX_WORKOUTS_PER_SYNC : Nat := 100

/-- `SYNC_LIMITS.MAX_EXERCISES_PER_WORKOUT`. -/
def MAX_EXERCISES_PER_WORKOUT : Nat := 50

/-- `SYNC_LIMITS.MAX_SETS_PER_EXERCISE`. -/
def MAX_SETS_PER_EXERCISE : Nat := 20

/-- `SYNC_LIMITS.MAX_EXERCISE_NAME_LENGTH`. -/
def MAX_EXERCISE_NAME_LENGTH : Nat := 100

/-- `SYNC_LIMITS.MAX_WORKOUT_NAME_LENGTH`. -/
def MAX_WORKOUT_NAME_LENGTH : Nat := 100

/-- `SYNC_LIMITS.MAX_WEIGHT_LBS`. -/
def MAX_WEIGHT_LBS : Int := 10000

/-- `SYNC_LIMITS.MAX_REPS`. -/
def MAX_REPS : Int := 10000

/-- The per-set checks of `validateSyncPayload` (a missing required string field
of the untyped JSON input is the empty, falsy string in this typed model). -/
def validateSet (i j k : Nat) (s : SetSyncData) (errors : List String) : List String :=
  let e1 :=
    if s.clientId = "" then
      errors ++ ["workouts[" ++ toString i ++ "].exercises[" ++ toString j ++ "].sets[" ++
        toString k ++ "].clientId is required and must be a string"]
    else errors
  let e2 :=
    if s.weight < 0 ∨ MAX_WEIGHT_LBS < s.weight then
      e1 ++ ["workouts[" ++ toString i ++ "].exercises[" ++ toString j ++ "].sets[" ++
        toString k ++ "].weight must be between 0 and 10000"]
    else e1
  if s.reps < 0 ∨ MAX_REPS < s.reps then
    e2 ++ ["workouts[" ++ toString i ++ "].exercises[" ++ toString j ++ "].sets[" ++
      toString k ++ "].reps must be between 0 and 10000"]
  else e2

/-- The `for (let k = 0; ...)` loop over an exercise's sets. -/
def validateSetsLoop (i j : Nat) : List SetSyncData → Nat → List String → List String
  | [], _, errors => errors
  | s :: rest, k, errors => validateSetsLoop i j rest (k + 1) (validateSet i j k s errors)

/-- The per-exercise checks of `validateSyncPayload`: client id, exercise name,
then either the sets-count violation (skipping the per-set checks) or the
per-set loop. -/
def validateExercise (i j : Nat) (e : ExerciseSyncData) (errors : List String) : List String :=
  let e1 :=
    if e.clientId = "" then
      errors ++ ["workouts[" ++ toString i ++ "].exercises[" ++ toString j ++
        "].clientId is required and must be a string"]
    else errors
  let e2 :=
    if e.exerciseName = "" then
      e1 ++ ["workouts[" ++ toString i ++ "].exercises[" ++ toString j ++ "].exerciseName is required"]
    else if MAX_EXERCISE_NAME_LENGTH < e.exerciseName.length then
      e1 ++ ["workouts[" ++ toString i ++ "].exercises[" ++ toString j ++
        "].exerciseName cannot exceed 100 characters"]
    else e1
  if MAX_SETS_PER_EXERCISE < e.sets.length then
    e2 ++ ["workouts[" ++ toString i ++ "].exercises[" ++ toString j ++ "] has too many sets: " ++
      toString e.sets.length ++ ". Maximum: 20"]
  else validateSetsLoop i j e.sets 0 e2

/-- The `for (let j = 0; ...)` loop over a workout's exercises. -/
def validateExercisesLoop (i : Nat) : List ExerciseSyncData → Nat → List String → List String
  | [], _, errors => errors
  | e :: rest, j, errors => validateExercisesLoop i rest (j + 1) (validateExercise i j e errors)

/-- The per-workout checks of `validateSyncPayload`: client id, workout-name
length, then either the exercises-count violation (skipping the per-exercise
checks) or the per-exercise loop. -/
def validateWorkout (i : Nat) (w : WorkoutSyncData) (errors : List String) : List String :=
  let e1 :=
    if w.clientId = "" then
      errors ++ ["workouts[" ++ toString i ++ "].clientId is required and must be a string"]
    else errors
  let e2 :=
    match w.name with
    | some n =>
        if n ≠ "" ∧ MAX_WORKOUT_NAME_LENGTH < n.length then
          e1 ++ ["workouts[" ++ toString i ++ "].name cannot exceed 100 characters"]
        else e1
    | none => e1
  if MAX_EXERCISES_PER_WORKOUT < w.exercises.length then
    e2 ++ ["workouts[" ++ toString i ++ "] has too many exercises: " ++
      toString w.exercises.length ++ ". Maximum: 50"]
  else validateExercisesLoop i w.exercises 0 e2

/-- The `for (let i = 0; ...)` loop over the payload's workouts, with the
stop-early cap checked after each workout. -/
def validateWorkoutsLoop : List WorkoutSyncData → Nat → List String → List String
  | [], _, errors => errors
  | w :: rest, i, errors =>
      let e1 := validateWorkout i w errors
      if 20 < e1.length then e1 ++ ["Too many validation errors. Stopping validation."]
      else validateWorkoutsLoop rest (i + 1) e1

/-- `SyncPayloadValidationResult` from `validation.ts`. -/
structure SyncPayloadValidationResult where
  valid : Bool
  errors : List String
deriving DecidableEq

/-- The device id checks of `validateSyncPayload`. -/
def deviceIdErrors (p : SyncPayload) : List String :=
  if p.deviceId = "" then ["deviceId is required and must be a string"]
  else if 100 < p.deviceId.length then ["deviceId cannot exceed 100 characters"]
  else []

/-- `validateSyncPayload` from `validation.ts`: device id checks, the early
return on the workout-count limit, then the nested per-workout loop. -/
def validateSyncPayload (p : SyncPayload) : SyncPayloadValidationResult :=
  let e0 : List String := deviceIdErrors p
  if MAX_WORKOUTS_PER_SYNC < p.workouts.length then
    { valid := false,
      errors := e0 ++ ["Too many workouts: " ++ toString p.workouts.length ++
        ". Maximum allowed: 100"] }
  else
    let e1 := validateWorkoutsLoop p.workouts 0 e0
    { valid := e1.isEmpty, errors := e1 }

/-- The outcome of the `POST /api/sync` route handler in `index.ts`. -/
inductive HandlerResult where
  | badRequest (validationErrors : List String)
  | ok (resp : SyncResponse)
  | serverError (msg : String)
deriving DecidableEq

/-- The `POST /api/sync` handler in `index.ts`: validate the payload structure
and size limits first and reject with 400 before any mutation, otherwise run the
sync and map a thrown error to a 500 response. -/
def syncHandler (env : SyncEnv) (db : Db) (gen : Nat) (uid : String)
    (payload : SyncPayload) (now : Nat) : HandlerResult × Db × Nat :=
  let v := validateSyncPayload payload
  if v.valid then
    match syncUserData env db gen uid payload now with
    | (.ok resp, db1, gen1) => (.ok resp, db1, gen1)
    | (.error msg, db1, gen1) => (.serverError msg, db1, gen1)
  else (.badRequest v.errors, db, gen)

/-- `MAX_RETRIES` of `createWorkoutFromSync`. -/
def MAX_RETRIES : Nat := 2

/-- Whether the character list starts with the pattern. -/
def charsStartWith : List Char → List Char → Bool
  | _, [] => true
  | [], _ :: _ => false
  | a :: as, b :: bs => a == b && charsStartWith as bs

/-- Whether the pattern occurs inside the character list. -/
def charsContain : List Char → List Char → Bool
  | [], pat => pat.isEmpty
  | a :: rest, pat => charsStartWith (a :: rest) pat || charsContain rest pat

/-- JavaScript `haystack.includes(needle)`. -/
def strContainsSub (s pat : String) : Bool :=
  charsContain s.toList pat.toList

/-- The error-message classification of `createWorkoutFromSync`: only the three
foreign-key substrings are recognised as retryable constraint violations. -/
def isForeignKeyError (msg : String) : Bool :=
  strContainsSub msg "foreign key" ||
  strContainsSub msg "violates foreign key constraint" ||
  strContainsSub msg "FOREIGN KEY"

/-- The retry recursion of `createWorkoutFromSync`. `txOutcome k` is the fate of
the k-th transaction attempt (`none` = commit); `dbAt k` is the database and id
counter that attempt observes, which models both the fresh re-resolution of every
catalog id on each attempt and concurrent writes between attempts. The source
recurses on `retryCount` bounded by `retryCount < MAX_RETRIES`; here
`retriesLeft = MAX_RETRIES - retryCount`, so that guard is `retriesLeft > 0`.
The second component of the result counts the attempts made. -/
def createWorkoutWithRetry (txOutcome : Nat → Option String) (dbAt : Nat → Db × Nat)
    (now : Nat) (uid : String) (w : WorkoutSyncData) :
    Nat → Nat → Except String (Db × Nat) × Nat
  | retriesLeft, attempt =>
      match txOutcome attempt with
      | none =>
          ( .ok (createWorkoutFromSync (dbAt attempt).1 (dbAt attempt).2 now uid w w.updatedAt),
            attempt + 1)
      | some msg =>
          match retriesLeft with
          | 0 => (.error msg, attempt + 1)
          | n + 1 =>
              if isForeignKeyError msg then
                createWorkoutWithRetry txOutcome dbAt now uid w n (attempt + 1)
              else (.error msg, attempt + 1)

/-- `createWorkoutFromSync` as invoked (retryCount = 0). -/
def createWorkoutFromSyncRetrying (txOutcome : Nat → Option String) (dbAt : Nat → Db × Nat)
    (now : Nat) (uid : String) (w : WorkoutSyncData) :
    Except String (Db × Nat) × Nat :=
  createWorkoutWithRetry txOutcome dbAt now uid w MAX_RETRIES 0

/-- Specification-side rendering of one stored exercise instance with its sets,
used to state what the change-feed fold must produce. -/
def renderExercise (db : Db) (e : ExerciseRow) : ExerciseSyncData :=
  { baseExerciseData e with
    sets := (db.sets.filter (fun s => s.workoutExerciseId == e.id)).map (renderSetData e) }

/-- Specification-side rendering of one stored workout as a nested tree: the
workout's fields, its exercise instances in table order, each with its sets in
table order. -/
def renderWorkout (db : Db) (w : WorkoutRow) : WorkoutSyncData :=
  { baseWorkoutData w with
    exercises := (db.workoutExercises.filter (fun e => e.workoutId == w.id)).map (renderExercise db) }

/-- The user's current sync status as recorded in the metadata table. -/
def statusOf (db : Db) (uid : String) : Option String :=
  (db.syncMetadata.find? (fun m => m.userId == uid)).map (·.currentSyncStatus)

/-- The user's recorded last sync error. -/
def lastErrorOf (db : Db) (uid : String) : Option SyncErrorInfo :=
  (db.syncMetadata.find? (fun m => m.userId == uid)).bind (·.lastSyncError)

/-- A payload violating one of the declared size/field limits. -/
def ViolatesLimits (p : SyncPayload) : Prop :=
  p.deviceId = "" ∨ 100 < p.deviceId.length ∨ 100 < p.workouts.length ∨
  (∃ w ∈ p.workouts, 50 < w.exercises.length) ∨
  (∃ w ∈ p.workouts, ∃ e ∈ w.exercises, 20 < e.sets.length) ∨
  (∃ w ∈ p.workouts, ∃ e ∈ w.exercises, e.exerciseName = "" ∨ 100 < e.exerciseName.length) ∨
  (∃ w ∈ p.workouts, ∃ e ∈ w.exercises, ∃ t ∈ e.sets,
    t.reps < 0 ∨ MAX_REPS < t.reps ∨ t.weight < 0 ∨ MAX_WEIGHT_LBS < t.weight)

/-- The empty database. -/
def emptyDb : Db :=
  { workouts := [], workoutExercises := [], sets := [], exercises := [],
    syncConflictLog := [], syncMetadata := [], userDevices := [], userExerciseHistory := [] }

/-- A concrete set payload used by witnesses. -/
def sampleSet : SetSyncData :=
  { clientId := "s1", reps := 8, weight := 135, setType := "working",
    exerciseTypeName := "Bench Press", exerciseTypePrimaryMuscles := ["chest"],
    exerciseTypeMuscleGroups := none, updatedAt := 100 }

/-- A concrete exercise payload used by witnesses. -/
def sampleEx : ExerciseSyncData :=
  { clientId := "e1", exerciseName := "Bench Press", primaryMuscles := some ["chest"],
    muscleGroups := none, sets := [sampleSet], updatedAt := 100 }

/-- A concrete workout payload used by witnesses. -/
def sampleW : WorkoutSyncData :=
  { clientId := "w1", userId := "u1", date := 50, name := some "Push",
    durationSeconds := some 3600, isCompleted := true, startTime := none, endTime := none,
    exercises := [sampleEx], updatedAt := 100 }

/-- A concrete sync payload used by witnesses. -/
def samplePayload : SyncPayload :=
  { deviceId := "dev1", deviceInfo := none, lastSyncTimestamp := none, workouts := [sampleW] }

/-- A concrete stored workout row used by witnesses and counterexamples. -/
def storedW : WorkoutRow :=
  { id := 7, userId := "u1", clientId := "w1", date := 40, name := some "Old",
    durationSeconds := some 1800, isCompleted := false, startTime := none, endTime := none,
    updatedAt := 1000, clientUpdatedAt := 30, lastSyncedAt := 900 }

/-- The sum of the uploaded and conflict counters of a sync outcome, used to
state the stats partition on a concrete run. -/
def statsSumOfRun (x : Except String SyncResponse) : Option Nat :=
  x.toOption.map (fun r => r.stats.uploaded + r.stats.conflicts)

/-- A set violating its declared field limits. -/
def SetViol (t : SetSyncData) : Prop :=
  t.reps < 0 ∨ MAX_REPS < t.reps ∨ t.weight < 0 ∨ MAX_WEIGHT_LBS < t.weight

/-- An exercise violating its declared size/field limits. -/
def ExViol (e : ExerciseSyncData) : Prop :=
  MAX_SETS_PER_EXERCISE < e.sets.length ∨ e.exerciseName = "" ∨
  MAX_EXERCISE_NAME_LENGTH < e.exerciseName.length ∨ ∃ t ∈ e.sets, SetViol t

/-- A workout violating its declared size/field limits. -/
def WViol (w : WorkoutSyncData) : Prop :=
  MAX_EXERCISES_PER_WORKOUT < w.exercises.length ∨ ∃ e ∈ w.exercises, ExViol e

/-- A payload of 101 workouts, violating the workout-count limit. -/
def manyWorkoutsPayload : SyncPayload :=
  { deviceId := "dev1", deviceInfo := none, lastSyncTimestamp := none,
    workouts := List.replicate 101 sampleW }

/-- An exercise carrying 51 sets, violating the per-exercise set limit. -/
def manySetsEx : ExerciseSyncData :=
  { sampleEx with sets := List.replicate 51 sampleSet }

/-- A workout whose single exercise carries 51 sets. -/
def manySetsW : WorkoutSyncData :=
  { sampleW with exercises := [manySetsEx] }

/-- A payload whose single workout carries an exercise with 51 sets. -/
def manySetsPayload : SyncPayload :=
  { deviceId := "dev1", deviceInfo := none, lastSyncTimestamp := none,
    workouts := [manySetsW] }

/-- Well-formedness of the `sets` table relative to the id counter: distinct
server ids, all below the counter. -/
def SetsWF (db : Db) (gen : Nat) : Prop :=
  (db.sets.map (·.id)).Nodup ∧ ∀ s ∈ db.sets, s.id < gen

/-- Well-formedness of the `workout_exercises` table relative to the id counter. -/
def ExercisesWF (db : Db) (gen : Nat) : Prop :=
  (db.workoutExercises.map (·.id)).Nodup ∧ ∀ e ∈ db.workoutExercises, e.id < gen

/-- The stable content of a set map entry: some stored row carries its id, its
exercise parent and its client id (stable because updates never change these). -/
def SetMapOk (db : Db) (exId : Nat) (m : List (String × SetRow)) : Prop :=
  ∀ p ∈ m, ∃ r ∈ db.sets, r.id = p.2.id ∧ r.workoutExerciseId = exId ∧ r.clientId = p.1

/-- The stable content of an exercise map entry. -/
def ExMapOk (db : Db) (wid : Nat) (m : List (String × ExerciseRow)) : Prop :=
  ∀ p ∈ m, ∃ r ∈ db.workoutExercises, r.id = p.2.id ∧ r.workoutId = wid ∧ r.clientId = p.1

/-- C5 scenario: a stored exercise instance (`c5exA`) absent from the incoming
list, and a matched one (`c5exB`) with a stored set absent from its incoming
set list. -/
def c5e : ExerciseSyncData :=
  { clientId := "eb", exerciseName := "Bench", primaryMuscles := some ["chest"],
    muscleGroups := none, sets := [], updatedAt := 50 }

def c5w : WorkoutSyncData :=
  { clientId := "w1", userId := "u1", date := 1, name := none, durationSeconds := none,
    isCompleted := true, startTime := none, endTime := none, exercises := [c5e],
    updatedAt := 90 }

def c5exA : ExerciseRow :=
  { id := 1, workoutId := 5, clientId := "ea", exerciseId := 0, orderIndex := 0,
    exerciseName := "Squat", primaryMuscles := [], updatedAt := 100, clientUpdatedAt := 0,
    lastSyncedAt := 0 }

def c5exB : ExerciseRow :=
  { id := 2, workoutId := 5, clientId := "eb", exerciseId := 0, orderIndex := 1,
    exerciseName := "Bench", primaryMuscles := [], updatedAt := 30, clientUpdatedAt := 0,
    lastSyncedAt := 0 }

def c5set1 : SetRow :=
  { id := 3, workoutExerciseId := 2, clientId := "s1", setNumber := 1, reps := 5,
    weightLbs := 100, setType := "working", updatedAt := 40, clientUpdatedAt := 0,
    lastSyncedAt := 0 }

def c5setA : SetRow :=
  { id := 4, workoutExerciseId := 1, clientId := "sa", setNumber := 1, reps := 5,
    weightLbs := 100, setType := "working", updatedAt := 70, clientUpdatedAt := 0,
    lastSyncedAt := 0 }

def c5db : Db :=
  { workouts := [], workoutExercises := [c5exA, c5exB], sets := [c5set1, c5setA],
    exercises := [], syncConflictLog := [], syncMetadata := [], userDevices := [],
    userExerciseHistory := [] }

/-- C4 scenario: a merged workout carrying two matched exercises, one with a
strictly newer client timestamp than its server counterpart and one strictly
older; the older (losing) one carries a stored set absent from its incoming
set list. -/
def c4e1 : ExerciseSyncData :=
  { clientId := "x1", exerciseName := "A", primaryMuscles := some [],
    muscleGroups := none, sets := [], updatedAt := 200 }

def c4e2 : ExerciseSyncData :=
  { clientId := "x2", exerciseName := "B", primaryMuscles := some [],
    muscleGroups := none, sets := [], updatedAt := 50 }

def c4w : WorkoutSyncData :=
  { clientId := "w4", userId := "u1", date := 1, name := none, durationSeconds := none,
    isCompleted := true, startTime := none, endTime := none, exercises := [c4e1, c4e2],
    updatedAt := 300 }

def c4ex1 : ExerciseRow :=
  { id := 1, workoutId := 9, clientId := "x1", exerciseId := 0, orderIndex := 0,
    exerciseName := "A", primaryMuscles := [], updatedAt := 100, clientUpdatedAt := 0,
    lastSyncedAt := 0 }

def c4ex2 : ExerciseRow :=
  { id := 2, workoutId := 9, clientId := "x2", exerciseId := 0, orderIndex := 1,
    exerciseName := "B", primaryMuscles := [], updatedAt := 100, clientUpdatedAt := 0,
    lastSyncedAt := 0 }

def c4sibset : SetRow :=
  { id := 3, workoutExerciseId := 2, clientId := "s2", setNumber := 1, reps := 5,
    weightLbs := 100, setType := "working", updatedAt := 40, clientUpdatedAt := 0,
    lastSyncedAt := 0 }

def c4db : Db :=
  { workouts := [], workoutExercises := [c4ex1, c4ex2], sets := [c4sibset],
    exercises := [], syncConflictLog := [], syncMetadata := [], userDevices := [],
    userExerciseHistory := [] }

/-- The `lastServerSync` field of a successful sync response. -/
def lastServerSyncOf (x : Except String SyncResponse) : Option Nat :=
  match x with
  | .ok r => some r.serverData.lastServerSync
  | .error _ => none

/-- C9 scenario: two workouts of the same user with out-of-order dates, one
carrying an exercise with a set. -/
def c9w1 : WorkoutRow :=
  { id := 1, userId := "u1", clientId := "a", date := 5, name := none,
    durationSeconds := none, isCompleted := true, startTime := none, endTime := none,
    updatedAt := 100, clientUpdatedAt := 0, lastSyncedAt := 0 }

def c9w2 : WorkoutRow :=
  { id := 2, userId := "u1", clientId := "b", date := 3, name := none,
    durationSeconds := none, isCompleted := true, startTime := none, endTime := none,
    updatedAt := 100, clientUpdatedAt := 0, lastSyncedAt := 0 }

def c9ex : ExerciseRow :=
  { id := 4, workoutId := 1, clientId := "e", exerciseId := 0, orderIndex := 0,
    exerciseName := "A", primaryMuscles := [], updatedAt := 10, clientUpdatedAt := 0,
    lastSyncedAt := 0 }

def c9set : SetRow :=
  { id := 5, workoutExerciseId := 4, clientId := "s", setNumber := 1, reps := 5,
    weightLbs := 10, setType := "working", updatedAt := 10, clientUpdatedAt := 0,
    lastSyncedAt := 0 }

def c9db : Db :=
  { workouts := [c9w1, c9w2], workoutExercises := [c9ex], sets := [c9set],
    exercises := [], syncConflictLog := [], syncMetadata := [], userDevices := [],
    userExerciseHistory := [] }

/-! ### Frame lemmas: which tables each operation leaves untouched -/

theorem getOrCreateExerciseId_workouts (db : Db) (gen : Nat) (n : String) (m : List String) :
    (getOrCreateExerciseId db gen n m).2.1.workouts = db.workouts := by
  unfold getOrCreateExerciseId; split <;> rfl

theorem getOrCreateExerciseId_workoutExercises (db : Db) (gen : Nat) (n : String) (m : List String) :
    (getOrCreateExerciseId db gen n m).2.1.workoutExercises = db.workoutExercises := by
  unfold getOrCreateExerciseId; split <;> rfl

theorem getOrCreateExerciseId_sets (db : Db) (gen : Nat) (n : String) (m : List String) :
    (getOrCreateExerciseId db gen n m).2.1.sets = db.sets := by
  unfold getOrCreateExerciseId; split <;> rfl

theorem getOrCreateExerciseId_log (db : Db) (gen : Nat) (n : String) (m : List String) :
    (getOrCreateExerciseId db gen n m).2.1.syncConflictLog = db.syncConflictLog := by
  unfold getOrCreateExerciseId; split <;> rfl

theorem resolveLibraryIds_workouts (exs : List ExerciseSyncData) :
    ∀ db gen, (resolveLibraryIds db gen exs).1.workouts = db.workouts := by
  induction exs with
  | nil => intro db gen; rfl
  | cons e rest ih =>
      intro db gen
      simp [resolveLibraryIds, ih, getOrCreateExerciseId_workouts]

theorem resolveLibraryIds_workoutExercises (exs : List ExerciseSyncData) :
    ∀ db gen, (resolveLibraryIds db gen exs).1.workoutExercises = db.workoutExercises := by
  induction exs with
  | nil => intro db gen; rfl
  | cons e rest ih =>
      intro db gen
      simp [resolveLibraryIds, ih, getOrCreateExerciseId_workoutExercises]

theorem resolveLibraryIds_sets (exs : List ExerciseSyncData) :
    ∀ db gen, (resolveLibraryIds db gen exs).1.sets = db.sets := by
  induction exs with
  | nil => intro db gen; rfl
  | cons e rest ih =>
      intro db gen
      simp [resolveLibraryIds, ih, getOrCreateExerciseId_sets]

theorem resolveLibraryIds_log (exs : List ExerciseSyncData) :
    ∀ db gen, (resolveLibraryIds db gen exs).1.syncConflictLog = db.syncConflictLog := by
  induction exs with
  | nil => intro db gen; rfl
  | cons e rest ih =>
      intro db gen
      simp [resolveLibraryIds, ih, getOrCreateExerciseId_log]

theorem insertSetsLoop_workouts (ss : List SetSyncData) (now : Nat) (exId : Nat) :
    ∀ db gen i, (insertSetsLoop now exId db gen ss i).1.workouts = db.workouts := by
  induction ss with
  | nil => intro db gen i; rfl
  | cons t rest ih => intro db gen i; simp [insertSetsLoop, ih]

theorem insertSetsLoop_workoutExercises (ss : List SetSyncData) (now : Nat) (exId : Nat) :
    ∀ db gen i, (insertSetsLoop now exId db gen ss i).1.workoutExercises = db.workoutExercises := by
  induction ss with
  | nil => intro db gen i; rfl
  | cons t rest ih => intro db gen i; simp [insertSetsLoop, ih]

theorem insertSetsLoop_log (ss : List SetSyncData) (now : Nat) (exId : Nat) :
    ∀ db gen i, (insertSetsLoop now exId db gen ss i).1.syncConflictLog = db.syncConflictLog := by
  induction ss with
  | nil => intro db gen i; rfl
  | cons t rest ih => intro db gen i; simp [insertSetsLoop, ih]

theorem processClientSets_workouts (ss : List SetSyncData) (now : Nat) (exId : Nat)
    (setMap : List (String × SetRow)) :
    ∀ db gen i, (processClientSets now exId setMap db gen ss i).1.workouts = db.workouts := by
  induction ss with
  | nil => intro db gen i; rfl
  | cons t rest ih =>
      intro db gen i
      simp only [processClientSets]
      cases jsMapGet setMap t.clientId <;> simp [ih] <;> split <;> simp [ih]

theorem processClientSets_workoutExercises (ss : List SetSyncData) (now : Nat) (exId : Nat)
    (setMap : List (String × SetRow)) :
    ∀ db gen i, (processClientSets now exId setMap db gen ss i).1.workoutExercises = db.workoutExercises := by
  induction ss with
  | nil => intro db gen i; rfl
  | cons t rest ih =>
      intro db gen i
      simp only [processClientSets]
      cases jsMapGet setMap t.clientId <;> simp [ih] <;> split <;> simp [ih]

theorem processClientSets_log (ss : List SetSyncData) (now : Nat) (exId : Nat)
    (setMap : List (String × SetRow)) :
    ∀ db gen i, (processClientSets now exId setMap db gen ss i).1.syncConflictLog = db.syncConflictLog := by
  induction ss with
  | nil => intro db gen i; rfl
  | cons t rest ih =>
      intro db gen i
      simp only [processClientSets]
      cases jsMapGet setMap t.clientId <;> simp [ih] <;> split <;> simp [ih]

theorem deleteMissingSets_workouts (entries : List (String × SetRow)) (threshold : Nat)
    (processed : List String) :
    ∀ db, (deleteMissingSets threshold processed db entries).workouts = db.workouts := by
  induction entries with
  | nil => intro db; rfl
  | cons p rest ih =>
      intro db
      simp only [deleteMissingSets]
      split <;> [skip; split] <;> simp [ih]

theorem deleteMissingSets_workoutExercises (entries : List (String × SetRow)) (threshold : Nat)
    (processed : List String) :
    ∀ db, (deleteMissingSets threshold processed db entries).workoutExercises = db.workoutExercises := by
  induction entries with
  | nil => intro db; rfl
  | cons p rest ih =>
      intro db
      simp only [deleteMissingSets]
      split <;> [skip; split] <;> simp [ih]

theorem deleteMissingSets_log (entries : List (String × SetRow)) (threshold : Nat)
    (processed : List String) :
    ∀ db, (deleteMissingSets threshold processed db entries).syncConflictLog = db.syncConflictLog := by
  induction entries with
  | nil => intro db; rfl
  | cons p rest ih =>
      intro db
      simp only [deleteMissingSets]
      split <;> [skip; split] <;> simp [ih]

theorem syncExerciseSets_workouts (db : Db) (gen : Nat) (now : Nat) (exId : Nat)
    (ss : List SetSyncData) (ets : Nat) :
    (syncExerciseSets db gen now exId ss ets).1.workouts = db.workouts := by
  simp [syncExerciseSets, deleteMissingSets_workouts, processClientSets_workouts]

theorem syncExerciseSets_workoutExercises (db : Db) (gen : Nat) (now : Nat) (exId : Nat)
    (ss : List SetSyncData) (ets : Nat) :
    (syncExerciseSets db gen now exId ss ets).1.workoutExercises = db.workoutExercises := by
  simp [syncExerciseSets, deleteMissingSets_workoutExercises, processClientSets_workoutExercises]

theorem syncExerciseSets_log (db : Db) (gen : Nat) (now : Nat) (exId : Nat)
    (ss : List SetSyncData) (ets : Nat) :
    (syncExerciseSets db gen now exId ss ets).1.syncConflictLog = db.syncConflictLog := by
  simp [syncExerciseSets, deleteMissingSets_log, processClientSets_log]

theorem processClientExercises_workouts (exs : List ExerciseSyncData) (now : Nat)
    (wid : Nat) (libIds : List (String × Nat)) (exMap : List (String × ExerciseRow)) :
    ∀ db gen i, (processClientExercises now wid libIds exMap db gen exs i).1.workouts = db.workouts := by
  induction exs with
  | nil => intro db gen i; rfl
  | cons e rest ih =>
      intro db gen i
      simp only [processClientExercises]
      cases jsMapGet exMap e.clientId with
      | some ex =>
          simp only [ih, syncExerciseSets_workouts]
          split <;> rfl
      | none => simp [ih, insertSetsLoop_workouts]

theorem processClientExercises_log (exs : List ExerciseSyncData) (now : Nat)
    (wid : Nat) (libIds : List (String × Nat)) (exMap : List (String × ExerciseRow)) :
    ∀ db gen i, (processClientExercises now wid libIds exMap db gen exs i).1.syncConflictLog = db.syncConflictLog := by
  induction exs with
  | nil => intro db gen i; rfl
  | cons e rest ih =>
      intro db gen i
      simp only [processClientExercises]
      cases jsMapGet exMap e.clientId with
      | some ex =>
          simp only [ih, syncExerciseSets_log]
          split <;> rfl
      | none => simp [ih, insertSetsLoop_log]

theorem deleteMissingExercises_workouts (entries : List (String × ExerciseRow)) (ts : Nat)
    (processed : List String) :
    ∀ db, (deleteMissingExercises ts processed db entries).workouts = db.workouts := by
  induction entries with
  | nil => intro db; rfl
  | cons p rest ih =>
      intro db
      simp only [deleteMissingExercises]
      split <;> [skip; split] <;> simp [ih]

theorem deleteMissingExercises_log (entries : List (String × ExerciseRow)) (ts : Nat)
    (processed : List String) :
    ∀ db, (deleteMissingExercises ts processed db entries).syncConflictLog = db.syncConflictLog := by
  induction entries with
  | nil => intro db; rfl
  | cons p rest ih =>
      intro db
      simp only [deleteMissingExercises]
      split <;> [skip; split] <;> simp [ih]

/-- `updateWorkoutFromSync` rewrites exactly the workout rows with the target id
and touches no other row of the `workouts` table. -/
theorem updateWorkoutFromSync_workouts (db : Db) (gen : Nat) (now : Nat) (wid : Nat)
    (w : WorkoutSyncData) (ts : Nat) :
    (updateWorkoutFromSync db gen now wid w ts).1.workouts =
      db.workouts.map (applyWorkoutFieldsUpdate now w ts wid) := by
  simp [updateWorkoutFromSync, deleteMissingExercises_workouts, processClientExercises_workouts,
    resolveLibraryIds_workouts]

/-- `updateWorkoutFromSync` never writes the conflict log. -/
theorem updateWorkoutFromSync_log (db : Db) (gen : Nat) (now : Nat) (wid : Nat)
    (w : WorkoutSyncData) (ts : Nat) :
    (updateWorkoutFromSync db gen now wid w ts).1.syncConflictLog = db.syncConflictLog := by
  simp [updateWorkoutFromSync, deleteMissingExercises_log, processClientExercises_log,
    resolveLibraryIds_log]

/-! ### C3: strict last-writer-wins at the workout level -/

/-- C3: for an existing server workout with stored server timestamp `T0` and an
incoming workout carrying client timestamp `T1`: if `T1 > T0` the stored
workout-level fields are updated to equal the payload's and no conflict is
logged; if `T1 ≤ T0` (ties included) the stored workout rows are left unchanged
and exactly one `server_wins` conflict record is appended to the conflict log. -/
theorem C3_strict_lww (db : Db) (gen : Nat) (now : Nat) (existing : WorkoutRow)
    (w : WorkoutSyncData) (ts : Nat) (hmem : existing ∈ db.workouts) :
    (existing.updatedAt < ts →
      (handleWorkoutUpdate db gen now existing w ts).1.syncConflictLog = db.syncConflictLog ∧
      (∀ q ∈ (handleWorkoutUpdate db gen now existing w ts).1.workouts, q.id = existing.id →
        q.date = w.date ∧ q.name = w.name ∧ q.durationSeconds = w.durationSeconds ∧
        q.isCompleted = w.isCompleted ∧ q.startTime = w.startTime ∧ q.endTime = w.endTime ∧
        q.clientUpdatedAt = ts ∧ q.updatedAt = now) ∧
      (∃ q ∈ (handleWorkoutUpdate db gen now existing w ts).1.workouts, q.id = existing.id)) ∧
    (ts ≤ existing.updatedAt →
      (handleWorkoutUpdate db gen now existing w ts).1.workouts = db.workouts ∧
      (handleWorkoutUpdate db gen now existing w ts).1.syncConflictLog = db.syncConflictLog ++
        [{ userId := existing.userId, entityType := "workout", entityId := existing.id,
           clientTimestamp := ts, serverTimestamp := existing.updatedAt,
           resolution := "server_wins", resolvedAt := now, resolvedBy := "system" }]) := by
  constructor
  · intro h
    simp only [handleWorkoutUpdate, if_pos h]
    refine ⟨updateWorkoutFromSync_log .., ?_, ?_⟩
    · intro q hq hid
      rw [updateWorkoutFromSync_workouts] at hq
      rcases List.mem_map.mp hq with ⟨q0, hq0, rfl⟩
      unfold applyWorkoutFieldsUpdate
      unfold applyWorkoutFieldsUpdate at hid
      by_cases hcase : q0.id = existing.id
      · simp [hcase]
      · simp [hcase] at hid
    · refine ⟨applyWorkoutFieldsUpdate now w ts existing.id existing, ?_, ?_⟩
      · rw [updateWorkoutFromSync_workouts]
        exact List.mem_map_of_mem _ hmem
      · unfold applyWorkoutFieldsUpdate
        split <;> rfl
  · intro h
    simp only [handleWorkoutUpdate, if_neg (not_lt.mpr h)]
    exact ⟨rfl, rfl⟩

/-- Witness for C3 at a concrete input, exercising both branches. -/
theorem C3_strict_lww_witness :
    ((handleWorkoutUpdate { emptyDb with workouts := [storedW] } 10 2000 storedW sampleW 100).1.workouts
        = [storedW] ∧
     (handleWorkoutUpdate { emptyDb with workouts := [storedW] } 10 2000 storedW sampleW 100).1.syncConflictLog
        = [{ userId := "u1", entityType := "workout", entityId := 7,
             clientTimestamp := 100, serverTimestamp := 1000,
             resolution := "server_wins", resolvedAt := 2000, resolvedBy := "system" }]) ∧
    (∃ q ∈ (handleWorkoutUpdate { emptyDb with workouts := [storedW] } 10 2000 storedW sampleW 5000).1.workouts,
       q.id = storedW.id) := by
  constructor
  · have h := (C3_strict_lww { emptyDb with workouts := [storedW] } 10 2000 storedW sampleW 100
        (by simp)).2 (by decide)
    exact ⟨h.1, h.2⟩
  · exact ((C3_strict_lww { emptyDb with workouts := [storedW] } 10 2000 storedW sampleW 5000
        (by simp)).1 (by decide)).2.2

/-! ### C6: the bounded retry policy of workout creation -/

/-- C6 (amended): the retry policy of `createWorkoutFromSync`. A successful
transaction commits from the state the attempt observes (catalog ids freshly
re-resolved); a failure whose message is not recognised as a foreign-key
violation is surfaced immediately after a single attempt; foreign-key failures
are retried at most `MAX_RETRIES = 2` times with fresh resolution, and surfaced
once the bound is exhausted. -/
theorem C6_retry_policy (txOutcome : Nat → Option String) (dbAt : Nat → Db × Nat)
    (now : Nat) (uid : String) (w : WorkoutSyncData) :
    (txOutcome 0 = none →
      createWorkoutFromSyncRetrying txOutcome dbAt now uid w =
        (.ok (createWorkoutFromSync (dbAt 0).1 (dbAt 0).2 now uid w w.updatedAt), 1)) ∧
    (∀ msg, txOutcome 0 = some msg → isForeignKeyError msg = false →
      createWorkoutFromSyncRetrying txOutcome dbAt now uid w = (.error msg, 1)) ∧
    (∀ msg, txOutcome 0 = some msg → isForeignKeyError msg = true → txOutcome 1 = none →
      createWorkoutFromSyncRetrying txOutcome dbAt now uid w =
        (.ok (createWorkoutFromSync (dbAt 1).1 (dbAt 1).2 now uid w w.updatedAt), 2)) ∧
    (∀ m0 m1 m2, txOutcome 0 = some m0 → isForeignKeyError m0 = true →
      txOutcome 1 = some m1 → isForeignKeyError m1 = true →
      txOutcome 2 = some m2 → isForeignKeyError m2 = true →
      createWorkoutFromSyncRetrying txOutcome dbAt now uid w = (.error m2, 3)) := by
  refine ⟨?_, ?_, ?_, ?_⟩
  · intro h0
    simp [createWorkoutFromSyncRetrying, MAX_RETRIES, createWorkoutWithRetry, h0]
  · intro msg h0 hfk
    simp [createWorkoutFromSyncRetrying, MAX_RETRIES, createWorkoutWithRetry, h0, hfk]
  · intro msg h0 hfk h1
    simp [createWorkoutFromSyncRetrying, MAX_RETRIES, createWorkoutWithRetry, h0, hfk, h1]
  · intro m0 m1 m2 h0 hfk0 h1 hfk1 h2 hfk2
    simp [createWorkoutFromSyncRetrying, MAX_RETRIES, createWorkoutWithRetry,
      h0, hfk0, h1, hfk1, h2, hfk2]

/-- Witness for C6 at a concrete input: a first attempt failing with a
foreign-key message is retried and the second attempt commits. -/
theorem C6_retry_policy_witness :
    createWorkoutFromSyncRetrying
        (fun k => if k = 0 then some "insert or update violates foreign key constraint" else none)
        (fun _ => (emptyDb, 0)) 1000 "u1" sampleW =
      (.ok (createWorkoutFromSync emptyDb 0 1000 "u1" sampleW sampleW.updatedAt), 2) :=
  (C6_retry_policy
      (fun k => if k = 0 then some "insert or update violates foreign key constraint" else none)
      (fun _ => (emptyDb, 0)) 1000 "u1" sampleW).2.2.1
    "insert or update violates foreign key constraint" rfl (by decide) rfl

/-- Counterexample for C6 as stated: a transaction failing with a uniqueness
violation is not retried; the error propagates after a single attempt. -/
theorem C6_counterexample :
    createWorkoutFromSyncRetrying (fun _ => some "duplicate key value violates unique constraint")
        (fun _ => (emptyDb, 0)) 1000 "u1" sampleW =
      (.error "duplicate key value violates unique constraint", 1) := by
  rfl

/-! ### C8: the session metadata always ends completed or failed -/

theorem applySyncMetadataUpdate_userId (now : Nat) (stat deviceId : String)
    (err : Option String) (existing : Option SyncMetadataRow) (m0 : SyncMetadataRow) :
    (applySyncMetadataUpdate now stat deviceId err existing m0).userId = m0.userId := by
  unfold applySyncMetadataUpdate
  split <;> [rfl; split] <;> [rfl; split] <;> rfl

theorem applySyncMetadataUpdate_status (now : Nat) (stat deviceId : String)
    (err : Option String) (existing : Option SyncMetadataRow) (m0 : SyncMetadataRow) :
    (applySyncMetadataUpdate now stat deviceId err existing m0).currentSyncStatus = stat := by
  unfold applySyncMetadataUpdate
  split <;> [rfl; split] <;> [rfl; split] <;> rfl

theorem applySyncMetadataUpdate_failed_error (now : Nat) (deviceId : String)
    (err : Option String) (existing : Option SyncMetadataRow) (m0 : SyncMetadataRow) :
    (applySyncMetadataUpdate now "failed" deviceId err existing m0).lastSyncError =
      err.map (fun msg => { code := "SYNC_ERROR", message := msg, timestamp := now }) := by
  simp [applySyncMetadataUpdate]

theorem find?_replaceFirst (p : α → Bool) (f : α → α) (hf : ∀ a, p a = true → p (f a) = true) :
    ∀ l : List α, List.find? p (replaceFirst p f l) = (List.find? p l).map f := by
  intro l
  induction l with
  | nil => rfl
  | cons x xs ih =>
      cases hx : p x with
      | true => simp [replaceFirst, hx, List.find?_cons, hf x hx]
      | false => simp [replaceFirst, hx, List.find?_cons, ih]

theorem metadata_row_after_update (db : Db) (now : Nat) (uid : String)
    (stat deviceId : String) (err : Option String) :
    ∃ m0 existing,
      (updateSyncMetadata db now uid stat deviceId err).syncMetadata.find?
          (fun m => m.userId == uid) =
        some (applySyncMetadataUpdate now stat deviceId err existing m0) := by
  unfold updateSyncMetadata
  cases hfind : db.syncMetadata.find? (fun m => m.userId == uid) with
  | some m =>
      refine ⟨m, some m, ?_⟩
      simp only
      rw [find?_replaceFirst (fun m => m.userId == uid)
            (applySyncMetadataUpdate now stat deviceId err (some m))
            (fun a ha => by
              simpa [applySyncMetadataUpdate_userId] using ha), hfind]
      rfl
  | none =>
      refine ⟨{ userId := uid, currentSyncStatus := "pending", lastSyncDeviceId := deviceId,
                updatedAt := now, lastSyncStarted := none, lastSyncCompleted := none,
                lastSyncFailed := none, totalSyncs := 0, successfulSyncs := 0,
                failedSyncs := 0, lastSyncError := none }, none, ?_⟩
      simp only
      rw [List.find?_append, hfind]
      simp [List.find?_cons, applySyncMetadataUpdate_userId]

theorem statusOf_updateSyncMetadata (db : Db) (now : Nat) (uid : String)
    (stat deviceId : String) (err : Option String) :
    statusOf (updateSyncMetadata db now uid stat deviceId err) uid = some stat := by
  obtain ⟨m0, existing, h⟩ := metadata_row_after_update db now uid stat deviceId err
  simp [statusOf, h, applySyncMetadataUpdate_status]

theorem lastErrorOf_updateSyncMetadata_failed (db : Db) (now : Nat) (uid : String)
    (deviceId msg : String) :
    lastErrorOf (updateSyncMetadata db now uid "failed" deviceId (some msg)) uid =
      some { code := "SYNC_ERROR", message := msg, timestamp := now } := by
  obtain ⟨m0, existing, h⟩ := metadata_row_after_update db now uid "failed" deviceId (some msg)
  simp [lastErrorOf, h, applySyncMetadataUpdate_failed_error]

/-- Every terminal state of `syncUserData` is one of the two recorded shapes:
an error with the metadata marked failed, or a response with it marked completed. -/
theorem syncUserData_shape (env : SyncEnv) (db : Db) (gen : Nat) (uid : String)
    (payload : SyncPayload) (now : Nat) :
    (∃ msg dbF genF, syncUserData env db gen uid payload now =
        (.error msg, updateSyncMetadata dbF now uid "failed" payload.deviceId (some msg), genF)) ∨
    (∃ resp dbC genC, syncUserData env db gen uid payload now =
        (.ok resp, updateSyncMetadata dbC now uid "completed" payload.deviceId none, genC)) := by
  have hfin : ∀ L, (∃ msg dbF genF, finishSync env uid payload now L =
        (.error msg, updateSyncMetadata dbF now uid "failed" payload.deviceId (some msg), genF)) ∨
      (∃ resp dbC genC, finishSync env uid payload now L =
        (.ok resp, updateSyncMetadata dbC now uid "completed" payload.deviceId none, genC)) := by
    intro L
    cases L with
    | error r => exact Or.inl ⟨_, _, _, rfl⟩
    | ok r =>
        unfold finishSync
        cases env.feedFail with
        | some msg => exact Or.inl ⟨_, _, _, rfl⟩
        | none => exact Or.inr ⟨_, _, _, rfl⟩
  unfold syncUserData
  cases env.deviceFail with
  | some msg => exact Or.inl ⟨_, _, _, rfl⟩
  | none => exact hfin _

/-- C8: every run of `syncUserData` records the session status as `completed`
when a response is returned, and as `failed` with the structured
`{code, message, timestamp}` error when an error propagates; the status is
never left at `syncing`. -/
theorem C8_terminal_metadata (env : SyncEnv) (db : Db) (gen : Nat) (uid : String)
    (payload : SyncPayload) (now : Nat) :
    (∀ resp, (syncUserData env db gen uid payload now).1 = .ok resp →
       statusOf (syncUserData env db gen uid payload now).2.1 uid = some "completed") ∧
    (∀ msg, (syncUserData env db gen uid payload now).1 = .error msg →
       statusOf (syncUserData env db gen uid payload now).2.1 uid = some "failed" ∧
       lastErrorOf (syncUserData env db gen uid payload now).2.1 uid =
         some { code := "SYNC_ERROR", message := msg, timestamp := now }) ∧
    statusOf (syncUserData env db gen uid payload now).2.1 uid ≠ some "syncing" := by
  rcases syncUserData_shape env db gen uid payload now with
      ⟨msg, dbF, genF, heq⟩ | ⟨resp0, dbC, genC, heq⟩
  · rw [heq]
    refine ⟨?_, ?_, ?_⟩
    · intro resp h; exact absurd h (by simp)
    · intro m h
      simp only [Except.error.injEq] at h
      subst h
      exact ⟨statusOf_updateSyncMetadata .., lastErrorOf_updateSyncMetadata_failed ..⟩
    · simp [statusOf_updateSyncMetadata]
  · rw [heq]
    refine ⟨?_, ?_, ?_⟩
    · intro resp h
      exact statusOf_updateSyncMetadata ..
    · intro m h; exact absurd h (by simp)
    · simp [statusOf_updateSyncMetadata]

/-- Witness for C8 at a concrete input: a successful run ends `completed`, a run
whose per-workout transaction throws ends `failed` with the structured error. -/
theorem C8_terminal_metadata_witness :
    statusOf (syncUserData noFail emptyDb 0 "u1" samplePayload 1000).2.1 "u1" = some "completed" ∧
    (statusOf (syncUserData { noFail with workoutFail := fun _ => some "boom" }
        emptyDb 0 "u1" samplePayload 1000).2.1 "u1" = some "failed" ∧
     lastErrorOf (syncUserData { noFail with workoutFail := fun _ => some "boom" }
        emptyDb 0 "u1" samplePayload 1000).2.1 "u1" =
       some { code := "SYNC_ERROR", message := "boom", timestamp := 1000 }) := by
  constructor
  · exact (C8_terminal_metadata noFail emptyDb 0 "u1" samplePayload 1000).1 _ (by rfl)
  · exact (C8_terminal_metadata { noFail with workoutFail := fun _ => some "boom" }
      emptyDb 0 "u1" samplePayload 1000).2.1 "boom" (by rfl)

/-! ### C10: every payload workout is counted exactly once in the stats -/

theorem processWorkoutsLoop_counts (env : SyncEnv) (now : Nat) (uid : String)
    (wmap : List (String × WorkoutRow)) :
    ∀ (ws : List WorkoutSyncData) (db : Db) (gen : Nat) (conflicts : List ConflictData)
      (u c : Nat) r,
      processWorkoutsLoop env now uid wmap db gen conflicts u c ws = .ok r →
      r.2.2.2.1 + r.2.2.2.2 = u + c + ws.length := by
  intro ws
  induction ws with
  | nil =>
      intro db gen conflicts u c r h
      simp only [processWorkoutsLoop, Except.ok.injEq] at h
      subst h
      simp
  | cons w rest ih =>
      intro db gen conflicts u c r h
      simp only [processWorkoutsLoop] at h
      cases hwf : env.workoutFail w.clientId with
      | some msg => rw [hwf] at h; exact absurd h (by simp)
      | none =>
          rw [hwf] at h
          simp only at h
          cases hc : (processWorkoutSyncWithExisting db gen now uid w (jsMapGet wmap w.clientId)).2.2 with
          | some cd =>
              rw [hc] at h
              have := ih _ _ _ _ _ _ h
              simp only [List.length_cons] at *
              omega
          | none =>
              rw [hc] at h
              have := ih _ _ _ _ _ _ h
              simp only [List.length_cons] at *
              omega

/-- C10: a successful sync counts every workout of the payload in exactly one of
the two upload statistics: `stats.uploaded + stats.conflicts` equals the number
of submitted workouts. -/
theorem C10_stats_partition (env : SyncEnv) (db : Db) (gen : Nat) (uid : String)
    (payload : SyncPayload) (now : Nat) (resp : SyncResponse)
    (h : (syncUserData env db gen uid payload now).1 = .ok resp) :
    resp.stats.uploaded + resp.stats.conflicts = payload.workouts.length := by
  unfold syncUserData at h
  cases hdf : env.deviceFail with
  | some msg => rw [hdf] at h; exact absurd h (by simp)
  | none =>
      rw [hdf] at h
      simp only at h
      cases hloop : processWorkoutsLoop env now uid
          (getExistingWorkoutsMap (updateSyncMetadata
              (updateDeviceInfo db now uid payload.deviceId payload.deviceInfo)
              now uid "syncing" payload.deviceId none) uid (payload.workouts.map (fun x => x.clientId)))
          (updateSyncMetadata (updateDeviceInfo db now uid payload.deviceId payload.deviceInfo)
              now uid "syncing" payload.deviceId none)
          gen [] 0 0 payload.workouts with
      | error r => rw [hloop] at h; exact absurd h (by simp [finishSync])
      | ok r =>
          rw [hloop] at h
          have hsum := processWorkoutsLoop_counts env now uid _ _ _ _ _ _ _ _ hloop
          unfold finishSync at h
          cases hff : env.feedFail with
          | some msg => rw [hff] at h; exact absurd h (by simp)
          | none =>
              rw [hff] at h
              simp only [Except.ok.injEq] at h
              subst h
              simpa using hsum

/-- Witness for C10 at a concrete input: one submitted workout, counted once. -/
theorem C10_stats_partition_witness :
    statsSumOfRun (syncUserData noFail emptyDb 0 "u1" samplePayload 1000).1 = some 1 := by
  obtain ⟨resp, hresp⟩ : ∃ resp, (syncUserData noFail emptyDb 0 "u1" samplePayload 1000).1 = .ok resp :=
    ⟨_, rfl⟩
  have hsum := C10_stats_partition noFail emptyDb 0 "u1" samplePayload 1000 resp hresp
  unfold statsSumOfRun
  rw [hresp]
  exact congrArg some (by simpa [samplePayload] using hsum)

/-! ### C7: payload limits are rejected wholesale before any write -/

theorem validateSet_len (i j k : Nat) (t : SetSyncData) (errors : List String) :
    errors.length ≤ (validateSet i j k t errors).length := by
  unfold validateSet
  split_ifs <;> first
    | (simp [List.length_append]; done)
    | (simp [List.length_append]; omega)

theorem validateSetsLoop_len (i j : Nat) :
    ∀ (ss : List SetSyncData) (k : Nat) (errors : List String),
      errors.length ≤ (validateSetsLoop i j ss k errors).length := by
  intro ss
  induction ss with
  | nil => intro k errors; simp [validateSetsLoop]
  | cons t rest ih =>
      intro k errors
      calc errors.length ≤ (validateSet i j k t errors).length := validateSet_len ..
        _ ≤ _ := ih ..

theorem validateExercise_len (i j : Nat) (e : ExerciseSyncData) (errors : List String) :
    errors.length ≤ (validateExercise i j e errors).length := by
  unfold validateExercise
  split_ifs
  all_goals first
    | (simp [List.length_append]; done)
    | (simp [List.length_append]; omega)
    | (refine le_trans ?_ (validateSetsLoop_len ..); simp [List.length_append]; done)
    | (refine le_trans ?_ (validateSetsLoop_len ..); simp [List.length_append]; omega)

theorem validateExercisesLoop_len (i : Nat) :
    ∀ (exs : List ExerciseSyncData) (j : Nat) (errors : List String),
      errors.length ≤ (validateExercisesLoop i exs j errors).length := by
  intro exs
  induction exs with
  | nil => intro j errors; simp [validateExercisesLoop]
  | cons e rest ih =>
      intro j errors
      calc errors.length ≤ (validateExercise i j e errors).length := validateExercise_len ..
        _ ≤ _ := ih ..

theorem validateWorkout_len (i : Nat) (w : WorkoutSyncData) (errors : List String) :
    errors.length ≤ (validateWorkout i w errors).length := by
  unfold validateWorkout
  cases hn : w.name
  all_goals dsimp only
  all_goals split_ifs
  all_goals first
    | (simp [List.length_append]; done)
    | (simp [List.length_append]; omega)
    | (refine le_trans ?_ (validateExercisesLoop_len ..); simp [List.length_append]; done)
    | (refine le_trans ?_ (validateExercisesLoop_len ..); simp [List.length_append]; omega)

theorem validateWorkoutsLoop_len :
    ∀ (ws : List WorkoutSyncData) (i : Nat) (errors : List String),
      errors.length ≤ (validateWorkoutsLoop ws i errors).length := by
  intro ws
  induction ws with
  | nil => intro i errors; simp [validateWorkoutsLoop]
  | cons w rest ih =>
      intro i errors
      unfold validateWorkoutsLoop
      dsimp only
      split
      · calc errors.length ≤ (validateWorkout i w errors).length := validateWorkout_len ..
          _ ≤ _ := by simp [List.length_append]
      · calc errors.length ≤ (validateWorkout i w errors).length := validateWorkout_len ..
          _ ≤ _ := ih ..

theorem validateSet_strict (i j k : Nat) (t : SetSyncData) (errors : List String)
    (h : SetViol t) : errors.length < (validateSet i j k t errors).length := by
  unfold validateSet
  unfold SetViol at h
  split_ifs with h1 h2 h3
  all_goals first
    | (simp [List.length_append]; done)
    | (simp [List.length_append]; omega)
    | (exfalso; unfold MAX_REPS MAX_WEIGHT_LBS at *; omega)

theorem validateSetsLoop_strict (i j : Nat) :
    ∀ (ss : List SetSyncData) (k : Nat) (errors : List String) (t : SetSyncData),
      t ∈ ss → SetViol t → errors.length < (validateSetsLoop i j ss k errors).length := by
  intro ss
  induction ss with
  | nil => intro k errors t ht _; exact absurd ht (List.not_mem_nil t)
  | cons u rest ih =>
      intro k errors t ht hviol
      rcases List.mem_cons.mp ht with rfl | ht
      · calc errors.length < (validateSet i j k t errors).length :=
              validateSet_strict i j k t errors hviol
          _ ≤ _ := validateSetsLoop_len ..
      · calc errors.length ≤ (validateSet i j k u errors).length := validateSet_len ..
          _ < _ := ih _ _ t ht hviol

theorem validateExercise_strict (i j : Nat) (e : ExerciseSyncData) (errors : List String)
    (h : ExViol e) : errors.length < (validateExercise i j e errors).length := by
  unfold ExViol at h
  unfold validateExercise
  rcases h with h | h | h | ⟨t, ht, hviol⟩
  all_goals split_ifs
  all_goals first
    | (simp [List.length_append]; done)
    | (simp [List.length_append]; omega)
    | (simp_all [MAX_EXERCISE_NAME_LENGTH]; done)
    | (refine lt_of_le_of_lt ?_ (validateSetsLoop_strict i j e.sets 0 _ t ht hviol);
        simp [List.length_append]; done)
    | (refine lt_of_le_of_lt ?_ (validateSetsLoop_strict i j e.sets 0 _ t ht hviol);
        simp [List.length_append]; omega)
    | (refine lt_of_lt_of_le ?_ (validateSetsLoop_len ..); simp [List.length_append]; done)
    | (refine lt_of_lt_of_le ?_ (validateSetsLoop_len ..); simp [List.length_append]; omega)

theorem validateExercisesLoop_strict (i : Nat) :
    ∀ (exs : List ExerciseSyncData) (j : Nat) (errors : List String) (e : ExerciseSyncData),
      e ∈ exs → ExViol e → errors.length < (validateExercisesLoop i exs j errors).length := by
  intro exs
  induction exs with
  | nil => intro j errors e he _; exact absurd he (List.not_mem_nil e)
  | cons u rest ih =>
      intro j errors e he hviol
      rcases List.mem_cons.mp he with rfl | he
      · calc errors.length < (validateExercise i j e errors).length :=
              validateExercise_strict i j e errors hviol
          _ ≤ _ := validateExercisesLoop_len ..
      · calc errors.length ≤ (validateExercise i j u errors).length := validateExercise_len ..
          _ < _ := ih _ _ e he hviol

theorem validateWorkout_strict (i : Nat) (w : WorkoutSyncData) (errors : List String)
    (h : WViol w) : errors.length < (validateWorkout i w errors).length := by
  unfold WViol at h
  unfold validateWorkout
  rcases h with h | ⟨e, he, hviol⟩
  all_goals cases hn : w.name
  all_goals dsimp only
  all_goals split_ifs
  all_goals first
    | (simp [List.length_append]; done)
    | (simp [List.length_append]; omega)
    | (refine lt_of_le_of_lt ?_ (validateExercisesLoop_strict i w.exercises 0 _ e he hviol);
        simp [List.length_append]; done)
    | (refine lt_of_le_of_lt ?_ (validateExercisesLoop_strict i w.exercises 0 _ e he hviol);
        simp [List.length_append]; omega)

theorem validateWorkoutsLoop_strict :
    ∀ (ws : List WorkoutSyncData) (i : Nat) (errors : List String) (w : WorkoutSyncData),
      w ∈ ws → WViol w → errors.length < (validateWorkoutsLoop ws i errors).length := by
  intro ws
  induction ws with
  | nil => intro i errors w hw _; exact absurd hw (List.not_mem_nil w)
  | cons u rest ih =>
      intro i errors w hw hviol
      unfold validateWorkoutsLoop
      dsimp only
      rcases List.mem_cons.mp hw with rfl | hw
      · split
        · calc errors.length < (validateWorkout i w errors).length :=
                validateWorkout_strict i w errors hviol
            _ ≤ _ := by simp [List.length_append]
        · calc errors.length < (validateWorkout i w errors).length :=
                validateWorkout_strict i w errors hviol
            _ ≤ _ := validateWorkoutsLoop_len ..
      · split
        · rename_i hcap
          calc errors.length ≤ (validateWorkout i u errors).length := validateWorkout_len ..
            _ < _ := by
              first
                | (simp [List.length_append]; done)
                | (simp [List.length_append]; omega)
        · calc errors.length ≤ (validateWorkout i u errors).length := validateWorkout_len ..
            _ < _ := ih _ _ w hw hviol

/-- The stop-early cap of the validation loop: once a workout's checks push the
error list past 20 entries, the sentinel message is appended and no later
workout is examined. -/
theorem validateWorkoutsLoop_stop (w : WorkoutSyncData) (rest : List WorkoutSyncData)
    (i : Nat) (errors : List String) (h : 20 < (validateWorkout i w errors).length) :
    validateWorkoutsLoop (w :: rest) i errors =
      validateWorkout i w errors ++ ["Too many validation errors. Stopping validation."] := by
  unfold validateWorkoutsLoop
  dsimp only
  rw [if_pos h]

/-- C7: every payload violating the declared size/field limits is rejected in
full by the handler before any database row is written, with the violations
enumerated in a non-empty error list. -/
theorem C7_limit_rejection (env : SyncEnv) (db : Db) (gen : Nat) (uid : String)
    (p : SyncPayload) (now : Nat) (h : ViolatesLimits p) :
    (validateSyncPayload p).valid = false ∧
    (validateSyncPayload p).errors ≠ [] ∧
    syncHandler env db gen uid p now = (.badRequest (validateSyncPayload p).errors, db, gen) ∧
    (∀ (w : WorkoutSyncData) (rest : List WorkoutSyncData) (i : Nat) (errors : List String),
      20 < (validateWorkout i w errors).length →
      validateWorkoutsLoop (w :: rest) i errors =
        validateWorkout i w errors ++ ["Too many validation errors. Stopping validation."]) := by
  have key : (validateSyncPayload p).valid = false ∧ (validateSyncPayload p).errors ≠ [] := by
    unfold validateSyncPayload
    dsimp only
    by_cases hcount : MAX_WORKOUTS_PER_SYNC < p.workouts.length
    · rw [if_pos hcount]
      exact ⟨rfl, by simp⟩
    · rw [if_neg hcount]
      have hlen : 0 < (validateWorkoutsLoop p.workouts 0 (deviceIdErrors p)).length := by
        unfold ViolatesLimits at h
        rcases h with h | h | h | ⟨w, hw, hv⟩ | ⟨w, hw, e, he, hv⟩ |
            ⟨w, hw, e, he, hv⟩ | ⟨w, hw, e, he, t, ht, hv⟩
        · refine lt_of_lt_of_le ?_ (validateWorkoutsLoop_len ..)
          unfold deviceIdErrors
          split_ifs <;> simp_all
        · refine lt_of_lt_of_le ?_ (validateWorkoutsLoop_len ..)
          unfold deviceIdErrors
          split_ifs <;> simp_all
        · exact absurd h (by simpa [MAX_WORKOUTS_PER_SYNC] using hcount)
        · refine lt_of_le_of_lt (Nat.zero_le _)
            (validateWorkoutsLoop_strict p.workouts 0 (deviceIdErrors p) w hw ?_)
          exact Or.inl (by simpa [MAX_EXERCISES_PER_WORKOUT] using hv)
        · refine lt_of_le_of_lt (Nat.zero_le _)
            (validateWorkoutsLoop_strict p.workouts 0 (deviceIdErrors p) w hw ?_)
          exact Or.inr ⟨e, he, Or.inl (by simpa [MAX_SETS_PER_EXERCISE] using hv)⟩
        · refine lt_of_le_of_lt (Nat.zero_le _)
            (validateWorkoutsLoop_strict p.workouts 0 (deviceIdErrors p) w hw ?_)
          rcases hv with hv | hv
          · exact Or.inr ⟨e, he, Or.inr (Or.inl hv)⟩
          · exact Or.inr ⟨e, he, Or.inr (Or.inr (Or.inl
              (by simpa [MAX_EXERCISE_NAME_LENGTH] using hv)))⟩
        · refine lt_of_le_of_lt (Nat.zero_le _)
            (validateWorkoutsLoop_strict p.workouts 0 (deviceIdErrors p) w hw ?_)
          exact Or.inr ⟨e, he, Or.inr (Or.inr (Or.inr ⟨t, ht, hv⟩))⟩
      rcases hres : validateWorkoutsLoop p.workouts 0 (deviceIdErrors p) with _ | ⟨a, rest⟩
      · rw [hres] at hlen; simp at hlen
      · exact ⟨rfl, by simp⟩
  refine ⟨key.1, key.2, ?_, fun w rest i errors hcap => validateWorkoutsLoop_stop w rest i errors hcap⟩
  unfold syncHandler
  dsimp only
  rw [key.1]
  simp

/-- Witness for C7 at the two concrete inputs the claim names: a payload of 101
workouts and a payload whose exercise carries 51 sets are both rejected with the
database untouched. -/
theorem C7_limit_rejection_witness :
    ((validateSyncPayload manyWorkoutsPayload).valid = false ∧
     syncHandler noFail emptyDb 0 "u1" manyWorkoutsPayload 1000 =
       (.badRequest (validateSyncPayload manyWorkoutsPayload).errors, emptyDb, 0)) ∧
    ((validateSyncPayload manySetsPayload).valid = false ∧
     syncHandler noFail emptyDb 0 "u1" manySetsPayload 1000 =
       (.badRequest (validateSyncPayload manySetsPayload).errors, emptyDb, 0)) := by
  constructor
  · have h := C7_limit_rejection noFail emptyDb 0 "u1" manyWorkoutsPayload 1000
      (Or.inr (Or.inr (Or.inl (by decide))))
    exact ⟨h.1, h.2.2.1⟩
  · have h := C7_limit_rejection noFail emptyDb 0 "u1" manySetsPayload 1000
      (Or.inr (Or.inr (Or.inr (Or.inr (Or.inl
        ⟨manySetsW, by simp [manySetsPayload], manySetsEx, by simp [manySetsW], by decide⟩)))))
    exact ⟨h.1, h.2.2.1⟩

/-! ### C1 counterexample and association list toolbox -/

/-- Counterexample for C1 as stated: with an existing server workout resolving to
ServerWins (client timestamp 50 against stored 1000), the incoming unmatched
exercise is not inserted — the exercise table stays empty — so the exercise-list
reconciliation did not run; only the conflict was recorded. -/
theorem C1_counterexample :
    (handleWorkoutUpdate { emptyDb with workouts := [storedW] } 10 2000 storedW sampleW 50).1.workoutExercises
        = [] ∧
    (handleWorkoutUpdate { emptyDb with workouts := [storedW] } 10 2000 storedW sampleW 50).2.2 =
      some { entityType := "workout", entityId := 7, resolution := "server_wins" } :=
  ⟨rfl, rfl⟩

theorem mem_jsMapSet [BEq α] {m : List (α × β)} {k : α} {v : β} {p : α × β}
    (h : p ∈ jsMapSet m k v) : p = (k, v) ∨ p ∈ m := by
  unfold jsMapSet at h
  split at h
  · rcases List.mem_map.mp h with ⟨q, hq, hpq⟩
    by_cases hk : (q.1 == k) = true
    · rw [if_pos hk] at hpq; exact Or.inl hpq.symm
    · rw [if_neg hk] at hpq; exact Or.inr (hpq ▸ hq)
  · rcases List.mem_append.mp h with hm | hm
    · exact Or.inr hm
    · simp at hm; exact Or.inl (by cases p; simp at hm; simp [hm])

theorem foldl_jsMapSet_mem [BEq α] (key : β → α) :
    ∀ (l : List β) (acc : List (α × β)) (p : α × β),
      p ∈ l.foldl (fun m r => jsMapSet m (key r) r) acc →
      p ∈ acc ∨ (p.1 = key p.2 ∧ p.2 ∈ l) := by
  intro l
  induction l with
  | nil => intro acc p h; exact Or.inl h
  | cons r rest ih =>
      intro acc p h
      rcases ih (jsMapSet acc (key r) r) p h with hm | ⟨h1, h2⟩
      · rcases mem_jsMapSet hm with rfl | hm
        · exact Or.inr ⟨rfl, List.mem_cons_self r rest⟩
        · exact Or.inl hm
      · exact Or.inr ⟨h1, List.mem_cons_of_mem r h2⟩

theorem buildMapBy_sound [BEq α] (key : β → α) (rows : List β) :
    ∀ p ∈ buildMapBy key rows, p.1 = key p.2 ∧ p.2 ∈ rows := by
  intro p hp
  rcases foldl_jsMapSet_mem key rows [] p hp with h | h
  · exact absurd h (List.not_mem_nil p)
  · exact h

theorem buildMapBy_eq_of_nodup [BEq α] [LawfulBEq α] (key : β → α) :
    ∀ (rows : List β), (rows.map key).Nodup →
      buildMapBy key rows = rows.map (fun r => (key r, r)) := by
  have gen : ∀ (l : List β) (acc : List (α × β)),
      (∀ p ∈ acc, ∀ r ∈ l, ¬((p.1 == key r) = true)) → (l.map key).Nodup →
      l.foldl (fun m r => jsMapSet m (key r) r) acc = acc ++ l.map (fun r => (key r, r)) := by
    intro l
    induction l with
    | nil => intro acc _ _; simp
    | cons r rest ih =>
        intro acc hdisj hnodup
        have hstep : jsMapSet acc (key r) r = acc ++ [(key r, r)] := by
          unfold jsMapSet
          rw [if_neg]
          intro hany
          rcases List.any_eq_true.mp hany with ⟨p, hp, hpk⟩
          exact hdisj p hp r (List.mem_cons_self r rest) hpk
        have hnext : ∀ p ∈ acc ++ [(key r, r)], ∀ u ∈ rest, ¬((p.1 == key u) = true) := by
          intro p hp u hu hbeq
          rcases List.mem_append.mp hp with hp | hp
          · exact hdisj p hp u (List.mem_cons_of_mem r hu) hbeq
          · simp only [List.mem_singleton] at hp
            subst hp
            have hkeq : key r = key u := by simpa using hbeq
            have hnd := hnodup
            rw [List.map_cons, List.nodup_cons] at hnd
            exact hnd.1 (by rw [hkeq]; exact List.mem_map.mpr ⟨u, hu, rfl⟩)
        have hnd := hnodup
        rw [List.map_cons, List.nodup_cons] at hnd
        rw [List.foldl_cons, hstep, ih _ hnext hnd.2]
        simp
  intro rows hnodup
  have := gen rows [] (by intro p hp; exact absurd hp (List.not_mem_nil p)) hnodup
  simpa [buildMapBy] using this

theorem jsMapGet_buildMapBy_self [BEq α] [LawfulBEq α] (key : β → α) (rows : List β)
    (hnodup : (rows.map key).Nodup) (r : β) (hr : r ∈ rows) :
    jsMapGet (buildMapBy key rows) (key r) = some r := by
  rw [buildMapBy_eq_of_nodup key rows hnodup]
  induction rows with
  | nil => exact absurd hr (List.not_mem_nil r)
  | cons u rest ih =>
      by_cases hk : key u = key r
      · have hur : u = r := List.inj_on_of_nodup_map hnodup (List.mem_cons_self u rest) hr hk
        subst hur
        simp [jsMapGet, List.find?_cons]
      · have hbeq : (key u == key r) = false := by simpa using hk
        have hrrest : r ∈ rest := by
          rcases List.mem_cons.mp hr with rfl | h
          · exact absurd rfl hk
          · exact h
        have hnd : (rest.map key).Nodup := by
          have h0 := hnodup
          rw [List.map_cons, List.nodup_cons] at h0
          exact h0.2
        have := ih hnd hrrest
        simpa [jsMapGet, List.find?_cons, hbeq] using this

theorem jsMapGet_some_mem [BEq α] (m : List (α × β)) (k : α) (v : β)
    (h : jsMapGet m k = some v) : ∃ k', (k', v) ∈ m ∧ (k' == k) = true := by
  unfold jsMapGet at h
  cases hf : m.find? (fun p => p.1 == k) with
  | none => rw [hf] at h; simp at h
  | some p =>
      rw [hf] at h
      simp at h
      refine ⟨p.1, ?_, ?_⟩
      · have hmem := List.mem_of_find?_eq_some hf
        have : p = (p.1, v) := by rw [← h]
        rw [← this]
        exact hmem
      · have h2 := List.find?_some hf
        exact h2

theorem jsMapGet_buildMapBy_none [BEq α] [LawfulBEq α] (key : β → α) (rows : List β)
    (k : α) (hnone : ∀ r ∈ rows, ¬ key r = k) :
    jsMapGet (buildMapBy key rows) k = none := by
  cases hres : jsMapGet (buildMapBy key rows) k with
  | none => rfl
  | some v =>
      rcases jsMapGet_some_mem _ _ _ hres with ⟨k', hmem, hbeq⟩
      rcases buildMapBy_sound key rows _ hmem with ⟨hk, hv⟩
      have hkk : k' = k := by simpa using hbeq
      have hkey : key v = k := by
        have hk' : k' = key v := hk
        rw [← hk', hkk]
      exact absurd hkey (hnone v hv)

/-! ### Set-level reconciliation machinery -/

theorem updateSetFromSync_id (now : Nat) (i : Nat) (t : SetSyncData) (sid : Nat)
    (r : SetRow) : (updateSetFromSync now i t sid r).id = r.id := by
  unfold updateSetFromSync; split <;> rfl

theorem updateSetFromSync_parent (now : Nat) (i : Nat) (t : SetSyncData) (sid : Nat)
    (r : SetRow) : (updateSetFromSync now i t sid r).workoutExerciseId = r.workoutExerciseId := by
  unfold updateSetFromSync; split <;> rfl

theorem updateSetFromSync_clientId (now : Nat) (i : Nat) (t : SetSyncData) (sid : Nat)
    (r : SetRow) : (updateSetFromSync now i t sid r).clientId = r.clientId := by
  unfold updateSetFromSync; split <;> rfl

theorem updateSetFromSync_of_ne (now : Nat) (i : Nat) (t : SetSyncData) (sid : Nat)
    (r : SetRow) (h : ¬ r.id = sid) : updateSetFromSync now i t sid r = r := by
  unfold updateSetFromSync; rw [if_neg h]

/-- One inductive pass over `processClientSets`: well-formedness and the map
facts are preserved, the id counter grows, sets of other exercises are
untouched, and a stored set of this exercise whose client id is absent from the
incoming list survives unchanged. -/
theorem processClientSets_main (now : Nat) (exId : Nat) (setMap : List (String × SetRow)) :
    ∀ (ss : List SetSyncData) (i : Nat) (db : Db) (gen : Nat),
      SetsWF db gen → SetMapOk db exId setMap →
      SetsWF (processClientSets now exId setMap db gen ss i).1
          (processClientSets now exId setMap db gen ss i).2 ∧
      SetMapOk (processClientSets now exId setMap db gen ss i).1 exId setMap ∧
      gen ≤ (processClientSets now exId setMap db gen ss i).2 ∧
      (∀ q, ¬ q = exId →
        (processClientSets now exId setMap db gen ss i).1.sets.filter
            (fun s => s.workoutExerciseId == q) =
          db.sets.filter (fun s => s.workoutExerciseId == q)) ∧
      (∀ s ∈ db.sets, s.workoutExerciseId = exId → s.clientId ∉ ss.map (·.clientId) →
        s ∈ (processClientSets now exId setMap db gen ss i).1.sets) := by
  intro ss
  induction ss with
  | nil =>
      intro i db gen hwf hmap
      exact ⟨hwf, hmap, le_refl _, fun q _ => rfl, fun s hs _ _ => hs⟩
  | cons t rest ih =>
      intro i db gen hwf hmap
      simp only [processClientSets]
      cases hget : jsMapGet setMap t.clientId with
      | some old =>
          dsimp only
          rcases jsMapGet_some_mem _ _ _ hget with ⟨k', hkmem, hkbeq⟩
          have hk' : k' = t.clientId := by simpa using hkbeq
          subst hk'
          rcases hmap _ hkmem with ⟨rdb, hrdb, hrid, hrpar, hrcid⟩
          by_cases hts : old.updatedAt < t.updatedAt
          · rw [if_pos hts]
            -- the update step: map over the table, then the induction hypothesis
            have hids : (db.sets.map (updateSetFromSync now i t old.id)).map (·.id) =
                db.sets.map (·.id) := by
              rw [List.map_map]
              exact List.map_congr_left (fun r _ => updateSetFromSync_id ..)
            have hwf' : SetsWF { db with sets := db.sets.map (updateSetFromSync now i t old.id) } gen := by
              refine ⟨by rw [hids]; exact hwf.1, ?_⟩
              intro s hs
              rcases List.mem_map.mp hs with ⟨r, hr, rfl⟩
              rw [updateSetFromSync_id]
              exact hwf.2 r hr
            have hmap' : SetMapOk { db with sets := db.sets.map (updateSetFromSync now i t old.id) }
                exId setMap := by
              intro p hp
              rcases hmap p hp with ⟨r, hr, h1, h2, h3⟩
              exact ⟨updateSetFromSync now i t old.id r, List.mem_map_of_mem _ hr,
                by rw [updateSetFromSync_id]; exact h1,
                by rw [updateSetFromSync_parent]; exact h2,
                by rw [updateSetFromSync_clientId]; exact h3⟩
            obtain ⟨w1, w2, w3, w4, w5⟩ := ih (i + 1)
              { db with sets := db.sets.map (updateSetFromSync now i t old.id) } gen hwf' hmap'
            refine ⟨w1, w2, w3, ?_, ?_⟩
            · intro q hq
              rw [w4 q hq]
              show (db.sets.map (updateSetFromSync now i t old.id)).filter
                  (fun s => s.workoutExerciseId == q) = _
              rw [List.filter_map]
              have hpred : ((fun s => s.workoutExerciseId == q) ∘ updateSetFromSync now i t old.id) =
                  (fun s : SetRow => s.workoutExerciseId == q) := by
                funext r
                simp [Function.comp, updateSetFromSync_parent]
              rw [hpred]
              refine (List.map_congr_left ?_).trans (List.map_id _)
              intro r hr
              rcases List.mem_filter.mp hr with ⟨hrmem, hrq⟩
              show updateSetFromSync now i t old.id r = id r
              refine updateSetFromSync_of_ne now i t old.id r ?_
              intro hid
              have : r = rdb := List.inj_on_of_nodup_map hwf.1 hrmem hrdb (by rw [hid, hrid])
              subst this
              have : r.workoutExerciseId = q := by simpa using hrq
              exact hq (by rw [← this, hrpar])
            · intro s hs hpar hmiss
              have hnot : s.clientId ∉ rest.map (·.clientId) := by
                intro hmem
                exact hmiss (List.mem_cons_of_mem _ hmem)
              refine w5 s ?_ hpar hnot
              have hfs : updateSetFromSync now i t old.id s = s := by
                refine updateSetFromSync_of_ne now i t old.id s ?_
                intro hid
                have hsr : s = rdb := List.inj_on_of_nodup_map hwf.1 hs hrdb (by rw [hid, hrid])
                apply hmiss
                rw [hsr, hrcid]
                exact List.mem_map.mpr ⟨t, List.mem_cons_self t rest, rfl⟩
              rw [← hfs]
              exact List.mem_map_of_mem _ hs
          · rw [if_neg hts]
            obtain ⟨w1, w2, w3, w4, w5⟩ := ih (i + 1) db gen hwf hmap
            refine ⟨w1, w2, w3, w4, ?_⟩
            intro s hs hpar hmiss
            exact w5 s hs hpar (fun hmem => hmiss (List.mem_cons_of_mem _ hmem))
      | none =>
          dsimp only
          have hnew : SetsWF { db with sets := db.sets ++
              [{ id := gen, workoutExerciseId := exId, clientId := t.clientId,
                 setNumber := i + 1, reps := t.reps, weightLbs := t.weight,
                 setType := t.setType, updatedAt := now, clientUpdatedAt := t.updatedAt,
                 lastSyncedAt := now }] } (gen + 1) := by
            constructor
            · rw [List.map_append, List.nodup_append]
              refine ⟨hwf.1, by simp, ?_⟩
              intro x hx
              rcases List.mem_map.mp hx with ⟨r, hr, rfl⟩
              simp only [List.map_cons, List.map_nil, List.mem_singleton]
              intro heq
              have heq2 : r.id = gen := heq
              have hlt := hwf.2 r hr
              omega
            · intro s hs
              rcases List.mem_append.mp hs with hs | hs
              · have hlt := hwf.2 s hs
                omega
              · simp only [List.mem_singleton] at hs
                rw [hs]
                show gen < gen + 1
                omega
          have hmap2 : SetMapOk { db with sets := db.sets ++
              [{ id := gen, workoutExerciseId := exId, clientId := t.clientId,
                 setNumber := i + 1, reps := t.reps, weightLbs := t.weight,
                 setType := t.setType, updatedAt := now, clientUpdatedAt := t.updatedAt,
                 lastSyncedAt := now }] } exId setMap := by
            intro p hp
            rcases hmap p hp with ⟨r, hr, h1, h2, h3⟩
            exact ⟨r, List.mem_append_left _ hr, h1, h2, h3⟩
          obtain ⟨w1, w2, w3, w4, w5⟩ := ih (i + 1) _ (gen + 1) hnew hmap2
          refine ⟨w1, w2, le_trans (Nat.le_succ gen) w3, ?_, ?_⟩
          · intro q hq
            rw [w4 q hq]
            show (db.sets ++
                [({ id := gen, workoutExerciseId := exId, clientId := t.clientId,
                    setNumber := i + 1, reps := t.reps, weightLbs := t.weight,
                    setType := t.setType, updatedAt := now, clientUpdatedAt := t.updatedAt,
                    lastSyncedAt := now } : SetRow)]).filter
                (fun s => s.workoutExerciseId == q) = List.filter (fun s => s.workoutExerciseId == q) db.sets
            rw [List.filter_append]
            have hemp : List.filter (fun s => s.workoutExerciseId == q)
                [({ id := gen, workoutExerciseId := exId, clientId := t.clientId,
                    setNumber := i + 1, reps := t.reps, weightLbs := t.weight,
                    setType := t.setType, updatedAt := now, clientUpdatedAt := t.updatedAt,
                    lastSyncedAt := now } : SetRow)] = [] := by
              simp only [List.filter_cons, List.filter_nil]
              rw [if_neg]
              simp only [beq_iff_eq]
              intro hcontra
              exact hq hcontra.symm
            rw [hemp, List.append_nil]
          · intro s hs hpar hmiss
            refine w5 s (List.mem_append_left _ hs) hpar ?_
            intro hmem
            exact hmiss (List.mem_cons_of_mem _ hmem)

theorem deleteMissingSets_sets_subset (threshold : Nat) (processed : List String) :
    ∀ (entries : List (String × SetRow)) (db : Db) (s : SetRow),
      s ∈ (deleteMissingSets threshold processed db entries).sets → s ∈ db.sets := by
  intro entries
  induction entries with
  | nil => intro db s h; exact h
  | cons p rest ih =>
      intro db s h
      simp only [deleteMissingSets] at h
      have h2 := ih _ _ h
      split at h2
      · exact h2
      · split at h2
        · exact (List.mem_filter.mp h2).1
        · exact h2

theorem deleteMissingSets_mem_preserved (threshold : Nat) (processed : List String) :
    ∀ (entries : List (String × SetRow)) (db : Db) (s : SetRow),
      s ∈ db.sets → (∀ p ∈ entries, ¬ p.2.id = s.id) →
      s ∈ (deleteMissingSets threshold processed db entries).sets := by
  intro entries
  induction entries with
  | nil => intro db s hs _; exact hs
  | cons p rest ih =>
      intro db s hs hne
      simp only [deleteMissingSets]
      refine ih _ s ?_ (fun q hq => hne q (List.mem_cons_of_mem p hq))
      split
      · exact hs
      · split
        · refine List.mem_filter.mpr ⟨hs, ?_⟩
          simp only [bne_iff_ne, ne_eq, decide_eq_true_eq]
          intro hcontra
          exact hne p (List.mem_cons_self p rest) (by rw [← hcontra])
        · exact hs

theorem deleteMissingSets_decides (threshold : Nat) (processed : List String) :
    ∀ (pre : List (String × SetRow)) (post : List (String × SetRow)) (db : Db) (s : SetRow),
      s ∈ db.sets → s.clientId ∉ processed →
      (∀ p ∈ pre ++ post, ¬ p.2.id = s.id) →
      (s ∈ (deleteMissingSets threshold processed db (pre ++ (s.clientId, s) :: post)).sets ↔
        ¬ (s.updatedAt < threshold)) := by
  intro pre
  induction pre with
  | nil =>
      intro post db s hs hproc hne
      simp only [List.nil_append, deleteMissingSets]
      rw [if_neg (by simpa using hproc)]
      by_cases hlt : s.updatedAt < threshold
      · rw [if_pos hlt]
        constructor
        · intro hmem
          have := deleteMissingSets_sets_subset threshold processed post _ s hmem
          rcases List.mem_filter.mp this with ⟨_, hkeep⟩
          simp at hkeep
        · intro hcontra; exact absurd hlt hcontra
      · rw [if_neg hlt]
        constructor
        · intro _; exact hlt
        · intro _
          exact deleteMissingSets_mem_preserved threshold processed post db s hs
            (fun p hp => hne p (by simpa using hp))
  | cons p pre' ih =>
      intro post db s hs hproc hne
      simp only [List.cons_append, deleteMissingSets]
      have hpid : ¬ p.2.id = s.id := hne p (List.mem_cons_self p _)
      have hs' : s ∈ (if processed.contains p.1 then db
          else if p.2.updatedAt < threshold then
            { db with sets := db.sets.filter (fun x => x.id != p.2.id) }
          else db).sets := by
        split
        · exact hs
        · split
          · refine List.mem_filter.mpr ⟨hs, ?_⟩
            simp only [bne_iff_ne, ne_eq, decide_eq_true_eq]
            intro hcontra
            exact hpid (by rw [← hcontra])
          · exact hs
      exact ih post _ s hs' hproc (fun q hq => hne q (by
        rcases List.mem_append.mp hq with hq | hq
        · exact List.mem_cons_of_mem p (List.mem_append_left _ hq)
        · exact List.mem_cons_of_mem p (List.mem_append_right _ hq)))

theorem deleteMissingSets_filter_other (threshold : Nat) (processed : List String) (exId : Nat) :
    ∀ (entries : List (String × SetRow)) (db : Db),
      (∀ p ∈ entries, ∀ r ∈ db.sets, r.id = p.2.id → r.workoutExerciseId = exId) →
      ∀ q, ¬ q = exId →
        (deleteMissingSets threshold processed db entries).sets.filter
            (fun x => x.workoutExerciseId == q) =
          db.sets.filter (fun x => x.workoutExerciseId == q) := by
  intro entries
  induction entries with
  | nil => intro db _ q _; rfl
  | cons p rest ih =>
      intro db hh q hq
      simp only [deleteMissingSets]
      split
      · exact ih db (fun p' hp' => hh p' (List.mem_cons_of_mem p hp')) q hq
      · split
        · rw [ih _ ?hrest q hq]
          case hrest =>
            intro p' hp' r hr
            exact hh p' (List.mem_cons_of_mem p hp') r (List.mem_filter.mp hr).1
          show (db.sets.filter (fun x => x.id != p.2.id)).filter
              (fun x => x.workoutExerciseId == q) = _
          rw [List.filter_comm]
          refine List.filter_eq_self.mpr ?_
          intro r hr
          rcases List.mem_filter.mp hr with ⟨hrmem, hrq⟩
          simp only [bne_iff_ne, ne_eq, decide_eq_true_eq]
          intro hid
          have hpar := hh p (List.mem_cons_self p rest) r hrmem hid
          have : r.workoutExerciseId = q := by simpa using hrq
          exact hq (by rw [← this, hpar])
        · exact ih db (fun p' hp' => hh p' (List.mem_cons_of_mem p hp')) q hq

theorem deleteMissingSets_SetsWF (threshold : Nat) (processed : List String) :
    ∀ (entries : List (String × SetRow)) (db : Db) (gen : Nat),
      SetsWF db gen → SetsWF (deleteMissingSets threshold processed db entries) gen := by
  intro entries
  induction entries with
  | nil => intro db gen h; exact h
  | cons p rest ih =>
      intro db gen hwf
      simp only [deleteMissingSets]
      refine ih _ gen ?_
      split
      · exact hwf
      · split
        · constructor
          · exact ((List.filter_sublist _).map _).nodup hwf.1
          · intro s hs
            exact hwf.2 s (List.mem_filter.mp hs).1
        · exact hwf

theorem setMapOk_of_build (db : Db) (exId : Nat) :
    SetMapOk db exId (buildMapBy (·.clientId)
      ((db.sets.filter (fun s => s.workoutExerciseId == exId)).filter
        (fun s => s.clientId != ""))) := by
  intro p hp
  rcases buildMapBy_sound _ _ p hp with ⟨hkey, hmem⟩
  have h1 := List.mem_filter.mp hmem
  have h2 := List.mem_filter.mp h1.1
  exact ⟨p.2, h2.1, rfl, by simpa using h2.2, hkey.symm⟩

theorem syncExerciseSets_wf (db : Db) (gen now exId : Nat) (ss : List SetSyncData) (ets : Nat)
    (hwf : SetsWF db gen) :
    SetsWF (syncExerciseSets db gen now exId ss ets).1 (syncExerciseSets db gen now exId ss ets).2 ∧
    gen ≤ (syncExerciseSets db gen now exId ss ets).2 := by
  obtain ⟨w1, w2, w3, w4, w5⟩ := processClientSets_main now exId _ ss 0 db gen hwf
    (setMapOk_of_build db exId)
  exact ⟨deleteMissingSets_SetsWF _ _ _ _ _ w1, w3⟩

theorem syncExerciseSets_filter_other (db : Db) (gen now exId : Nat) (ss : List SetSyncData)
    (ets : Nat) (hwf : SetsWF db gen) (q : Nat) (hq : ¬ q = exId) :
    (syncExerciseSets db gen now exId ss ets).1.sets.filter (fun x => x.workoutExerciseId == q) =
      db.sets.filter (fun x => x.workoutExerciseId == q) := by
  obtain ⟨w1, w2, w3, w4, w5⟩ := processClientSets_main now exId _ ss 0 db gen hwf
    (setMapOk_of_build db exId)
  show (deleteMissingSets _ _ _ _).sets.filter _ = _
  rw [deleteMissingSets_filter_other _ _ exId _ _ ?hids q hq]
  case hids =>
    intro p hp r hr hid
    rcases w2 p hp with ⟨r', hr', hid', hpar', _⟩
    have : r = r' := List.inj_on_of_nodup_map w1.1 hr hr' (by rw [hid, hid'])
    rw [this]
    exact hpar'
  exact w4 q hq

/-- The set-level implicit-deletion rule of `syncExerciseSets`: a stored set of
this exercise whose client id is absent from the incoming set list is deleted
exactly when the deletion reference (the newest incoming client set timestamp,
or the exercise's own when no sets were sent) is strictly newer than its stored
server timestamp. -/
theorem syncExerciseSets_missing_set (db : Db) (gen now exId : Nat) (ss : List SetSyncData)
    (ets : Nat) (hwf : SetsWF db gen)
    (hcid : ((db.sets.filter (fun x => x.workoutExerciseId == exId)).map (·.clientId)).Nodup)
    (s : SetRow) (hs : s ∈ db.sets) (hpar : s.workoutExerciseId = exId)
    (hmiss : s.clientId ∉ ss.map (·.clientId)) (hne : ¬ s.clientId = "") :
    (s ∈ (syncExerciseSets db gen now exId ss ets).1.sets ↔
      ¬ (s.updatedAt < newestClientSetTime ss ets)) := by
  have hs1 : s ∈ db.sets.filter (fun x => x.workoutExerciseId == exId) :=
    List.mem_filter.mpr ⟨hs, by simpa using hpar⟩
  have hs2 : s ∈ (db.sets.filter (fun x => x.workoutExerciseId == exId)).filter
      (fun x => x.clientId != "") :=
    List.mem_filter.mpr ⟨hs1, by simpa using hne⟩
  have hkeys : (((db.sets.filter (fun x => x.workoutExerciseId == exId)).filter
      (fun x => x.clientId != "")).map (·.clientId)).Nodup :=
    ((List.filter_sublist _).map _).nodup hcid
  have hmapeq : buildMapBy (·.clientId) ((db.sets.filter (fun x => x.workoutExerciseId == exId)).filter
        (fun x => x.clientId != "")) =
      ((db.sets.filter (fun x => x.workoutExerciseId == exId)).filter
        (fun x => x.clientId != "")).map (fun r => (r.clientId, r)) :=
    buildMapBy_eq_of_nodup _ _ hkeys
  obtain ⟨w1, w2, w3, w4, w5⟩ := processClientSets_main now exId _ ss 0 db gen hwf
    (setMapOk_of_build db exId)
  have hrows : ((db.sets.filter (fun x => x.workoutExerciseId == exId)).filter
      (fun x => x.clientId != "")).Nodup := by
    refine List.Nodup.of_map (·.id) ?_
    exact (((List.filter_sublist _).trans (List.filter_sublist _)).map _).nodup hwf.1
  rcases List.append_of_mem hs2 with ⟨l1, l2, hsplit⟩
  have hsl12 : ∀ r ∈ l1 ++ l2, r ∈ db.sets ∧ ¬ r.id = s.id := by
    intro r hr
    have hrin : r ∈ (db.sets.filter (fun x => x.workoutExerciseId == exId)).filter
        (fun x => x.clientId != "") := by
      rw [hsplit]
      rcases List.mem_append.mp hr with h | h
      · exact List.mem_append_left _ h
      · exact List.mem_append_right _ (List.mem_cons_of_mem s h)
    have hrdb : r ∈ db.sets := (List.mem_filter.mp (List.mem_filter.mp hrin).1).1
    refine ⟨hrdb, ?_⟩
    intro hid
    have hrs : r = s := List.inj_on_of_nodup_map hwf.1 hrdb hs hid
    subst hrs
    have hnd := hrows
    rw [hsplit] at hnd
    rw [List.nodup_append] at hnd
    rcases List.mem_append.mp hr with h | h
    · exact hnd.2.2 h (List.mem_cons_self r l2)
    · exact (List.nodup_cons.mp hnd.2.1).1 h
  show s ∈ (deleteMissingSets (newestClientSetTime ss ets) (ss.map (·.clientId)) _ _).sets ↔ _
  have hsplit2 : buildMapBy (·.clientId) ((db.sets.filter (fun x => x.workoutExerciseId == exId)).filter
        (fun x => x.clientId != "")) =
      l1.map (fun r => (r.clientId, r)) ++ (s.clientId, s) :: l2.map (fun r => (r.clientId, r)) := by
    rw [hmapeq, hsplit]
    simp
  rw [hsplit2] at w5 ⊢
  refine deleteMissingSets_decides _ _ _ _ _ s (w5 s hs hpar hmiss) hmiss ?_
  intro p hp
  rcases List.mem_append.mp hp with h | h
  · rcases List.mem_map.mp h with ⟨r, hr, rfl⟩
    exact (hsl12 r (List.mem_append_left _ hr)).2
  · rcases List.mem_map.mp h with ⟨r, hr, rfl⟩
    exact (hsl12 r (List.mem_append_right _ hr)).2

/-! ### Exercise-level reconciliation machinery -/

theorem SetsWF_mono {db : Db} {gen gen' : Nat} (h : gen ≤ gen') (hwf : SetsWF db gen) :
    SetsWF db gen' :=
  ⟨hwf.1, fun s hs => lt_of_lt_of_le (hwf.2 s hs) h⟩

theorem ExercisesWF_mono {db : Db} {gen gen' : Nat} (h : gen ≤ gen') (hwf : ExercisesWF db gen) :
    ExercisesWF db gen' :=
  ⟨hwf.1, fun e he => lt_of_lt_of_le (hwf.2 e he) h⟩

theorem SetsWF_congr {db db' : Db} {gen : Nat} (h : db'.sets = db.sets) (hwf : SetsWF db gen) :
    SetsWF db' gen := by
  constructor
  · rw [h]; exact hwf.1
  · intro s hs; rw [h] at hs; exact hwf.2 s hs

theorem ExercisesWF_congr {db db' : Db} {gen : Nat} (h : db'.workoutExercises = db.workoutExercises)
    (hwf : ExercisesWF db gen) : ExercisesWF db' gen := by
  constructor
  · rw [h]; exact hwf.1
  · intro e he; rw [h] at he; exact hwf.2 e he

theorem ExMapOk_congr {db db' : Db} {wid : Nat} {m : List (String × ExerciseRow)}
    (h : db'.workoutExercises = db.workoutExercises) (hok : ExMapOk db wid m) :
    ExMapOk db' wid m := by
  intro p hp
  rcases hok p hp with ⟨r, hr, h1, h2, h3⟩
  exact ⟨r, by rw [h]; exact hr, h1, h2, h3⟩

theorem updateExerciseFromSync_id (now i : Nat) (e : ExerciseSyncData) (libId exId : Nat)
    (r : ExerciseRow) : (updateExerciseFromSync now i e libId exId r).id = r.id := by
  unfold updateExerciseFromSync; split <;> rfl

theorem updateExerciseFromSync_workoutId (now i : Nat) (e : ExerciseSyncData) (libId exId : Nat)
    (r : ExerciseRow) :
    (updateExerciseFromSync now i e libId exId r).workoutId = r.workoutId := by
  unfold updateExerciseFromSync; split <;> rfl

theorem updateExerciseFromSync_clientId (now i : Nat) (e : ExerciseSyncData) (libId exId : Nat)
    (r : ExerciseRow) :
    (updateExerciseFromSync now i e libId exId r).clientId = r.clientId := by
  unfold updateExerciseFromSync; split <;> rfl

theorem updateExerciseFromSync_of_ne (now i : Nat) (e : ExerciseSyncData) (libId exId : Nat)
    (r : ExerciseRow) (h : ¬ r.id = exId) : updateExerciseFromSync now i e libId exId r = r := by
  unfold updateExerciseFromSync; rw [if_neg h]

theorem insertSetsLoop_wf (now exRowId : Nat) :
    ∀ (ss : List SetSyncData) (db : Db) (gen i : Nat), SetsWF db gen →
      SetsWF (insertSetsLoop now exRowId db gen ss i).1 (insertSetsLoop now exRowId db gen ss i).2 ∧
      gen ≤ (insertSetsLoop now exRowId db gen ss i).2 := by
  intro ss
  induction ss with
  | nil => intro db gen i hwf; exact ⟨hwf, le_refl _⟩
  | cons t rest ih =>
      intro db gen i hwf
      simp only [insertSetsLoop]
      have hnew : SetsWF { db with sets := db.sets ++
          [{ id := gen, workoutExerciseId := exRowId, clientId := t.clientId,
             setNumber := i + 1, reps := t.reps, weightLbs := t.weight,
             setType := t.setType, updatedAt := now, clientUpdatedAt := t.updatedAt,
             lastSyncedAt := now }] } (gen + 1) := by
        constructor
        · rw [List.map_append, List.nodup_append]
          refine ⟨hwf.1, by simp, ?_⟩
          intro x hx
          rcases List.mem_map.mp hx with ⟨r, hr, rfl⟩
          simp only [List.map_cons, List.map_nil, List.mem_singleton]
          intro heq
          have heq2 : r.id = gen := heq
          have hlt := hwf.2 r hr
          omega
        · intro s hs
          rcases List.mem_append.mp hs with hs | hs
          · have hlt := hwf.2 s hs
            omega
          · simp only [List.mem_singleton] at hs
            rw [hs]
            show gen < gen + 1
            omega
      obtain ⟨p1, p2⟩ := ih _ (gen + 1) (i + 1) hnew
      exact ⟨p1, le_trans (Nat.le_succ gen) p2⟩

theorem insertSetsLoop_filter_other (now exRowId : Nat) :
    ∀ (ss : List SetSyncData) (db : Db) (gen i : Nat) (q : Nat), ¬ q = exRowId →
      (insertSetsLoop now exRowId db gen ss i).1.sets.filter (fun x => x.workoutExerciseId == q) =
        db.sets.filter (fun x => x.workoutExerciseId == q) := by
  intro ss
  induction ss with
  | nil => intro db gen i q _; rfl
  | cons t rest ih =>
      intro db gen i q hq
      simp only [insertSetsLoop]
      rw [ih _ (gen + 1) (i + 1) q hq]
      show (db.sets ++
          [({ id := gen, workoutExerciseId := exRowId, clientId := t.clientId,
              setNumber := i + 1, reps := t.reps, weightLbs := t.weight,
              setType := t.setType, updatedAt := now, clientUpdatedAt := t.updatedAt,
              lastSyncedAt := now } : SetRow)]).filter (fun x => x.workoutExerciseId == q) =
        List.filter (fun x => x.workoutExerciseId == q) db.sets
      rw [List.filter_append]
      have hemp : List.filter (fun x => x.workoutExerciseId == q)
          [({ id := gen, workoutExerciseId := exRowId, clientId := t.clientId,
              setNumber := i + 1, reps := t.reps, weightLbs := t.weight,
              setType := t.setType, updatedAt := now, clientUpdatedAt := t.updatedAt,
              lastSyncedAt := now } : SetRow)] = [] := by
        simp only [List.filter_cons, List.filter_nil]
        rw [if_neg]
        simp only [beq_iff_eq]
        intro hcontra
        exact hq hcontra.symm
      rw [hemp, List.append_nil]

/-- Main invariant lemma of the exercise reconciliation loop of
`updateWorkoutFromSync`: well-formedness and the id counter are preserved, the
pre-fetched exercise map stays valid, stored exercise instances whose client id
is absent from the incoming list survive untouched, and the sets of any
exercise instance that is never a loop target are untouched. -/
theorem processClientExercises_main (now : Nat) (wid : Nat) (libIds : List (String × Nat))
    (exMap : List (String × ExerciseRow)) :
    ∀ (exs : List ExerciseSyncData) (i : Nat) (db : Db) (gen : Nat),
      ExercisesWF db gen → SetsWF db gen → ExMapOk db wid exMap →
      ExercisesWF (processClientExercises now wid libIds exMap db gen exs i).1
          (processClientExercises now wid libIds exMap db gen exs i).2 ∧
      SetsWF (processClientExercises now wid libIds exMap db gen exs i).1
          (processClientExercises now wid libIds exMap db gen exs i).2 ∧
      ExMapOk (processClientExercises now wid libIds exMap db gen exs i).1 wid exMap ∧
      gen ≤ (processClientExercises now wid libIds exMap db gen exs i).2 ∧
      (∀ ex ∈ db.workoutExercises, ex.clientId ∉ exs.map (·.clientId) →
        ex ∈ (processClientExercises now wid libIds exMap db gen exs i).1.workoutExercises) ∧
      (∀ tid, tid < gen →
        (∀ e ∈ exs, ∀ p, jsMapGet exMap e.clientId = some p → ¬ p.id = tid) →
        (processClientExercises now wid libIds exMap db gen exs i).1.sets.filter
            (fun x => x.workoutExerciseId == tid) =
          db.sets.filter (fun x => x.workoutExerciseId == tid)) := by
  intro exs
  induction exs with
  | nil =>
      intro i db gen hexwf hswf hok
      exact ⟨hexwf, hswf, hok, le_refl _, fun ex hex _ => hex, fun tid _ _ => rfl⟩
  | cons e rest ih =>
      intro i db gen hexwf hswf hok
      simp only [processClientExercises]
      cases hget : jsMapGet exMap e.clientId with
      | some old =>
          dsimp only
          rcases jsMapGet_some_mem _ _ _ hget with ⟨k', hkmem, hkbeq⟩
          have hk' : k' = e.clientId := by simpa using hkbeq
          subst hk'
          rcases hok _ hkmem with ⟨rdb, hrdb, hrid, hrwid, hrcid⟩
          by_cases hts : old.updatedAt < e.updatedAt
          · rw [if_pos hts]
            have hidmap : ((db.workoutExercises.map (updateExerciseFromSync now i e ((jsMapGet libIds e.clientId).getD 0) old.id)).map (·.id)) = db.workoutExercises.map (·.id) := by
              rw [List.map_map]
              exact List.map_congr_left (fun r _ => updateExerciseFromSync_id ..)
            have hexwfu : ExercisesWF ({ db with workoutExercises := db.workoutExercises.map (updateExerciseFromSync now i e ((jsMapGet libIds e.clientId).getD 0) old.id) } : Db) gen := by
              refine ⟨by rw [hidmap]; exact hexwf.1, ?_⟩
              intro x hx
              rcases List.mem_map.mp hx with ⟨r, hr, rfl⟩
              rw [updateExerciseFromSync_id]
              exact hexwf.2 r hr
            have hswfu : SetsWF ({ db with workoutExercises := db.workoutExercises.map (updateExerciseFromSync now i e ((jsMapGet libIds e.clientId).getD 0) old.id) } : Db) gen :=
              SetsWF_congr rfl hswf
            have hoku : ExMapOk ({ db with workoutExercises := db.workoutExercises.map (updateExerciseFromSync now i e ((jsMapGet libIds e.clientId).getD 0) old.id) } : Db) wid exMap := by
              intro p hp
              rcases hok p hp with ⟨r, hr, h1, h2, h3⟩
              exact ⟨updateExerciseFromSync now i e ((jsMapGet libIds e.clientId).getD 0) old.id r,
                List.mem_map_of_mem _ hr,
                by rw [updateExerciseFromSync_id]; exact h1,
                by rw [updateExerciseFromSync_workoutId]; exact h2,
                by rw [updateExerciseFromSync_clientId]; exact h3⟩
            obtain ⟨hswf2, hgle⟩ := syncExerciseSets_wf _ gen now old.id e.sets e.updatedAt hswfu
            have hwE := syncExerciseSets_workoutExercises ({ db with workoutExercises := db.workoutExercises.map (updateExerciseFromSync now i e ((jsMapGet libIds e.clientId).getD 0) old.id) } : Db) gen now old.id e.sets e.updatedAt
            have hexwf2 := ExercisesWF_congr hwE (ExercisesWF_mono hgle hexwfu)
            have hok2 := ExMapOk_congr hwE hoku
            obtain ⟨w1, w2, w3, w4, w5, w6⟩ := ih (i + 1) _ _ hexwf2 hswf2 hok2
            refine ⟨w1, w2, w3, le_trans hgle w4, ?_, ?_⟩
            · intro ex hex hmiss
              have hne : ¬ ex.id = old.id := by
                intro hid
                have hexr : ex = rdb := List.inj_on_of_nodup_map hexwf.1 hex hrdb (by rw [hid, hrid])
                apply hmiss
                rw [hexr, hrcid]
                exact List.mem_map.mpr ⟨e, List.mem_cons_self e rest, rfl⟩
              refine w5 ex ?_ (fun hmem => hmiss (List.mem_cons_of_mem _ hmem))
              rw [hwE]
              show ex ∈ db.workoutExercises.map _
              rw [← updateExerciseFromSync_of_ne now i e ((jsMapGet libIds e.clientId).getD 0) old.id ex hne]
              exact List.mem_map_of_mem _ hex
            · intro tid htid hnt
              rw [w6 tid (lt_of_lt_of_le htid hgle)
                (fun e' he' p hp => hnt e' (List.mem_cons_of_mem _ he') p hp)]
              have hq : ¬ tid = old.id := by
                intro hcontra
                exact hnt e (List.mem_cons_self e rest) old hget hcontra.symm
              exact syncExerciseSets_filter_other _ gen now old.id e.sets e.updatedAt hswfu tid hq
          · rw [if_neg hts]
            obtain ⟨hswf2, hgle⟩ := syncExerciseSets_wf db gen now old.id e.sets e.updatedAt hswf
            have hwE := syncExerciseSets_workoutExercises db gen now old.id e.sets e.updatedAt
            have hexwf2 := ExercisesWF_congr hwE (ExercisesWF_mono hgle hexwf)
            have hok2 := ExMapOk_congr hwE hok
            obtain ⟨w1, w2, w3, w4, w5, w6⟩ := ih (i + 1) _ _ hexwf2 hswf2 hok2
            refine ⟨w1, w2, w3, le_trans hgle w4, ?_, ?_⟩
            · intro ex hex hmiss
              refine w5 ex ?_ (fun hmem => hmiss (List.mem_cons_of_mem _ hmem))
              rw [hwE]
              exact hex
            · intro tid htid hnt
              rw [w6 tid (lt_of_lt_of_le htid hgle)
                (fun e' he' p hp => hnt e' (List.mem_cons_of_mem _ he') p hp)]
              have hq : ¬ tid = old.id := by
                intro hcontra
                exact hnt e (List.mem_cons_self e rest) old hget hcontra.symm
              exact syncExerciseSets_filter_other db gen now old.id e.sets e.updatedAt hswf tid hq
      | none =>
          dsimp only
          have hexwfu : ExercisesWF ({ db with workoutExercises := db.workoutExercises ++ [{ id := gen, workoutId := wid, clientId := e.clientId, exerciseId := (jsMapGet libIds e.clientId).getD 0, orderIndex := i, exerciseName := e.exerciseName, primaryMuscles := normalizedPrimaryMuscles e, updatedAt := now, clientUpdatedAt := e.updatedAt, lastSyncedAt := now }] } : Db) (gen + 1) := by
            constructor
            · rw [List.map_append, List.nodup_append]
              refine ⟨hexwf.1, by simp, ?_⟩
              intro x hx
              rcases List.mem_map.mp hx with ⟨r, hr, rfl⟩
              simp only [List.map_cons, List.map_nil, List.mem_singleton]
              intro heq
              have heq2 : r.id = gen := heq
              have hlt := hexwf.2 r hr
              omega
            · intro x hx
              rcases List.mem_append.mp hx with hx | hx
              · have hlt := hexwf.2 x hx
                omega
              · simp only [List.mem_singleton] at hx
                rw [hx]
                show gen < gen + 1
                omega
          have hswfu : SetsWF ({ db with workoutExercises := db.workoutExercises ++ [{ id := gen, workoutId := wid, clientId := e.clientId, exerciseId := (jsMapGet libIds e.clientId).getD 0, orderIndex := i, exerciseName := e.exerciseName, primaryMuscles := normalizedPrimaryMuscles e, updatedAt := now, clientUpdatedAt := e.updatedAt, lastSyncedAt := now }] } : Db) (gen + 1) :=
            SetsWF_congr rfl (SetsWF_mono (Nat.le_succ gen) hswf)
          have hoku : ExMapOk ({ db with workoutExercises := db.workoutExercises ++ [{ id := gen, workoutId := wid, clientId := e.clientId, exerciseId := (jsMapGet libIds e.clientId).getD 0, orderIndex := i, exerciseName := e.exerciseName, primaryMuscles := normalizedPrimaryMuscles e, updatedAt := now, clientUpdatedAt := e.updatedAt, lastSyncedAt := now }] } : Db) wid exMap := by
            intro p hp
            rcases hok p hp with ⟨r, hr, h1, h2, h3⟩
            exact ⟨r, List.mem_append_left _ hr, h1, h2, h3⟩
          obtain ⟨hswf2, hgle⟩ := insertSetsLoop_wf now gen e.sets _ (gen + 1) 0 hswfu
          have hwE := insertSetsLoop_workoutExercises e.sets now gen ({ db with workoutExercises := db.workoutExercises ++ [{ id := gen, workoutId := wid, clientId := e.clientId, exerciseId := (jsMapGet libIds e.clientId).getD 0, orderIndex := i, exerciseName := e.exerciseName, primaryMuscles := normalizedPrimaryMuscles e, updatedAt := now, clientUpdatedAt := e.updatedAt, lastSyncedAt := now }] } : Db) (gen + 1) 0
          have hexwf2 := ExercisesWF_congr hwE (ExercisesWF_mono hgle hexwfu)
          have hok2 := ExMapOk_congr hwE hoku
          obtain ⟨w1, w2, w3, w4, w5, w6⟩ := ih (i + 1) _ _ hexwf2 hswf2 hok2
          refine ⟨w1, w2, w3, le_trans (Nat.le_succ gen) (le_trans hgle w4), ?_, ?_⟩
          · intro ex hex hmiss
            refine w5 ex ?_ (fun hmem => hmiss (List.mem_cons_of_mem _ hmem))
            rw [hwE]
            exact List.mem_append_left _ hex
          · intro tid htid hnt
            rw [w6 tid (lt_of_lt_of_le htid (le_trans (Nat.le_succ gen) hgle))
              (fun e' he' p hp => hnt e' (List.mem_cons_of_mem _ he') p hp)]
            rw [insertSetsLoop_filter_other now gen e.sets _ (gen + 1) 0 tid (by omega)]

/-- Through the whole exercise loop, a stored set of a matched exercise instance
whose client id is absent from that exercise's incoming set list survives
exactly when the per-exercise deletion reference is not strictly newer than its
stored server timestamp. -/
theorem processClientExercises_missing_set (now : Nat) (wid : Nat) (libIds : List (String × Nat))
    (exMap : List (String × ExerciseRow)) :
    ∀ (exs : List ExerciseSyncData) (i : Nat) (db : Db) (gen : Nat),
      ExercisesWF db gen → SetsWF db gen → ExMapOk db wid exMap →
      (exs.map (·.clientId)).Nodup →
      ∀ e ∈ exs, ∀ old, jsMapGet exMap e.clientId = some old →
      ∀ s ∈ db.sets, s.workoutExerciseId = old.id →
      s.clientId ∉ e.sets.map (·.clientId) → ¬ s.clientId = "" →
      ((db.sets.filter (fun x => x.workoutExerciseId == old.id)).map (·.clientId)).Nodup →
      (s ∈ (processClientExercises now wid libIds exMap db gen exs i).1.sets ↔
        ¬ (s.updatedAt < newestClientSetTime e.sets e.updatedAt)) := by
  intro exs
  induction exs with
  | nil =>
      intro i db gen _ _ _ _ e he
      exact absurd he (List.not_mem_nil e)
  | cons e0 rest ih =>
      intro i db gen hexwf hswf hok hnodup e he old hget s hs hpar hmiss hne hcid
      rcases jsMapGet_some_mem _ _ _ hget with ⟨k', hkmem, hkbeq⟩
      have hk' : k' = e.clientId := by simpa using hkbeq
      subst hk'
      rcases hok _ hkmem with ⟨rdb, hrdb, hrid, hrwid, hrcid⟩
      have htid : old.id < gen := by
        rw [← hrid]
        exact hexwf.2 rdb hrdb
      rcases List.mem_cons.mp he with rfl | he
      · -- the head of the loop is the matched exercise itself
        simp only [processClientExercises]
        cases hget2 : jsMapGet exMap e.clientId with
        | none => rw [hget] at hget2; exact absurd hget2 (by simp)
        | some old2 =>
            have ho : old2 = old := by
              rw [hget2] at hget
              exact Option.some_inj.mp hget
            subst ho
            dsimp only
            have hnt : ∀ e' ∈ rest, ∀ p, jsMapGet exMap e'.clientId = some p → ¬ p.id = old2.id := by
              intro e' he' p hp hcontra
              rcases jsMapGet_some_mem _ _ _ hp with ⟨k2, hk2mem, hk2beq⟩
              have hk2 : k2 = e'.clientId := by simpa using hk2beq
              subst hk2
              rcases hok _ hk2mem with ⟨r', hr', hr'id, _, hr'cid⟩
              have hrr : r' = rdb := List.inj_on_of_nodup_map hexwf.1 hr' hrdb
                (by rw [hr'id, hcontra, hrid])
              have h1 : r'.clientId = e'.clientId := hr'cid
              have h2 : rdb.clientId = e.clientId := hrcid
              have hce : e'.clientId = e.clientId := by rw [← h1, hrr]; exact h2
              have hnd := List.nodup_cons.mp (by
                rw [List.map_cons] at hnodup
                exact hnodup)
              exact hnd.1 (hce ▸ List.mem_map.mpr ⟨e', he', rfl⟩)
            by_cases hts : old2.updatedAt < e.updatedAt
            · rw [if_pos hts]
              have hswfu : SetsWF ({ db with workoutExercises := db.workoutExercises.map (updateExerciseFromSync now i e ((jsMapGet libIds e.clientId).getD 0) old2.id) } : Db) gen :=
                SetsWF_congr rfl hswf
              have hidmapX : ((db.workoutExercises.map (updateExerciseFromSync now i e ((jsMapGet libIds e.clientId).getD 0) old2.id)).map (·.id)) = db.workoutExercises.map (·.id) := by
                rw [List.map_map]
                exact List.map_congr_left (fun r _ => updateExerciseFromSync_id ..)
              have hexwfu : ExercisesWF ({ db with workoutExercises := db.workoutExercises.map (updateExerciseFromSync now i e ((jsMapGet libIds e.clientId).getD 0) old2.id) } : Db) gen := by
                refine ⟨by rw [hidmapX]; exact hexwf.1, ?_⟩
                · intro x hx
                  rcases List.mem_map.mp hx with ⟨r, hr, rfl⟩
                  rw [updateExerciseFromSync_id]
                  exact hexwf.2 r hr
              have hoku : ExMapOk ({ db with workoutExercises := db.workoutExercises.map (updateExerciseFromSync now i e ((jsMapGet libIds e.clientId).getD 0) old2.id) } : Db) wid exMap := by
                intro p hp
                rcases hok p hp with ⟨r, hr, h1, h2, h3⟩
                exact ⟨updateExerciseFromSync now i e ((jsMapGet libIds e.clientId).getD 0) old2.id r,
                  List.mem_map_of_mem _ hr,
                  by rw [updateExerciseFromSync_id]; exact h1,
                  by rw [updateExerciseFromSync_workoutId]; exact h2,
                  by rw [updateExerciseFromSync_clientId]; exact h3⟩
              have hiff := syncExerciseSets_missing_set _ gen now old2.id e.sets e.updatedAt hswfu
                hcid s hs hpar hmiss hne
              obtain ⟨hswf2, hgle⟩ := syncExerciseSets_wf _ gen now old2.id e.sets e.updatedAt hswfu
              have hwE := syncExerciseSets_workoutExercises ({ db with workoutExercises := db.workoutExercises.map (updateExerciseFromSync now i e ((jsMapGet libIds e.clientId).getD 0) old2.id) } : Db) gen now old2.id e.sets e.updatedAt
              have hexwf2 := ExercisesWF_congr hwE (ExercisesWF_mono hgle hexwfu)
              have hok2 := ExMapOk_congr hwE hoku
              obtain ⟨w1, w2, w3, w4, w5, w6⟩ := processClientExercises_main now wid libIds exMap
                rest (i + 1) _ _ hexwf2 hswf2 hok2
              have hfe := w6 old2.id (lt_of_lt_of_le htid hgle) hnt
              constructor
              · intro hfin
                have hmem : s ∈ (processClientExercises now wid libIds exMap _ _ rest (i + 1)).1.sets.filter (fun x => x.workoutExerciseId == old2.id) :=
                  List.mem_filter.mpr ⟨hfin, by simpa using hpar⟩
                rw [hfe] at hmem
                exact hiff.mp (List.mem_filter.mp hmem).1
              · intro hrhs
                have hmem : s ∈ (syncExerciseSets _ gen now old2.id e.sets e.updatedAt).1.sets.filter (fun x => x.workoutExerciseId == old2.id) :=
                  List.mem_filter.mpr ⟨hiff.mpr hrhs, by simpa using hpar⟩
                rw [← hfe] at hmem
                exact (List.mem_filter.mp hmem).1
            · rw [if_neg hts]
              have hiff := syncExerciseSets_missing_set db gen now old2.id e.sets e.updatedAt hswf
                hcid s hs hpar hmiss hne
              obtain ⟨hswf2, hgle⟩ := syncExerciseSets_wf db gen now old2.id e.sets e.updatedAt hswf
              have hwE := syncExerciseSets_workoutExercises db gen now old2.id e.sets e.updatedAt
              have hexwf2 := ExercisesWF_congr hwE (ExercisesWF_mono hgle hexwf)
              have hok2 := ExMapOk_congr hwE hok
              obtain ⟨w1, w2, w3, w4, w5, w6⟩ := processClientExercises_main now wid libIds exMap
                rest (i + 1) _ _ hexwf2 hswf2 hok2
              have hfe := w6 old2.id (lt_of_lt_of_le htid hgle) hnt
              constructor
              · intro hfin
                have hmem : s ∈ (processClientExercises now wid libIds exMap _ _ rest (i + 1)).1.sets.filter (fun x => x.workoutExerciseId == old2.id) :=
                  List.mem_filter.mpr ⟨hfin, by simpa using hpar⟩
                rw [hfe] at hmem
                exact hiff.mp (List.mem_filter.mp hmem).1
              · intro hrhs
                have hmem : s ∈ (syncExerciseSets db gen now old2.id e.sets e.updatedAt).1.sets.filter (fun x => x.workoutExerciseId == old2.id) :=
                  List.mem_filter.mpr ⟨hiff.mpr hrhs, by simpa using hpar⟩
                rw [← hfe] at hmem
                exact (List.mem_filter.mp hmem).1
      · -- the head of the loop is a different incoming exercise
        have hnode0 : ∀ p0, jsMapGet exMap e0.clientId = some p0 → ¬ p0.id = old.id := by
          intro p0 hp0 hcontra
          rcases jsMapGet_some_mem _ _ _ hp0 with ⟨k0, hk0mem, hk0beq⟩
          have hk0 : k0 = e0.clientId := by simpa using hk0beq
          subst hk0
          rcases hok _ hk0mem with ⟨r0, hr0, hr0id, _, hr0cid⟩
          have hrr : r0 = rdb := List.inj_on_of_nodup_map hexwf.1 hr0 hrdb
            (by rw [hr0id, hcontra, hrid])
          have h1 : r0.clientId = e0.clientId := hr0cid
          have h2 : rdb.clientId = e.clientId := hrcid
          have hce : e0.clientId = e.clientId := by rw [← h1, hrr]; exact h2
          have hnd := List.nodup_cons.mp (by
            rw [List.map_cons] at hnodup
            exact hnodup)
          exact hnd.1 (hce.symm ▸ List.mem_map.mpr ⟨e, he, rfl⟩)
        have hnodup' : (rest.map (·.clientId)).Nodup := by
          rw [List.map_cons] at hnodup
          exact (List.nodup_cons.mp hnodup).2
        simp only [processClientExercises]
        cases hget0 : jsMapGet exMap e0.clientId with
        | some p0 =>
            dsimp only
            have hq : ¬ old.id = p0.id := fun hc => hnode0 p0 hget0 hc.symm
            by_cases hts0 : p0.updatedAt < e0.updatedAt
            · rw [if_pos hts0]
              have hswfu : SetsWF ({ db with workoutExercises := db.workoutExercises.map (updateExerciseFromSync now i e0 ((jsMapGet libIds e0.clientId).getD 0) p0.id) } : Db) gen :=
                SetsWF_congr rfl hswf
              have hidmapX : ((db.workoutExercises.map (updateExerciseFromSync now i e0 ((jsMapGet libIds e0.clientId).getD 0) p0.id)).map (·.id)) = db.workoutExercises.map (·.id) := by
                rw [List.map_map]
                exact List.map_congr_left (fun r _ => updateExerciseFromSync_id ..)
              have hexwfu : ExercisesWF ({ db with workoutExercises := db.workoutExercises.map (updateExerciseFromSync now i e0 ((jsMapGet libIds e0.clientId).getD 0) p0.id) } : Db) gen := by
                refine ⟨by rw [hidmapX]; exact hexwf.1, ?_⟩
                · intro x hx
                  rcases List.mem_map.mp hx with ⟨r, hr, rfl⟩
                  rw [updateExerciseFromSync_id]
                  exact hexwf.2 r hr
              have hoku : ExMapOk ({ db with workoutExercises := db.workoutExercises.map (updateExerciseFromSync now i e0 ((jsMapGet libIds e0.clientId).getD 0) p0.id) } : Db) wid exMap := by
                intro p hp
                rcases hok p hp with ⟨r, hr, h1, h2, h3⟩
                exact ⟨updateExerciseFromSync now i e0 ((jsMapGet libIds e0.clientId).getD 0) p0.id r,
                  List.mem_map_of_mem _ hr,
                  by rw [updateExerciseFromSync_id]; exact h1,
                  by rw [updateExerciseFromSync_workoutId]; exact h2,
                  by rw [updateExerciseFromSync_clientId]; exact h3⟩
              have hfilter := syncExerciseSets_filter_other _ gen now p0.id e0.sets e0.updatedAt
                hswfu old.id hq
              obtain ⟨hswf2, hgle⟩ := syncExerciseSets_wf _ gen now p0.id e0.sets e0.updatedAt hswfu
              have hwE := syncExerciseSets_workoutExercises ({ db with workoutExercises := db.workoutExercises.map (updateExerciseFromSync now i e0 ((jsMapGet libIds e0.clientId).getD 0) p0.id) } : Db) gen now p0.id e0.sets e0.updatedAt
              have hexwf2 := ExercisesWF_congr hwE (ExercisesWF_mono hgle hexwfu)
              have hok2 := ExMapOk_congr hwE hoku
              have hsmem : s ∈ db.sets.filter (fun x => x.workoutExerciseId == old.id) :=
                List.mem_filter.mpr ⟨hs, by simpa using hpar⟩
              have hs2 : s ∈ (syncExerciseSets ({ db with workoutExercises := db.workoutExercises.map (updateExerciseFromSync now i e0 ((jsMapGet libIds e0.clientId).getD 0) p0.id) } : Db) gen now p0.id e0.sets e0.updatedAt).1.sets := by
                have hin : s ∈ (syncExerciseSets ({ db with workoutExercises := db.workoutExercises.map (updateExerciseFromSync now i e0 ((jsMapGet libIds e0.clientId).getD 0) p0.id) } : Db) gen now p0.id e0.sets e0.updatedAt).1.sets.filter (fun x => x.workoutExerciseId == old.id) := by
                  rw [hfilter]
                  exact hsmem
                exact (List.mem_filter.mp hin).1
              have hcid2 : (((syncExerciseSets ({ db with workoutExercises := db.workoutExercises.map (updateExerciseFromSync now i e0 ((jsMapGet libIds e0.clientId).getD 0) p0.id) } : Db) gen now p0.id e0.sets e0.updatedAt).1.sets.filter (fun x => x.workoutExerciseId == old.id)).map (·.clientId)).Nodup := by
                rw [hfilter]
                exact hcid
              exact ih (i + 1) _ _ hexwf2 hswf2 hok2 hnodup' e he old hget s hs2 hpar hmiss hne hcid2
            · rw [if_neg hts0]
              have hfilter := syncExerciseSets_filter_other db gen now p0.id e0.sets e0.updatedAt
                hswf old.id hq
              obtain ⟨hswf2, hgle⟩ := syncExerciseSets_wf db gen now p0.id e0.sets e0.updatedAt hswf
              have hwE := syncExerciseSets_workoutExercises db gen now p0.id e0.sets e0.updatedAt
              have hexwf2 := ExercisesWF_congr hwE (ExercisesWF_mono hgle hexwf)
              have hok2 := ExMapOk_congr hwE hok
              have hsmem : s ∈ db.sets.filter (fun x => x.workoutExerciseId == old.id) :=
                List.mem_filter.mpr ⟨hs, by simpa using hpar⟩
              have hs2 : s ∈ (syncExerciseSets db gen now p0.id e0.sets e0.updatedAt).1.sets := by
                have : s ∈ (syncExerciseSets db gen now p0.id e0.sets e0.updatedAt).1.sets.filter (fun x => x.workoutExerciseId == old.id) := by
                  rw [hfilter]
                  exact hsmem
                exact (List.mem_filter.mp this).1
              have hcid2 : (((syncExerciseSets db gen now p0.id e0.sets e0.updatedAt).1.sets.filter (fun x => x.workoutExerciseId == old.id)).map (·.clientId)).Nodup := by
                rw [hfilter]
                exact hcid
              exact ih (i + 1) _ _ hexwf2 hswf2 hok2 hnodup' e he old hget s hs2 hpar hmiss hne hcid2
        | none =>
            dsimp only
            have hexwfu : ExercisesWF ({ db with workoutExercises := db.workoutExercises ++ [{ id := gen, workoutId := wid, clientId := e0.clientId, exerciseId := (jsMapGet libIds e0.clientId).getD 0, orderIndex := i, exerciseName := e0.exerciseName, primaryMuscles := normalizedPrimaryMuscles e0, updatedAt := now, clientUpdatedAt := e0.updatedAt, lastSyncedAt := now }] } : Db) (gen + 1) := by
              constructor
              · rw [List.map_append, List.nodup_append]
                refine ⟨hexwf.1, by simp, ?_⟩
                intro x hx
                rcases List.mem_map.mp hx with ⟨r, hr, rfl⟩
                simp only [List.map_cons, List.map_nil, List.mem_singleton]
                intro heq
                have heq2 : r.id = gen := heq
                have hlt := hexwf.2 r hr
                omega
              · intro x hx
                rcases List.mem_append.mp hx with hx | hx
                · have hlt := hexwf.2 x hx
                  omega
                · simp only [List.mem_singleton] at hx
                  rw [hx]
                  show gen < gen + 1
                  omega
            have hswfu : SetsWF ({ db with workoutExercises := db.workoutExercises ++ [{ id := gen, workoutId := wid, clientId := e0.clientId, exerciseId := (jsMapGet libIds e0.clientId).getD 0, orderIndex := i, exerciseName := e0.exerciseName, primaryMuscles := normalizedPrimaryMuscles e0, updatedAt := now, clientUpdatedAt := e0.updatedAt, lastSyncedAt := now }] } : Db) (gen + 1) :=
              SetsWF_congr rfl (SetsWF_mono (Nat.le_succ gen) hswf)
            have hoku : ExMapOk ({ db with workoutExercises := db.workoutExercises ++ [{ id := gen, workoutId := wid, clientId := e0.clientId, exerciseId := (jsMapGet libIds e0.clientId).getD 0, orderIndex := i, exerciseName := e0.exerciseName, primaryMuscles := normalizedPrimaryMuscles e0, updatedAt := now, clientUpdatedAt := e0.updatedAt, lastSyncedAt := now }] } : Db) wid exMap := by
              intro p hp
              rcases hok p hp with ⟨r, hr, h1, h2, h3⟩
              exact ⟨r, List.mem_append_left _ hr, h1, h2, h3⟩
            obtain ⟨hswf2, hgle⟩ := insertSetsLoop_wf now gen e0.sets _ (gen + 1) 0 hswfu
            have hwE := insertSetsLoop_workoutExercises e0.sets now gen ({ db with workoutExercises := db.workoutExercises ++ [{ id := gen, workoutId := wid, clientId := e0.clientId, exerciseId := (jsMapGet libIds e0.clientId).getD 0, orderIndex := i, exerciseName := e0.exerciseName, primaryMuscles := normalizedPrimaryMuscles e0, updatedAt := now, clientUpdatedAt := e0.updatedAt, lastSyncedAt := now }] } : Db) (gen + 1) 0
            have hexwf2 := ExercisesWF_congr hwE (ExercisesWF_mono hgle hexwfu)
            have hok2 := ExMapOk_congr hwE hoku
            have hfilter := insertSetsLoop_filter_other now gen e0.sets ({ db with workoutExercises := db.workoutExercises ++ [{ id := gen, workoutId := wid, clientId := e0.clientId, exerciseId := (jsMapGet libIds e0.clientId).getD 0, orderIndex := i, exerciseName := e0.exerciseName, primaryMuscles := normalizedPrimaryMuscles e0, updatedAt := now, clientUpdatedAt := e0.updatedAt, lastSyncedAt := now }] } : Db) (gen + 1) 0 old.id (by omega)
            have hsmem : s ∈ db.sets.filter (fun x => x.workoutExerciseId == old.id) :=
              List.mem_filter.mpr ⟨hs, by simpa using hpar⟩
            have hs2 : s ∈ (insertSetsLoop now gen ({ db with workoutExercises := db.workoutExercises ++ [{ id := gen, workoutId := wid, clientId := e0.clientId, exerciseId := (jsMapGet libIds e0.clientId).getD 0, orderIndex := i, exerciseName := e0.exerciseName, primaryMuscles := normalizedPrimaryMuscles e0, updatedAt := now, clientUpdatedAt := e0.updatedAt, lastSyncedAt := now }] } : Db) (gen + 1) e0.sets 0).1.sets := by
              have hin : s ∈ (insertSetsLoop now gen ({ db with workoutExercises := db.workoutExercises ++ [{ id := gen, workoutId := wid, clientId := e0.clientId, exerciseId := (jsMapGet libIds e0.clientId).getD 0, orderIndex := i, exerciseName := e0.exerciseName, primaryMuscles := normalizedPrimaryMuscles e0, updatedAt := now, clientUpdatedAt := e0.updatedAt, lastSyncedAt := now }] } : Db) (gen + 1) e0.sets 0).1.sets.filter (fun x => x.workoutExerciseId == old.id) := by
                rw [hfilter]
                exact hsmem
              exact (List.mem_filter.mp hin).1
            have hcid2 : (((insertSetsLoop now gen ({ db with workoutExercises := db.workoutExercises ++ [{ id := gen, workoutId := wid, clientId := e0.clientId, exerciseId := (jsMapGet libIds e0.clientId).getD 0, orderIndex := i, exerciseName := e0.exerciseName, primaryMuscles := normalizedPrimaryMuscles e0, updatedAt := now, clientUpdatedAt := e0.updatedAt, lastSyncedAt := now }] } : Db) (gen + 1) e0.sets 0).1.sets.filter (fun x => x.workoutExerciseId == old.id)).map (·.clientId)).Nodup := by
              rw [hfilter]
              exact hcid
            exact ih (i + 1) _ _ hexwf2 hswf2 hok2 hnodup' e he old hget s hs2 hpar hmiss hne hcid2

theorem getOrCreateExerciseId_gen_le (db : Db) (gen : Nat) (n : String) (m : List String) :
    gen ≤ (getOrCreateExerciseId db gen n m).2.2 := by
  unfold getOrCreateExerciseId
  split
  · exact le_refl _
  · exact Nat.le_succ _

theorem resolveLibraryIds_gen_le (exs : List ExerciseSyncData) :
    ∀ db gen, gen ≤ (resolveLibraryIds db gen exs).2.1 := by
  induction exs with
  | nil => intro db gen; exact le_refl _
  | cons e rest ih =>
      intro db gen
      simp only [resolveLibraryIds]
      exact le_trans (getOrCreateExerciseId_gen_le db gen e.exerciseName
        (normalizedPrimaryMuscles e)) (ih _ _)

theorem exMapOk_of_build (db : Db) (wid : Nat) :
    ExMapOk db wid (buildMapBy (·.clientId)
      ((db.workoutExercises.filter (fun x => x.workoutId == wid)).filter
        (fun x => x.clientId != ""))) := by
  intro p hp
  rcases buildMapBy_sound _ _ p hp with ⟨hkey, hmem⟩
  have h1 := List.mem_filter.mp hmem
  have h2 := List.mem_filter.mp h1.1
  exact ⟨p.2, h2.1, rfl, by simpa using h2.2, hkey.symm⟩

theorem deleteMissingExercises_exercises_subset (ts : Nat) (processed : List String) :
    ∀ (entries : List (String × ExerciseRow)) (db : Db) (x : ExerciseRow),
      x ∈ (deleteMissingExercises ts processed db entries).workoutExercises →
      x ∈ db.workoutExercises := by
  intro entries
  induction entries with
  | nil => intro db x h; exact h
  | cons p rest ih =>
      intro db x h
      simp only [deleteMissingExercises] at h
      have h2 := ih _ _ h
      split at h2
      · exact h2
      · split at h2
        · exact (List.mem_filter.mp h2).1
        · exact h2

theorem deleteMissingExercises_sets_subset (ts : Nat) (processed : List String) :
    ∀ (entries : List (String × ExerciseRow)) (db : Db) (s : SetRow),
      s ∈ (deleteMissingExercises ts processed db entries).sets → s ∈ db.sets := by
  intro entries
  induction entries with
  | nil => intro db s h; exact h
  | cons p rest ih =>
      intro db s h
      simp only [deleteMissingExercises] at h
      have h2 := ih _ _ h
      split at h2
      · exact h2
      · split at h2
        · exact (List.mem_filter.mp h2).1
        · exact h2

theorem deleteMissingExercises_ex_preserved (ts : Nat) (processed : List String) :
    ∀ (entries : List (String × ExerciseRow)) (db : Db) (x : ExerciseRow),
      x ∈ db.workoutExercises → (∀ p ∈ entries, ¬ p.2.id = x.id) →
      x ∈ (deleteMissingExercises ts processed db entries).workoutExercises := by
  intro entries
  induction entries with
  | nil => intro db x hx _; exact hx
  | cons p rest ih =>
      intro db x hx hne
      simp only [deleteMissingExercises]
      refine ih _ x ?_ (fun q hq => hne q (List.mem_cons_of_mem p hq))
      split
      · exact hx
      · split
        · refine List.mem_filter.mpr ⟨hx, ?_⟩
          simp only [bne_iff_ne, ne_eq, decide_eq_true_eq]
          intro hcontra
          exact hne p (List.mem_cons_self p rest) (by rw [← hcontra])
        · exact hx

theorem deleteMissingExercises_set_preserved (ts : Nat) (processed : List String) :
    ∀ (entries : List (String × ExerciseRow)) (db : Db) (s : SetRow),
      s ∈ db.sets → (∀ p ∈ entries, ¬ p.2.id = s.workoutExerciseId) →
      s ∈ (deleteMissingExercises ts processed db entries).sets := by
  intro entries
  induction entries with
  | nil => intro db s hs _; exact hs
  | cons p rest ih =>
      intro db s hs hne
      simp only [deleteMissingExercises]
      refine ih _ s ?_ (fun q hq => hne q (List.mem_cons_of_mem p hq))
      split
      · exact hs
      · split
        · refine List.mem_filter.mpr ⟨hs, ?_⟩
          simp only [bne_iff_ne, ne_eq, decide_eq_true_eq]
          intro hcontra
          exact hne p (List.mem_cons_self p rest) (by rw [← hcontra])
        · exact hs

/-- The exercise-level implicit-deletion rule: an unprocessed stored exercise
instance is removed, together with every one of its sets, exactly when the
workout's incoming client timestamp is strictly newer than its stored server
timestamp. -/
theorem deleteMissingExercises_decides (ts : Nat) (processed : List String) :
    ∀ (pre : List (String × ExerciseRow)) (post : List (String × ExerciseRow)) (db : Db)
        (ex : ExerciseRow),
      ex ∈ db.workoutExercises → ex.clientId ∉ processed →
      (∀ p ∈ pre ++ post, ¬ p.2.id = ex.id) →
      ((ex ∈ (deleteMissingExercises ts processed db
            (pre ++ (ex.clientId, ex) :: post)).workoutExercises ↔ ¬ (ex.updatedAt < ts)) ∧
        (∀ s ∈ db.sets, s.workoutExerciseId = ex.id →
          (s ∈ (deleteMissingExercises ts processed db (pre ++ (ex.clientId, ex) :: post)).sets ↔
            ¬ (ex.updatedAt < ts)))) := by
  intro pre
  induction pre with
  | nil =>
      intro post db ex hex hproc hne
      simp only [List.nil_append, deleteMissingExercises]
      rw [if_neg (by simpa using hproc)]
      by_cases hlt : ex.updatedAt < ts
      · rw [if_pos hlt]
        constructor
        · constructor
          · intro hmem
            have hsub := deleteMissingExercises_exercises_subset ts processed post _ ex hmem
            rcases List.mem_filter.mp hsub with ⟨_, hkeep⟩
            simp at hkeep
          · intro hcontra; exact absurd hlt hcontra
        · intro s hs hpar
          constructor
          · intro hmem
            have hsub := deleteMissingExercises_sets_subset ts processed post _ s hmem
            rcases List.mem_filter.mp hsub with ⟨_, hkeep⟩
            rw [hpar] at hkeep
            simp at hkeep
          · intro hcontra; exact absurd hlt hcontra
      · rw [if_neg hlt]
        constructor
        · constructor
          · intro _; exact hlt
          · intro _
            exact deleteMissingExercises_ex_preserved ts processed post db ex hex
              (fun p hp => hne p (by simpa using hp))
        · intro s hs hpar
          constructor
          · intro _; exact hlt
          · intro _
            refine deleteMissingExercises_set_preserved ts processed post db s hs ?_
            intro p hp hcontra
            exact hne p (by simpa using hp) (by rw [hcontra, hpar])
  | cons p pre' ih =>
      intro post db ex hex hproc hne
      simp only [List.cons_append, deleteMissingExercises]
      have hpid : ¬ p.2.id = ex.id := hne p (List.mem_cons_self p _)
      have hne' : ∀ q ∈ pre' ++ post, ¬ q.2.id = ex.id := fun q hq => hne q (by
        rcases List.mem_append.mp hq with hq | hq
        · exact List.mem_cons_of_mem p (List.mem_append_left _ hq)
        · exact List.mem_cons_of_mem p (List.mem_append_right _ hq))
      have hex' : ex ∈ (if processed.contains p.1 then db
          else if p.2.updatedAt < ts then
            { db with
              sets := db.sets.filter (fun s => s.workoutExerciseId != p.2.id),
              workoutExercises := db.workoutExercises.filter (fun r => r.id != p.2.id) }
          else db).workoutExercises := by
        split
        · exact hex
        · split
          · refine List.mem_filter.mpr ⟨hex, ?_⟩
            simp only [bne_iff_ne, ne_eq, decide_eq_true_eq]
            intro hcontra
            exact hpid (by rw [← hcontra])
          · exact hex
      obtain ⟨ihA, ihB⟩ := ih post _ ex hex' hproc hne'
      refine ⟨ihA, ?_⟩
      intro s hs hpar
      refine ihB s ?_ hpar
      split
      · exact hs
      · split
        · refine List.mem_filter.mpr ⟨hs, ?_⟩
          simp only [bne_iff_ne, ne_eq, decide_eq_true_eq]
          intro hcontra
          exact hpid (by rw [← hcontra, hpar])
        · exact hs

/-- Entries whose client id was processed are skipped by the deletion pass, so
the sets of an exercise instance that only processed entries point at are left
untouched. -/
theorem deleteMissingExercises_filter_keep (ts : Nat) (processed : List String) :
    ∀ (entries : List (String × ExerciseRow)) (db : Db) (tid : Nat),
      (∀ p ∈ entries, ¬ processed.contains p.1 = true → ¬ p.2.id = tid) →
      (deleteMissingExercises ts processed db entries).sets.filter
          (fun x => x.workoutExerciseId == tid) =
        db.sets.filter (fun x => x.workoutExerciseId == tid) := by
  intro entries
  induction entries with
  | nil => intro db tid _; rfl
  | cons p rest ih =>
      intro db tid hh
      simp only [deleteMissingExercises]
      by_cases hc : processed.contains p.1 = true
      · rw [if_pos hc]
        exact ih db tid (fun q hq => hh q (List.mem_cons_of_mem p hq))
      · rw [if_neg hc]
        have hp : ¬ p.2.id = tid := hh p (List.mem_cons_self p rest) hc
        by_cases hlt : p.2.updatedAt < ts
        · rw [if_pos hlt]
          rw [ih _ tid (fun q hq => hh q (List.mem_cons_of_mem p hq))]
          show (db.sets.filter (fun s => s.workoutExerciseId != p.2.id)).filter
              (fun x => x.workoutExerciseId == tid) = _
          rw [List.filter_comm]
          refine List.filter_eq_self.mpr ?_
          intro r hr
          rcases List.mem_filter.mp hr with ⟨hrmem, hrq⟩
          simp only [bne_iff_ne, ne_eq, decide_eq_true_eq]
          intro hid
          have : r.workoutExerciseId = tid := by simpa using hrq
          exact hp (by rw [← hid, this])
        · rw [if_neg hlt]
          exact ih db tid (fun q hq => hh q (List.mem_cons_of_mem p hq))

theorem mem_iff_of_filter_eq {l l' : List SetRow} {tid : Nat}
    (h : l.filter (fun x => x.workoutExerciseId == tid) =
      l'.filter (fun x => x.workoutExerciseId == tid))
    {s : SetRow} (hs : s.workoutExerciseId = tid) : (s ∈ l ↔ s ∈ l') := by
  constructor
  · intro hmem
    have h1 : s ∈ l.filter (fun x => x.workoutExerciseId == tid) :=
      List.mem_filter.mpr ⟨hmem, by simpa using hs⟩
    rw [h] at h1
    exact (List.mem_filter.mp h1).1
  · intro hmem
    have h1 : s ∈ l'.filter (fun x => x.workoutExerciseId == tid) :=
      List.mem_filter.mpr ⟨hmem, by simpa using hs⟩
    rw [← h] at h1
    exact (List.mem_filter.mp h1).1

/-- C5: during a merge, a stored exercise instance of this workout whose client
id is absent from the incoming exercise list is deleted together with all its
sets exactly when the workout's incoming client timestamp is strictly newer
than that instance's stored server timestamp; and a stored set of a matched
exercise instance whose client id is absent from that exercise's incoming set
list is deleted exactly when the newest client timestamp among the incoming
sets (falling back to the exercise's own client timestamp when it sent zero
sets) is strictly newer than the set's stored server timestamp. -/
theorem C5_implicit_deletion (db : Db) (gen now wid : Nat) (w : WorkoutSyncData) (ts : Nat)
    (hexwf : ExercisesWF db gen) (hswf : SetsWF db gen)
    (hwcid : ((db.workoutExercises.filter (fun x => x.workoutId == wid)).map (·.clientId)).Nodup)
    (hinN : (w.exercises.map (·.clientId)).Nodup) :
    (∀ ex ∈ db.workoutExercises, ex.workoutId = wid → ¬ ex.clientId = "" →
      ex.clientId ∉ w.exercises.map (·.clientId) →
      ((ex ∈ (updateWorkoutFromSync db gen now wid w ts).1.workoutExercises ↔
          ¬ (ex.updatedAt < ts)) ∧
        ∀ s ∈ db.sets, s.workoutExerciseId = ex.id →
          (s ∈ (updateWorkoutFromSync db gen now wid w ts).1.sets ↔ ¬ (ex.updatedAt < ts)))) ∧
    (∀ e ∈ w.exercises, ∀ ex ∈ db.workoutExercises, ex.workoutId = wid →
      ex.clientId = e.clientId → ¬ ex.clientId = "" →
      ((db.sets.filter (fun x => x.workoutExerciseId == ex.id)).map (·.clientId)).Nodup →
      ∀ s ∈ db.sets, s.workoutExerciseId = ex.id → s.clientId ∉ e.sets.map (·.clientId) →
      ¬ s.clientId = "" →
      (s ∈ (updateWorkoutFromSync db gen now wid w ts).1.sets ↔
        ¬ (s.updatedAt < newestClientSetTime e.sets e.updatedAt))) := by
  have hrwE := resolveLibraryIds_workoutExercises w.exercises db gen
  have hrsets := resolveLibraryIds_sets w.exercises db gen
  have hggen := resolveLibraryIds_gen_le w.exercises db gen
  have hmapeq : (buildMapBy (·.clientId) (((resolveLibraryIds db gen w.exercises).1.workoutExercises.filter (fun x => x.workoutId == wid)).filter (fun x => x.clientId != ""))) = (buildMapBy (·.clientId) ((db.workoutExercises.filter (fun x => x.workoutId == wid)).filter (fun x => x.clientId != ""))) := by rw [hrwE]
  have hunfold1 : (updateWorkoutFromSync db gen now wid w ts).1 =
      deleteMissingExercises ts (w.exercises.map (·.clientId)) (processClientExercises now wid (resolveLibraryIds db gen w.exercises).2.2 (buildMapBy (·.clientId) ((db.workoutExercises.filter (fun x => x.workoutId == wid)).filter (fun x => x.clientId != ""))) ({ (resolveLibraryIds db gen w.exercises).1 with workouts := (resolveLibraryIds db gen w.exercises).1.workouts.map (applyWorkoutFieldsUpdate now w ts wid) } : Db) (resolveLibraryIds db gen w.exercises).2.1 w.exercises 0).1 (buildMapBy (·.clientId) ((db.workoutExercises.filter (fun x => x.workoutId == wid)).filter (fun x => x.clientId != ""))) := by
    show deleteMissingExercises ts (w.exercises.map (·.clientId))
      (processClientExercises now wid (resolveLibraryIds db gen w.exercises).2.2 (buildMapBy (·.clientId) (((resolveLibraryIds db gen w.exercises).1.workoutExercises.filter (fun x => x.workoutId == wid)).filter (fun x => x.clientId != ""))) ({ (resolveLibraryIds db gen w.exercises).1 with workouts := (resolveLibraryIds db gen w.exercises).1.workouts.map (applyWorkoutFieldsUpdate now w ts wid) } : Db) (resolveLibraryIds db gen w.exercises).2.1 w.exercises 0).1 (buildMapBy (·.clientId) (((resolveLibraryIds db gen w.exercises).1.workoutExercises.filter (fun x => x.workoutId == wid)).filter (fun x => x.clientId != ""))) =
      deleteMissingExercises ts (w.exercises.map (·.clientId)) (processClientExercises now wid (resolveLibraryIds db gen w.exercises).2.2 (buildMapBy (·.clientId) ((db.workoutExercises.filter (fun x => x.workoutId == wid)).filter (fun x => x.clientId != ""))) ({ (resolveLibraryIds db gen w.exercises).1 with workouts := (resolveLibraryIds db gen w.exercises).1.workouts.map (applyWorkoutFieldsUpdate now w ts wid) } : Db) (resolveLibraryIds db gen w.exercises).2.1 w.exercises 0).1 (buildMapBy (·.clientId) ((db.workoutExercises.filter (fun x => x.workoutId == wid)).filter (fun x => x.clientId != "")))
    rw [hmapeq]
  have hD2E : ({ (resolveLibraryIds db gen w.exercises).1 with workouts := (resolveLibraryIds db gen w.exercises).1.workouts.map (applyWorkoutFieldsUpdate now w ts wid) } : Db).workoutExercises = db.workoutExercises := hrwE
  have hD2S : ({ (resolveLibraryIds db gen w.exercises).1 with workouts := (resolveLibraryIds db gen w.exercises).1.workouts.map (applyWorkoutFieldsUpdate now w ts wid) } : Db).sets = db.sets := hrsets
  have hexwf2 : ExercisesWF ({ (resolveLibraryIds db gen w.exercises).1 with workouts := (resolveLibraryIds db gen w.exercises).1.workouts.map (applyWorkoutFieldsUpdate now w ts wid) } : Db) (resolveLibraryIds db gen w.exercises).2.1 :=
    ExercisesWF_congr hD2E (ExercisesWF_mono hggen hexwf)
  have hswf2 : SetsWF ({ (resolveLibraryIds db gen w.exercises).1 with workouts := (resolveLibraryIds db gen w.exercises).1.workouts.map (applyWorkoutFieldsUpdate now w ts wid) } : Db) (resolveLibraryIds db gen w.exercises).2.1 :=
    SetsWF_congr hD2S (SetsWF_mono hggen hswf)
  have hokdb : ExMapOk db wid (buildMapBy (·.clientId) ((db.workoutExercises.filter (fun x => x.workoutId == wid)).filter (fun x => x.clientId != ""))) := exMapOk_of_build db wid
  have hok2 : ExMapOk ({ (resolveLibraryIds db gen w.exercises).1 with workouts := (resolveLibraryIds db gen w.exercises).1.workouts.map (applyWorkoutFieldsUpdate now w ts wid) } : Db) wid (buildMapBy (·.clientId) ((db.workoutExercises.filter (fun x => x.workoutId == wid)).filter (fun x => x.clientId != ""))) := ExMapOk_congr hD2E hokdb
  obtain ⟨w1, w2, w3, w4, w5, w6⟩ := processClientExercises_main now wid (resolveLibraryIds db gen w.exercises).2.2 (buildMapBy (·.clientId) ((db.workoutExercises.filter (fun x => x.workoutId == wid)).filter (fun x => x.clientId != "")))
    w.exercises 0 ({ (resolveLibraryIds db gen w.exercises).1 with workouts := (resolveLibraryIds db gen w.exercises).1.workouts.map (applyWorkoutFieldsUpdate now w ts wid) } : Db) (resolveLibraryIds db gen w.exercises).2.1 hexwf2 hswf2 hok2
  have hkeys : (((db.workoutExercises.filter (fun x => x.workoutId == wid)).filter (fun x => x.clientId != "")).map (·.clientId)).Nodup := ((List.filter_sublist _).map _).nodup hwcid
  have hmapeq2 : (buildMapBy (·.clientId) ((db.workoutExercises.filter (fun x => x.workoutId == wid)).filter (fun x => x.clientId != ""))) = ((db.workoutExercises.filter (fun x => x.workoutId == wid)).filter (fun x => x.clientId != "")).map (fun r => (r.clientId, r)) :=
    buildMapBy_eq_of_nodup _ _ hkeys
  refine ⟨?_, ?_⟩
  · -- part A: an exercise instance absent from the incoming list
    intro ex hex hwidx hnecid hmiss
    have hexf1 : ex ∈ db.workoutExercises.filter (fun x => x.workoutId == wid) :=
      List.mem_filter.mpr ⟨hex, by simpa using hwidx⟩
    have hexf2 : ex ∈ ((db.workoutExercises.filter (fun x => x.workoutId == wid)).filter (fun x => x.clientId != "")) :=
      List.mem_filter.mpr ⟨hexf1, by simpa using hnecid⟩
    have hrows : ((db.workoutExercises.filter (fun x => x.workoutId == wid)).filter (fun x => x.clientId != "")).Nodup := by
      refine List.Nodup.of_map (·.id) ?_
      exact (((List.filter_sublist _).trans (List.filter_sublist _)).map _).nodup hexwf.1
    rcases List.append_of_mem hexf2 with ⟨l1, l2, hsplit⟩
    have hsl12 : ∀ r ∈ l1 ++ l2, r ∈ db.workoutExercises ∧ ¬ r.id = ex.id := by
      intro r hr
      have hrin : r ∈ ((db.workoutExercises.filter (fun x => x.workoutId == wid)).filter (fun x => x.clientId != "")) := by
        rw [hsplit]
        rcases List.mem_append.mp hr with h | h
        · exact List.mem_append_left _ h
        · exact List.mem_append_right _ (List.mem_cons_of_mem ex h)
      have hrdb : r ∈ db.workoutExercises := (List.mem_filter.mp (List.mem_filter.mp hrin).1).1
      refine ⟨hrdb, ?_⟩
      intro hid
      have hrs : r = ex := List.inj_on_of_nodup_map hexwf.1 hrdb hex hid
      subst hrs
      have hnd := hrows
      rw [hsplit, List.nodup_append] at hnd
      rcases List.mem_append.mp hr with h | h
      · exact hnd.2.2 h (List.mem_cons_self r l2)
      · exact (List.nodup_cons.mp hnd.2.1).1 h
    have hsplit2 : (buildMapBy (·.clientId) ((db.workoutExercises.filter (fun x => x.workoutId == wid)).filter (fun x => x.clientId != ""))) =
        l1.map (fun r => (r.clientId, r)) ++ (ex.clientId, ex) :: l2.map (fun r => (r.clientId, r)) := by
      rw [hmapeq2, hsplit]
      simp
    have hneo : ∀ p ∈ l1.map (fun r : ExerciseRow => (r.clientId, r)) ++
        l2.map (fun r : ExerciseRow => (r.clientId, r)), ¬ p.2.id = ex.id := by
      intro p hp
      rcases List.mem_append.mp hp with h | h
      · rcases List.mem_map.mp h with ⟨r, hr, rfl⟩
        exact (hsl12 r (List.mem_append_left _ hr)).2
      · rcases List.mem_map.mp h with ⟨r, hr, rfl⟩
        exact (hsl12 r (List.mem_append_right _ hr)).2
    have hexD2 : ex ∈ ({ (resolveLibraryIds db gen w.exercises).1 with workouts := (resolveLibraryIds db gen w.exercises).1.workouts.map (applyWorkoutFieldsUpdate now w ts wid) } : Db).workoutExercises := by
      rw [hD2E]
      exact hex
    have hex3 := w5 ex hexD2 hmiss
    have htidlt : ex.id < (resolveLibraryIds db gen w.exercises).2.1 := lt_of_lt_of_le (hexwf.2 ex hex) hggen
    have hnt : ∀ e' ∈ w.exercises, ∀ p, jsMapGet (buildMapBy (·.clientId) ((db.workoutExercises.filter (fun x => x.workoutId == wid)).filter (fun x => x.clientId != ""))) e'.clientId = some p → ¬ p.id = ex.id := by
      intro e' he' p hp hcontra
      rcases jsMapGet_some_mem _ _ _ hp with ⟨k2, hk2mem, hk2beq⟩
      have hk2 : k2 = e'.clientId := by simpa using hk2beq
      subst hk2
      rcases hokdb _ hk2mem with ⟨r', hr', hr'id, _, hr'cid⟩
      have h1 : r'.clientId = e'.clientId := hr'cid
      have hre : r' = ex := List.inj_on_of_nodup_map hexwf.1 hr' hex (by rw [hr'id, hcontra])
      apply hmiss
      rw [← hre, h1]
      exact List.mem_map.mpr ⟨e', he', rfl⟩
    have hfe := w6 ex.id htidlt hnt
    rw [hsplit2] at hex3 hfe
    constructor
    · rw [hunfold1, hsplit2]
      exact (deleteMissingExercises_decides ts (w.exercises.map (·.clientId))
        (l1.map (fun r => (r.clientId, r))) (l2.map (fun r => (r.clientId, r)))
        _ ex hex3 hmiss hneo).1
    · intro s hs hpar
      have hsD2 : s ∈ ({ (resolveLibraryIds db gen w.exercises).1 with workouts := (resolveLibraryIds db gen w.exercises).1.workouts.map (applyWorkoutFieldsUpdate now w ts wid) } : Db).sets := by
        rw [hD2S]
        exact hs
      have hs3 := (mem_iff_of_filter_eq hfe hpar).mpr hsD2
      rw [hunfold1, hsplit2]
      exact (deleteMissingExercises_decides ts (w.exercises.map (·.clientId))
        (l1.map (fun r => (r.clientId, r))) (l2.map (fun r => (r.clientId, r)))
        _ ex hex3 hmiss hneo).2 s hs3 hpar
  · -- part B: a set absent from a matched exercise's incoming set list
    intro e hein ex hex hwidx hcide hnecid hcidx s hs hpar hsmiss hsne
    have hexf1 : ex ∈ db.workoutExercises.filter (fun x => x.workoutId == wid) :=
      List.mem_filter.mpr ⟨hex, by simpa using hwidx⟩
    have hexf2 : ex ∈ ((db.workoutExercises.filter (fun x => x.workoutId == wid)).filter (fun x => x.clientId != "")) :=
      List.mem_filter.mpr ⟨hexf1, by simpa using hnecid⟩
    have hget : jsMapGet (buildMapBy (·.clientId) ((db.workoutExercises.filter (fun x => x.workoutId == wid)).filter (fun x => x.clientId != ""))) e.clientId = some ex := by
      have h0 := jsMapGet_buildMapBy_self (·.clientId) ((db.workoutExercises.filter (fun x => x.workoutId == wid)).filter (fun x => x.clientId != "")) hkeys ex hexf2
      rw [← hcide]
      exact h0
    have hsD2 : s ∈ ({ (resolveLibraryIds db gen w.exercises).1 with workouts := (resolveLibraryIds db gen w.exercises).1.workouts.map (applyWorkoutFieldsUpdate now w ts wid) } : Db).sets := by
      rw [hD2S]
      exact hs
    have hcid2 : ((({ (resolveLibraryIds db gen w.exercises).1 with workouts := (resolveLibraryIds db gen w.exercises).1.workouts.map (applyWorkoutFieldsUpdate now w ts wid) } : Db).sets.filter (fun x => x.workoutExerciseId == ex.id)).map (·.clientId)).Nodup := by
      rw [hD2S]
      exact hcidx
    have hiffB := processClientExercises_missing_set now wid (resolveLibraryIds db gen w.exercises).2.2 (buildMapBy (·.clientId) ((db.workoutExercises.filter (fun x => x.workoutId == wid)).filter (fun x => x.clientId != ""))) w.exercises 0
      ({ (resolveLibraryIds db gen w.exercises).1 with workouts := (resolveLibraryIds db gen w.exercises).1.workouts.map (applyWorkoutFieldsUpdate now w ts wid) } : Db) (resolveLibraryIds db gen w.exercises).2.1 hexwf2 hswf2 hok2 hinN e hein ex hget s hsD2 hpar hsmiss hsne hcid2
    have hkeep : ∀ p ∈ (buildMapBy (·.clientId) ((db.workoutExercises.filter (fun x => x.workoutId == wid)).filter (fun x => x.clientId != ""))), ¬ (w.exercises.map (·.clientId)).contains p.1 = true →
        ¬ p.2.id = ex.id := by
      intro p hp hcont hcontra
      rcases hokdb p hp with ⟨r', hr', hr'id, _, hr'cid⟩
      have hre : r' = ex := List.inj_on_of_nodup_map hexwf.1 hr' hex (by rw [hr'id, hcontra])
      apply hcont
      have h1 : r'.clientId = p.1 := hr'cid
      have h2 : p.1 = e.clientId := by rw [← h1, hre, hcide]
      rw [h2]
      simpa using (List.mem_map.mpr ⟨e, hein, rfl⟩ : e.clientId ∈ w.exercises.map (·.clientId))
    have hfk := deleteMissingExercises_filter_keep ts (w.exercises.map (·.clientId)) (buildMapBy (·.clientId) ((db.workoutExercises.filter (fun x => x.workoutId == wid)).filter (fun x => x.clientId != "")))
      (processClientExercises now wid (resolveLibraryIds db gen w.exercises).2.2 (buildMapBy (·.clientId) ((db.workoutExercises.filter (fun x => x.workoutId == wid)).filter (fun x => x.clientId != ""))) ({ (resolveLibraryIds db gen w.exercises).1 with workouts := (resolveLibraryIds db gen w.exercises).1.workouts.map (applyWorkoutFieldsUpdate now w ts wid) } : Db) (resolveLibraryIds db gen w.exercises).2.1 w.exercises 0).1 ex.id hkeep
    rw [hunfold1]
    exact (mem_iff_of_filter_eq hfk hpar).trans hiffB

/-- Witness for C5: in the concrete scenario the unmatched instance `c5exA`
(stored timestamp 100, deletion reference 90) survives, and the matched
instance's stored set `c5set1` (stored timestamp 40, deletion reference 50) is
removed. -/
theorem C5_implicit_deletion_witness :
    (c5exA ∈ (updateWorkoutFromSync c5db 10 500 5 c5w 90).1.workoutExercises ↔
      ¬ (c5exA.updatedAt < 90)) ∧
    (c5set1 ∈ (updateWorkoutFromSync c5db 10 500 5 c5w 90).1.sets ↔
      ¬ (c5set1.updatedAt < newestClientSetTime c5e.sets c5e.updatedAt)) := by
  have h := C5_implicit_deletion c5db 10 500 5 c5w 90 (by unfold ExercisesWF; decide)
    (by unfold SetsWF; decide) (by decide) (by decide)
  refine ⟨(h.1 c5exA (List.mem_cons_self _ _) (by decide) (by decide) (by decide)).1, ?_⟩
  exact h.2 c5e (List.mem_cons_self _ _) c5exB
    (List.mem_cons_of_mem _ (List.mem_cons_self _ _)) (by decide) (by decide) (by decide)
    (by decide) c5set1 (List.mem_cons_self _ _) (by decide) (by decide) (by decide)

/-- C1 (amended): the nested exercise-list reconciliation runs only when the
workout-level resolution is ClientWins (strictly newer client timestamp). On
ServerWins no nested processing happens: the workouts, exercise-instance, sets
and catalog tables are left untouched and exactly one server-wins conflict row
is appended; on ClientWins the merge is exactly `updateWorkoutFromSync` and the
conflict log is untouched. -/
theorem C1_reconciliation_gating (db : Db) (gen now : Nat) (existing : WorkoutRow)
    (w : WorkoutSyncData) (ts : Nat) :
    (¬ (existing.updatedAt < ts) →
      ((handleWorkoutUpdate db gen now existing w ts).1.workouts = db.workouts ∧
       (handleWorkoutUpdate db gen now existing w ts).1.workoutExercises = db.workoutExercises ∧
       (handleWorkoutUpdate db gen now existing w ts).1.sets = db.sets ∧
       (handleWorkoutUpdate db gen now existing w ts).1.exercises = db.exercises ∧
       (handleWorkoutUpdate db gen now existing w ts).1.syncConflictLog =
         db.syncConflictLog ++
           [{ userId := existing.userId, entityType := "workout", entityId := existing.id,
              clientTimestamp := ts, serverTimestamp := existing.updatedAt,
              resolution := "server_wins", resolvedAt := now, resolvedBy := "system" }] ∧
       (handleWorkoutUpdate db gen now existing w ts).2.1 = gen ∧
       (handleWorkoutUpdate db gen now existing w ts).2.2 =
         some { entityType := "workout", entityId := existing.id, resolution := "server_wins" })) ∧
    ((existing.updatedAt < ts) →
      ((handleWorkoutUpdate db gen now existing w ts).1 =
         (updateWorkoutFromSync db gen now existing.id w ts).1 ∧
       (handleWorkoutUpdate db gen now existing w ts).2.1 =
         (updateWorkoutFromSync db gen now existing.id w ts).2 ∧
       (handleWorkoutUpdate db gen now existing w ts).2.2 = none ∧
       (handleWorkoutUpdate db gen now existing w ts).1.syncConflictLog = db.syncConflictLog)) := by
  constructor
  · intro h
    unfold handleWorkoutUpdate
    rw [if_neg h]
    exact ⟨rfl, rfl, rfl, rfl, rfl, rfl, rfl⟩
  · intro h
    unfold handleWorkoutUpdate
    rw [if_pos h]
    refine ⟨rfl, rfl, rfl, ?_⟩
    exact updateWorkoutFromSync_log db gen now existing.id w ts

/-- Witness for C1 (amended): with the stored workout at server timestamp 1000,
a client timestamp of 50 resolves ServerWins and leaves the exercise-instance
table untouched, while a client timestamp of 1500 resolves ClientWins and
reports no conflict. -/
theorem C1_reconciliation_gating_witness :
    (handleWorkoutUpdate { emptyDb with workouts := [storedW] } 10 2000 storedW sampleW
        50).1.workoutExercises =
      ({ emptyDb with workouts := [storedW] } : Db).workoutExercises ∧
    (handleWorkoutUpdate { emptyDb with workouts := [storedW] } 10 2000 storedW sampleW
        1500).2.2 = none := by
  refine ⟨((C1_reconciliation_gating { emptyDb with workouts := [storedW] } 10 2000 storedW
    sampleW 50).1 (by decide)).2.1, ?_⟩
  exact ((C1_reconciliation_gating { emptyDb with workouts := [storedW] } 10 2000 storedW
    sampleW 1500).2 (by decide)).2.2.1

/-- C4 counterexample: in the two-exercise merge scenario (one exercise client-
newer, one client-older) the conflict log stays empty — no exercise-level
conflict is ever logged — and the losing exercise's stored set is not left
untouched: it is deleted by the set-level reconciliation. -/
theorem C4_counterexample :
    (updateWorkoutFromSync c4db 10 2000 9 c4w 300).1.syncConflictLog = [] ∧
    c4sibset ∉ (updateWorkoutFromSync c4db 10 2000 9 c4w 300).1.sets ∧
    c4ex1.updatedAt < c4e1.updatedAt ∧ ¬ (c4ex2.updatedAt < c4e2.updatedAt) := by
  refine ⟨by decide, by decide, by decide, by decide⟩

/-- C4 (amended): the merge reconciliation never writes the conflict log (only
workout-level server-wins outcomes are logged, outside the merge), and in the
two-exercise scenario exactly one exercise row is rewritten — the sibling's row
survives verbatim while the newer one's row is replaced — but the sibling's
sets still undergo set-level reconciliation and its stored set is deleted. -/
theorem C4_exercise_conflict_logging (db : Db) (gen now wid : Nat) (w : WorkoutSyncData)
    (ts : Nat) :
    (updateWorkoutFromSync db gen now wid w ts).1.syncConflictLog = db.syncConflictLog ∧
    ((updateWorkoutFromSync c4db 10 2000 9 c4w 300).1.workoutExercises.length = 2 ∧
      c4ex2 ∈ (updateWorkoutFromSync c4db 10 2000 9 c4w 300).1.workoutExercises ∧
      c4ex1 ∉ (updateWorkoutFromSync c4db 10 2000 9 c4w 300).1.workoutExercises ∧
      c4sibset ∉ (updateWorkoutFromSync c4db 10 2000 9 c4w 300).1.sets) := by
  refine ⟨updateWorkoutFromSync_log db gen now wid w ts, by decide, by decide, by decide,
    by decide⟩

theorem updateDeviceInfo_frame (db : Db) (now : Nat) (uid deviceId : String)
    (info : Option DeviceInfo) :
    (updateDeviceInfo db now uid deviceId info).workouts = db.workouts ∧
    (updateDeviceInfo db now uid deviceId info).workoutExercises = db.workoutExercises ∧
    (updateDeviceInfo db now uid deviceId info).sets = db.sets ∧
    (updateDeviceInfo db now uid deviceId info).exercises = db.exercises ∧
    (updateDeviceInfo db now uid deviceId info).syncConflictLog = db.syncConflictLog := by
  unfold updateDeviceInfo
  split <;> exact ⟨rfl, rfl, rfl, rfl, rfl⟩

theorem updateSyncMetadata_frame (db : Db) (now : Nat) (uid : String) (stat deviceId : String)
    (err : Option String) :
    (updateSyncMetadata db now uid stat deviceId err).workouts = db.workouts ∧
    (updateSyncMetadata db now uid stat deviceId err).workoutExercises = db.workoutExercises ∧
    (updateSyncMetadata db now uid stat deviceId err).sets = db.sets ∧
    (updateSyncMetadata db now uid stat deviceId err).exercises = db.exercises ∧
    (updateSyncMetadata db now uid stat deviceId err).syncConflictLog = db.syncConflictLog := by
  unfold updateSyncMetadata
  dsimp only
  split <;> exact ⟨rfl, rfl, rfl, rfl, rfl⟩

theorem getExistingWorkoutsMap_congr {db db' : Db} (h : db'.workouts = db.workouts)
    (uid : String) (cids : List String) :
    getExistingWorkoutsMap db' uid cids = getExistingWorkoutsMap db uid cids := by
  unfold getExistingWorkoutsMap
  rw [h]

/-- When every submitted workout matches a stored row whose server timestamp is
not older than its client timestamp, the whole per-workout loop takes the
server-wins path for every workout: the data tables are untouched (only the
conflict log grows, one row per workout), nothing is uploaded, and every
workout is counted as a conflict. -/
theorem processWorkoutsLoop_serverwins (now : Nat) (uid : String)
    (wmap : List (String × WorkoutRow)) :
    ∀ (ws : List WorkoutSyncData) (db : Db) (gen : Nat) (conflicts : List ConflictData)
        (uploaded nconf : Nat),
      (∀ w ∈ ws, ∃ r, jsMapGet wmap w.clientId = some r ∧ ¬ (r.updatedAt < w.updatedAt)) →
      ∃ db' conf',
        processWorkoutsLoop noFail now uid wmap db gen conflicts uploaded nconf ws =
          .ok (db', gen, conf', uploaded, nconf + ws.length) ∧
        db'.workouts = db.workouts ∧
        db'.workoutExercises = db.workoutExercises ∧
        db'.sets = db.sets ∧
        db'.exercises = db.exercises ∧
        db'.syncMetadata = db.syncMetadata ∧
        db'.userDevices = db.userDevices ∧
        db'.syncConflictLog.length = db.syncConflictLog.length + ws.length := by
  intro ws
  induction ws with
  | nil =>
      intro db gen conflicts uploaded nconf _
      exact ⟨db, conflicts, rfl, rfl, rfl, rfl, rfl, rfl, rfl, rfl⟩
  | cons w rest ih =>
      intro db gen conflicts uploaded nconf hm
      obtain ⟨r, hget, hts⟩ := hm w (List.mem_cons_self w rest)
      obtain ⟨db', conf', heq, hf1, hf2, hf3, hf4, hf5, hf6, hf7⟩ :=
        ih (logSyncConflict db now r.userId "workout" r.id w.updatedAt r.updatedAt "server_wins")
          gen (conflicts ++ [{ entityType := "workout", entityId := r.id, resolution := "server_wins" }])
          uploaded (nconf + 1) (fun w' hw' => hm w' (List.mem_cons_of_mem _ hw'))
      refine ⟨db', conf', ?_, hf1, hf2, hf3, hf4, hf5, hf6, ?_⟩
      · simp only [processWorkoutsLoop]
        dsimp only [noFail]
        rw [hget]
        simp only [processWorkoutSyncWithExisting, handleWorkoutUpdate]
        rw [if_neg hts]
        dsimp only
        rw [show nconf + (w :: rest).length = nconf + 1 + rest.length from by
          simp only [List.length_cons]; omega]
        exact heq
      · have hlog : (logSyncConflict db now r.userId "workout" r.id w.updatedAt r.updatedAt
            "server_wins").syncConflictLog.length = db.syncConflictLog.length + 1 := by
          simp [logSyncConflict]
        simp only [List.length_cons]
        omega

/-- C2 counterexample: replaying the very same payload a second time, with the
first response's `lastServerSync` as the new `lastSyncTimestamp`, appends a
fresh server-wins row to the conflict log — the replay is not row-free. -/
theorem C2_counterexample :
    lastServerSyncOf (syncUserData noFail emptyDb 10 "u1" samplePayload 1000).1 = some 1000 ∧
    (syncUserData noFail
        (syncUserData noFail emptyDb 10 "u1" samplePayload 1000).2.1
        (syncUserData noFail emptyDb 10 "u1" samplePayload 1000).2.2 "u1"
        { samplePayload with lastSyncTimestamp := some 1000 }
        2000).2.1.syncConflictLog.length =
      (syncUserData noFail emptyDb 10 "u1" samplePayload 1000).2.1.syncConflictLog.length + 1 := by
  exact ⟨by decide, by decide⟩

/-- C2 (amended): when every submitted workout already matches a stored row that
is at least as new (the state an identical replay finds), the sync leaves the
workouts, exercise-instance, sets and catalog tables unchanged and uploads
nothing — but it is not row-free: each replayed workout resolves server-wins
and appends one conflict row, and the id counter is unchanged. -/
theorem C2_replay_appends_conflicts (db0 : Db) (gen0 : Nat) (uid : String)
    (payload : SyncPayload) (now : Nat)
    (hmatch : ∀ w ∈ payload.workouts, ∃ r,
      jsMapGet (getExistingWorkoutsMap db0 uid (payload.workouts.map (·.clientId)))
        w.clientId = some r ∧ ¬ (r.updatedAt < w.updatedAt)) :
    ∃ resp, (syncUserData noFail db0 gen0 uid payload now).1 = .ok resp ∧
      resp.stats.uploaded = 0 ∧
      resp.stats.conflicts = payload.workouts.length ∧
      (syncUserData noFail db0 gen0 uid payload now).2.1.workouts = db0.workouts ∧
      (syncUserData noFail db0 gen0 uid payload now).2.1.workoutExercises =
        db0.workoutExercises ∧
      (syncUserData noFail db0 gen0 uid payload now).2.1.sets = db0.sets ∧
      (syncUserData noFail db0 gen0 uid payload now).2.1.exercises = db0.exercises ∧
      (syncUserData noFail db0 gen0 uid payload now).2.1.syncConflictLog.length =
        db0.syncConflictLog.length + payload.workouts.length ∧
      (syncUserData noFail db0 gen0 uid payload now).2.2 = gen0 := by
  have hd1 := updateDeviceInfo_frame db0 now uid payload.deviceId payload.deviceInfo
  have hd2 := updateSyncMetadata_frame
    (updateDeviceInfo db0 now uid payload.deviceId payload.deviceInfo) now uid "syncing"
    payload.deviceId none
  have hW2 : (updateSyncMetadata (updateDeviceInfo db0 now uid payload.deviceId payload.deviceInfo) now uid "syncing" payload.deviceId none).workouts = db0.workouts := hd2.1.trans hd1.1
  have hmap := getExistingWorkoutsMap_congr hW2 uid (payload.workouts.map (·.clientId))
  obtain ⟨db', conf', hloop, h1, h2, h3, h4, h5, h6, h7⟩ :=
    processWorkoutsLoop_serverwins now uid
      (getExistingWorkoutsMap (updateSyncMetadata (updateDeviceInfo db0 now uid payload.deviceId payload.deviceInfo) now uid "syncing" payload.deviceId none) uid (payload.workouts.map (·.clientId)))
      payload.workouts (updateSyncMetadata (updateDeviceInfo db0 now uid payload.deviceId payload.deviceInfo) now uid "syncing" payload.deviceId none) gen0 [] 0 0
      (by rw [hmap]; exact hmatch)
  have hrun : syncUserData noFail db0 gen0 uid payload now =
      (.ok ({ success := true, syncedAt := now, conflicts := conf', serverData := ({ workouts := getServerWorkoutsSince db' uid (payload.lastSyncTimestamp.getD 0), lastServerSync := now } : ServerData), stats := ({ uploaded := 0, downloaded := (getServerWorkoutsSince db' uid (payload.lastSyncTimestamp.getD 0)).length, conflicts := 0 + payload.workouts.length } : SyncStats) } : SyncResponse),
       updateSyncMetadata db' now uid "completed" payload.deviceId none, gen0) := by
    show finishSync noFail uid payload now
      (processWorkoutsLoop noFail now uid
        (getExistingWorkoutsMap (updateSyncMetadata (updateDeviceInfo db0 now uid payload.deviceId payload.deviceInfo) now uid "syncing" payload.deviceId none) uid (payload.workouts.map (·.clientId)))
        (updateSyncMetadata (updateDeviceInfo db0 now uid payload.deviceId payload.deviceInfo) now uid "syncing" payload.deviceId none) gen0 [] 0 0 payload.workouts) = _
    rw [hloop]
    rfl
  have hmc := updateSyncMetadata_frame db' now uid "completed" payload.deviceId none
  refine ⟨({ success := true, syncedAt := now, conflicts := conf', serverData := ({ workouts := getServerWorkoutsSince db' uid (payload.lastSyncTimestamp.getD 0), lastServerSync := now } : ServerData), stats := ({ uploaded := 0, downloaded := (getServerWorkoutsSince db' uid (payload.lastSyncTimestamp.getD 0)).length, conflicts := 0 + payload.workouts.length } : SyncStats) } : SyncResponse), ?_, ?_, ?_, ?_, ?_, ?_, ?_, ?_, ?_⟩
  · rw [hrun]
  · exact rfl
  · exact Nat.zero_add _
  · rw [hrun]
    exact hmc.1.trans (h1.trans hW2)
  · rw [hrun]
    exact hmc.2.1.trans (h2.trans (hd2.2.1.trans hd1.2.1))
  · rw [hrun]
    exact hmc.2.2.1.trans (h3.trans (hd2.2.2.1.trans hd1.2.2.1))
  · rw [hrun]
    exact hmc.2.2.2.1.trans (h4.trans (hd2.2.2.2.1.trans hd1.2.2.2.1))
  · rw [hrun]
    have hlogc : (updateSyncMetadata db' now uid "completed"
        payload.deviceId none).syncConflictLog = db'.syncConflictLog := hmc.2.2.2.2
    have hlog2 : (updateSyncMetadata (updateDeviceInfo db0 now uid payload.deviceId payload.deviceInfo) now uid "syncing" payload.deviceId none).syncConflictLog = db0.syncConflictLog :=
      hd2.2.2.2.2.trans hd1.2.2.2.2
    rw [hlogc, h7, hlog2]
  · rw [hrun]

/-- Witness for C2 (amended): with the stored workout already at server
timestamp 1000, replaying the client workout (timestamp 100) appends exactly
one conflict row. -/
theorem C2_replay_appends_conflicts_witness :
    (syncUserData noFail { emptyDb with workouts := [storedW] } 10 "u1" samplePayload
        2000).2.1.syncConflictLog.length =
      ({ emptyDb with workouts := [storedW] } : Db).syncConflictLog.length +
        samplePayload.workouts.length := by
  obtain ⟨resp, q1, q2, q3, q4, q5, q6, q7, q8, q9⟩ :=
    C2_replay_appends_conflicts { emptyDb with workouts := [storedW] } 10 "u1" samplePayload
      2000 (by
        intro w hw
        have hws : w = sampleW := by simpa [samplePayload] using hw
        subst hws
        exact ⟨storedW, by decide, by decide⟩)
  exact q8

/-! ### C9: change-feed fold machinery -/

theorem jsMapSet_append_of_notin [BEq α] [LawfulBEq α] {m : List (α × β)} {k : α}
    (hk : ∀ p ∈ m, ¬ p.1 = k) (v : β) : jsMapSet m k v = m ++ [(k, v)] := by
  unfold jsMapSet
  rw [if_neg]
  intro hany
  rcases List.any_eq_true.mp hany with ⟨p, hp, hbeq⟩
  exact hk p hp (by simpa using hbeq)

theorem jsMapGet_none_of_notin [BEq α] [LawfulBEq α] {m : List (α × β)} {k : α}
    (hk : ∀ p ∈ m, ¬ p.1 = k) : jsMapGet m k = none := by
  unfold jsMapGet
  rw [List.find?_eq_none.mpr]
  · rfl
  · intro p hp hbeq
    exact hk p hp (by simpa using hbeq)

theorem jsMapGet_append_self [BEq α] [LawfulBEq α] {m : List (α × β)} {k : α}
    (hk : ∀ p ∈ m, ¬ p.1 = k) (v : β) : jsMapGet (m ++ [(k, v)]) k = some v := by
  induction m with
  | nil => simp [jsMapGet]
  | cons p rest ih =>
      have hne : (p.1 == k) = false := by
        simpa using hk p (List.mem_cons_self p rest)
      have ih2 := ih (fun q hq => hk q (List.mem_cons_of_mem p hq))
      unfold jsMapGet at ih2 ⊢
      rw [List.cons_append, List.find?_cons, hne]
      exact ih2

theorem jsMapSet_append_self [BEq α] [LawfulBEq α] {m : List (α × β)} {k : α}
    (hk : ∀ p ∈ m, ¬ p.1 = k) (v v' : β) :
    jsMapSet (m ++ [(k, v)]) k v' = m ++ [(k, v')] := by
  unfold jsMapSet
  rw [if_pos]
  · rw [List.map_append]
    congr 1
    · refine (List.map_congr_left ?_).trans (List.map_id _)
      intro p hp
      show (if (p.1 == k) = true then (k, v') else p) = id p
      rw [if_neg]
      · rfl
      · simpa using hk p hp
    · simp
  · refine List.any_eq_true.mpr ⟨(k, v), List.mem_append_right _ (List.mem_singleton.mpr rfl), ?_⟩
    simp

theorem jsMapGet_map_pair (key : β → Nat) (val : β → γ) :
    ∀ (l : List β), (l.map key).Nodup → ∀ u ∈ l,
      jsMapGet (l.map (fun x => (key x, val x))) (key u) = some (val u) := by
  intro l
  induction l with
  | nil => intro _ u hu; exact absurd hu (List.not_mem_nil u)
  | cons x rest ih =>
      intro hnd u hu
      have hnd2 : (rest.map key).Nodup := by
        rw [List.map_cons, List.nodup_cons] at hnd
        exact hnd.2
      by_cases hk : key x = key u
      · have hxu : x = u := List.inj_on_of_nodup_map hnd (List.mem_cons_self x rest) hu hk
        subst hxu
        simp [jsMapGet, List.find?_cons]
      · have hbne : (key x == key u) = false := by simpa using hk
        have hurest : u ∈ rest := by
          rcases List.mem_cons.mp hu with rfl | h
          · exact absurd rfl hk
          · exact h
        have ih2 := ih hnd2 u hurest
        unfold jsMapGet at ih2 ⊢
        rw [List.map_cons, List.find?_cons]
        simp only [hbne]
        exact ih2

theorem pushSetIntoExercise_append {I : List (Nat × ExerciseSyncData)} {eid : Nat}
    (hk : ∀ p ∈ I, ¬ p.1 = eid) (v : ExerciseSyncData) (s : SetSyncData) :
    pushSetIntoExercise s eid (I ++ [(eid, v)]) =
      I ++ [(eid, { v with sets := v.sets ++ [s] })] := by
  unfold pushSetIntoExercise
  rw [List.map_append]
  congr 1
  · refine (List.map_congr_left ?_).trans (List.map_id _)
    intro p hp
    show (if (p.1 == eid) = true then (p.1, { p.2 with sets := p.2.sets ++ [s] }) else p) = id p
    rw [if_neg]
    · rfl
    · simpa using hk p hp
  · simp

theorem transformStep_null_row {accW : List (Nat × WorkoutSyncData)}
    {accE : List (Nat × List (Nat × ExerciseSyncData))} {w : WorkoutRow}
    (hW : ∀ p ∈ accW, ¬ p.1 = w.id) (hE : ∀ p ∈ accE, ¬ p.1 = w.id) :
    transformStep (accW, accE) { w := w, e := none, s := none } =
      (accW ++ [(w.id, baseWorkoutData w)], accE ++ [(w.id, [])]) := by
  unfold transformStep
  dsimp only
  rw [jsMapGet_none_of_notin hW]
  dsimp only [Option.isSome]
  rw [if_neg (by simp)]
  rw [jsMapSet_append_of_notin hW, jsMapSet_append_of_notin hE]

theorem transformStep_insert_workout {accW : List (Nat × WorkoutSyncData)}
    {accE : List (Nat × List (Nat × ExerciseSyncData))} (row : JoinRow)
    (hW : ∀ p ∈ accW, ¬ p.1 = row.w.id) (hE : ∀ p ∈ accE, ¬ p.1 = row.w.id) :
    transformStep (accW, accE) row =
      transformStep (accW ++ [(row.w.id, baseWorkoutData row.w)],
        accE ++ [(row.w.id, [])]) row := by
  unfold transformStep
  dsimp only
  rw [jsMapGet_none_of_notin hW, jsMapGet_append_self hW]
  dsimp only [Option.isSome]
  rw [if_neg (by simp), if_pos rfl]
  rw [jsMapSet_append_of_notin hW, jsMapSet_append_of_notin hE]

theorem transformStep_exercise_row {accW : List (Nat × WorkoutSyncData)}
    {accE0 : List (Nat × List (Nat × ExerciseSyncData))} {w : WorkoutRow}
    (hWin : (jsMapGet accW w.id).isSome = true)
    {I : List (Nat × ExerciseSyncData)} {e : ExerciseRow}
    (hE : ∀ p ∈ accE0, ¬ p.1 = w.id) (hI : ∀ p ∈ I, ¬ p.1 = e.id) :
    transformStep (accW, accE0 ++ [(w.id, I)]) { w := w, e := some e, s := none } =
      (accW, accE0 ++ [(w.id, I ++ [(e.id, baseExerciseData e)])]) := by
  unfold transformStep
  dsimp only
  rw [if_pos hWin]
  rw [jsMapGet_append_self hE]
  dsimp only [Option.getD]
  rw [jsMapGet_none_of_notin hI]
  dsimp only [Option.isSome]
  rw [if_neg (by simp)]
  rw [jsMapSet_append_of_notin hI, jsMapSet_append_self hE]

theorem transformStep_first_set_row {accW : List (Nat × WorkoutSyncData)}
    {accE0 : List (Nat × List (Nat × ExerciseSyncData))} {w : WorkoutRow}
    (hWin : (jsMapGet accW w.id).isSome = true)
    {I : List (Nat × ExerciseSyncData)} {e : ExerciseRow}
    (hE : ∀ p ∈ accE0, ¬ p.1 = w.id) (hI : ∀ p ∈ I, ¬ p.1 = e.id) (s : SetRow) :
    transformStep (accW, accE0 ++ [(w.id, I)]) { w := w, e := some e, s := some s } =
      (accW, accE0 ++ [(w.id, I ++ [(e.id,
        { baseExerciseData e with sets := [renderSetData e s] })])]) := by
  unfold transformStep
  dsimp only
  rw [if_pos hWin]
  rw [jsMapGet_append_self hE]
  dsimp only [Option.getD]
  rw [jsMapGet_none_of_notin hI]
  dsimp only [Option.isSome]
  rw [if_neg (by simp)]
  rw [jsMapSet_append_of_notin hI]
  rw [pushSetIntoExercise_append hI]
  rw [jsMapSet_append_self hE]
  rfl

theorem transformStep_set_row {accW : List (Nat × WorkoutSyncData)}
    {accE0 : List (Nat × List (Nat × ExerciseSyncData))} {w : WorkoutRow}
    (hWin : (jsMapGet accW w.id).isSome = true)
    {I : List (Nat × ExerciseSyncData)} {e : ExerciseRow}
    (hE : ∀ p ∈ accE0, ¬ p.1 = w.id) (hI : ∀ p ∈ I, ¬ p.1 = e.id)
    (v : ExerciseSyncData) (s : SetRow) :
    transformStep (accW, accE0 ++ [(w.id, I ++ [(e.id, v)])])
        { w := w, e := some e, s := some s } =
      (accW, accE0 ++ [(w.id, I ++ [(e.id,
        { v with sets := v.sets ++ [renderSetData e s] })])]) := by
  unfold transformStep
  dsimp only
  rw [if_pos hWin]
  rw [jsMapGet_append_self hE]
  dsimp only [Option.getD]
  rw [jsMapGet_append_self hI]
  dsimp only [Option.isSome]
  rw [if_pos rfl]
  rw [pushSetIntoExercise_append hI]
  rw [jsMapSet_append_self hE]

theorem foldl_transformStep_sets (w : WorkoutRow) (e : ExerciseRow)
    (accW : List (Nat × WorkoutSyncData)) (hWin : (jsMapGet accW w.id).isSome = true)
    (accE0 : List (Nat × List (Nat × ExerciseSyncData))) (hE : ∀ p ∈ accE0, ¬ p.1 = w.id)
    (I : List (Nat × ExerciseSyncData)) (hI : ∀ p ∈ I, ¬ p.1 = e.id) :
    ∀ (ss : List SetRow) (v : ExerciseSyncData),
      List.foldl transformStep (accW, accE0 ++ [(w.id, I ++ [(e.id, v)])])
          (ss.map (fun s => ({ w := w, e := some e, s := some s } : JoinRow))) =
        (accW, accE0 ++ [(w.id, I ++ [(e.id,
          { v with sets := v.sets ++ ss.map (renderSetData e) })])]) := by
  intro ss
  induction ss with
  | nil => intro v; simp
  | cons s rest ih =>
      intro v
      rw [List.map_cons, List.foldl_cons, transformStep_set_row hWin hE hI v s]
      rw [ih { v with sets := v.sets ++ [renderSetData e s] }]
      simp [List.append_assoc]

theorem foldl_transformStep_exercise (db : Db) (w : WorkoutRow) (e : ExerciseRow)
    (accW : List (Nat × WorkoutSyncData)) (hWin : (jsMapGet accW w.id).isSome = true)
    (accE0 : List (Nat × List (Nat × ExerciseSyncData))) (hE : ∀ p ∈ accE0, ¬ p.1 = w.id)
    (I : List (Nat × ExerciseSyncData)) (hI : ∀ p ∈ I, ¬ p.1 = e.id) :
    List.foldl transformStep (accW, accE0 ++ [(w.id, I)])
        (if (db.sets.filter (fun s => s.workoutExerciseId == e.id)).isEmpty then
          [({ w := w, e := some e, s := none } : JoinRow)]
         else (db.sets.filter (fun s => s.workoutExerciseId == e.id)).map
           (fun s => ({ w := w, e := some e, s := some s } : JoinRow))) =
      (accW, accE0 ++ [(w.id, I ++ [(e.id, renderExercise db e)])]) := by
  by_cases hemp : (db.sets.filter (fun s => s.workoutExerciseId == e.id)).isEmpty = true
  · rw [if_pos hemp]
    have hnil : db.sets.filter (fun s => s.workoutExerciseId == e.id) = [] :=
      List.isEmpty_iff.mp hemp
    simp only [List.foldl_cons, List.foldl_nil]
    rw [transformStep_exercise_row hWin hE hI]
    have hre : renderExercise db e = baseExerciseData e := by
      unfold renderExercise
      rw [hnil]
      rfl
    rw [hre]
  · rw [if_neg hemp]
    cases hss : db.sets.filter (fun s => s.workoutExerciseId == e.id) with
    | nil => rw [hss] at hemp; exact absurd rfl hemp
    | cons s1 ss' =>
        simp only [List.map_cons, List.foldl_cons]
        rw [transformStep_first_set_row hWin hE hI s1]
        rw [foldl_transformStep_sets w e accW hWin accE0 hE I hI ss'
          { baseExerciseData e with sets := [renderSetData e s1] }]
        have hre : renderExercise db e =
            { baseExerciseData e with
                sets := renderSetData e s1 :: ss'.map (renderSetData e) } := by
          unfold renderExercise
          rw [hss, List.map_cons]
        rw [hre]
        rfl

theorem foldl_transformStep_first_exercise (db : Db) (w : WorkoutRow) (e : ExerciseRow)
    (accW : List (Nat × WorkoutSyncData)) (hW : ∀ p ∈ accW, ¬ p.1 = w.id)
    (accE : List (Nat × List (Nat × ExerciseSyncData))) (hE : ∀ p ∈ accE, ¬ p.1 = w.id) :
    List.foldl transformStep (accW, accE)
        (if (db.sets.filter (fun s => s.workoutExerciseId == e.id)).isEmpty then
          [({ w := w, e := some e, s := none } : JoinRow)]
         else (db.sets.filter (fun s => s.workoutExerciseId == e.id)).map
           (fun s => ({ w := w, e := some e, s := some s } : JoinRow))) =
      (accW ++ [(w.id, baseWorkoutData w)],
       accE ++ [(w.id, [(e.id, renderExercise db e)])]) := by
  have hWin : (jsMapGet (accW ++ [(w.id, baseWorkoutData w)]) w.id).isSome = true := by
    rw [jsMapGet_append_self hW]
    rfl
  by_cases hemp : (db.sets.filter (fun s => s.workoutExerciseId == e.id)).isEmpty = true
  · rw [if_pos hemp]
    have hnil : db.sets.filter (fun s => s.workoutExerciseId == e.id) = [] :=
      List.isEmpty_iff.mp hemp
    simp only [List.foldl_cons, List.foldl_nil]
    rw [transformStep_insert_workout _ hW hE]
    rw [show transformStep (accW ++ [(w.id, baseWorkoutData w)], accE ++ [(w.id, [])])
          ({ w := w, e := some e, s := none } : JoinRow) =
        (accW ++ [(w.id, baseWorkoutData w)],
         accE ++ [(w.id, [] ++ [(e.id, baseExerciseData e)])]) from
      transformStep_exercise_row hWin hE (by intro p hp; exact absurd hp (List.not_mem_nil p))]
    have hre : renderExercise db e = baseExerciseData e := by
      unfold renderExercise
      rw [hnil]
      rfl
    rw [hre]
    rfl
  · rw [if_neg hemp]
    cases hss : db.sets.filter (fun s => s.workoutExerciseId == e.id) with
    | nil => rw [hss] at hemp; exact absurd rfl hemp
    | cons s1 ss' =>
        simp only [List.map_cons, List.foldl_cons]
        rw [transformStep_insert_workout _ hW hE]
        rw [show transformStep (accW ++ [(w.id, baseWorkoutData w)], accE ++ [(w.id, [])])
              ({ w := w, e := some e, s := some s1 } : JoinRow) =
            (accW ++ [(w.id, baseWorkoutData w)],
             accE ++ [(w.id, [] ++ [(e.id,
               { baseExerciseData e with sets := [renderSetData e s1] })])]) from
          transformStep_first_set_row hWin hE
            (by intro p hp; exact absurd hp (List.not_mem_nil p)) s1]
        rw [show ([] : List (Nat × ExerciseSyncData)) ++
            [(e.id, { baseExerciseData e with sets := [renderSetData e s1] })] =
          [(e.id, { baseExerciseData e with sets := [renderSetData e s1] })] from rfl]
        rw [show ([(e.id, { baseExerciseData e with sets := [renderSetData e s1] })] :
              List (Nat × ExerciseSyncData)) =
            [] ++ [(e.id, { baseExerciseData e with sets := [renderSetData e s1] })] from rfl]
        rw [foldl_transformStep_sets w e _ hWin accE hE []
          (by intro p hp; exact absurd hp (List.not_mem_nil p)) ss'
          { baseExerciseData e with sets := [renderSetData e s1] }]
        have hre : renderExercise db e =
            { baseExerciseData e with
                sets := renderSetData e s1 :: ss'.map (renderSetData e) } := by
          unfold renderExercise
          rw [hss, List.map_cons]
        rw [hre]
        rfl

theorem foldl_transformStep_exercises (db : Db) (w : WorkoutRow)
    (accW : List (Nat × WorkoutSyncData)) (hWin : (jsMapGet accW w.id).isSome = true)
    (accE0 : List (Nat × List (Nat × ExerciseSyncData))) (hE : ∀ p ∈ accE0, ¬ p.1 = w.id) :
    ∀ (exl : List ExerciseRow) (I : List (Nat × ExerciseSyncData)),
      (exl.map (·.id)).Nodup →
      (∀ e ∈ exl, ∀ p ∈ I, ¬ p.1 = e.id) →
      List.foldl transformStep (accW, accE0 ++ [(w.id, I)])
          (exl.flatMap (fun e =>
            if (db.sets.filter (fun s => s.workoutExerciseId == e.id)).isEmpty then
              [({ w := w, e := some e, s := none } : JoinRow)]
            else (db.sets.filter (fun s => s.workoutExerciseId == e.id)).map
              (fun s => ({ w := w, e := some e, s := some s } : JoinRow)))) =
        (accW, accE0 ++ [(w.id, I ++ exl.map (fun e => (e.id, renderExercise db e)))]) := by
  intro exl
  induction exl with
  | nil => intro I _ _; simp
  | cons e rest ih =>
      intro I hnd hdisj
      rw [List.flatMap_cons, List.foldl_append]
      rw [foldl_transformStep_exercise db w e accW hWin accE0 hE I
        (fun p hp => hdisj e (List.mem_cons_self e rest) p hp)]
      have hnd2 : (rest.map (·.id)).Nodup := by
        rw [List.map_cons, List.nodup_cons] at hnd
        exact hnd.2
      have hhead : e.id ∉ rest.map (·.id) := by
        rw [List.map_cons, List.nodup_cons] at hnd
        exact hnd.1
      rw [ih (I ++ [(e.id, renderExercise db e)]) hnd2 ?hdisj2]
      case hdisj2 =>
        intro e' he' p hp
        rcases List.mem_append.mp hp with hp | hp
        · exact hdisj e' (List.mem_cons_of_mem e he') p hp
        · simp only [List.mem_singleton] at hp
          subst hp
          intro hcontra
          have hc2 : e.id = e'.id := hcontra
          exact hhead (by rw [hc2]; exact List.mem_map.mpr ⟨e', he', rfl⟩)
      simp [List.append_assoc]

theorem foldl_transformStep_workout (db : Db) (w : WorkoutRow)
    (accW : List (Nat × WorkoutSyncData)) (accE : List (Nat × List (Nat × ExerciseSyncData)))
    (hW : ∀ p ∈ accW, ¬ p.1 = w.id) (hE : ∀ p ∈ accE, ¬ p.1 = w.id)
    (hexnd : ((db.workoutExercises.filter (fun e => e.workoutId == w.id)).map (·.id)).Nodup) :
    List.foldl transformStep (accW, accE) (joinRowsFor db w) =
      (accW ++ [(w.id, baseWorkoutData w)],
       accE ++ [(w.id, (db.workoutExercises.filter (fun e => e.workoutId == w.id)).map
         (fun e => (e.id, renderExercise db e)))]) := by
  unfold joinRowsFor
  dsimp only
  by_cases hemp : (db.workoutExercises.filter (fun e => e.workoutId == w.id)).isEmpty = true
  · rw [if_pos hemp]
    have hnil : db.workoutExercises.filter (fun e => e.workoutId == w.id) = [] :=
      List.isEmpty_iff.mp hemp
    simp only [List.foldl_cons, List.foldl_nil]
    rw [transformStep_null_row hW hE, hnil]
    rfl
  · rw [if_neg hemp]
    cases hexs : db.workoutExercises.filter (fun e => e.workoutId == w.id) with
    | nil => rw [hexs] at hemp; exact absurd rfl hemp
    | cons e rest =>
        rw [List.flatMap_cons, List.foldl_append]
        rw [foldl_transformStep_first_exercise db w e accW hW accE hE]
        have hWin : (jsMapGet (accW ++ [(w.id, baseWorkoutData w)]) w.id).isSome = true := by
          rw [jsMapGet_append_self hW]
          rfl
        rw [hexs] at hexnd
        have hnd2 : (rest.map (·.id)).Nodup := by
          rw [List.map_cons, List.nodup_cons] at hexnd
          exact hexnd.2
        have hhead : e.id ∉ rest.map (·.id) := by
          rw [List.map_cons, List.nodup_cons] at hexnd
          exact hexnd.1
        rw [show ([(e.id, renderExercise db e)] : List (Nat × ExerciseSyncData)) =
          [] ++ [(e.id, renderExercise db e)] from rfl]
        rw [foldl_transformStep_exercises db w _ hWin accE hE rest
          ([] ++ [(e.id, renderExercise db e)]) hnd2 ?hdisj]
        case hdisj =>
          intro e' he' p hp
          simp only [List.nil_append, List.mem_singleton] at hp
          subst hp
          intro hcontra
          have hc2 : e.id = e'.id := hcontra
          exact hhead (by rw [hc2]; exact List.mem_map.mpr ⟨e', he', rfl⟩)
        rfl

theorem foldl_transformStep_workouts (db : Db)
    (hexid : (db.workoutExercises.map (·.id)).Nodup) :
    ∀ (ws : List WorkoutRow) (accW : List (Nat × WorkoutSyncData))
        (accE : List (Nat × List (Nat × ExerciseSyncData))),
      (ws.map (·.id)).Nodup →
      (∀ u ∈ ws, ∀ p ∈ accW, ¬ p.1 = u.id) →
      (∀ u ∈ ws, ∀ p ∈ accE, ¬ p.1 = u.id) →
      List.foldl transformStep (accW, accE) (ws.flatMap (joinRowsFor db)) =
        (accW ++ ws.map (fun u => (u.id, baseWorkoutData u)),
         accE ++ ws.map (fun u => (u.id,
           (db.workoutExercises.filter (fun e => e.workoutId == u.id)).map
             (fun e => (e.id, renderExercise db e))))) := by
  intro ws
  induction ws with
  | nil => intro accW accE _ _ _; simp
  | cons w rest ih =>
      intro accW accE hnd hdW hdE
      rw [List.flatMap_cons, List.foldl_append]
      rw [foldl_transformStep_workout db w accW accE
        (fun p hp => hdW w (List.mem_cons_self w rest) p hp)
        (fun p hp => hdE w (List.mem_cons_self w rest) p hp)
        (((List.filter_sublist _).map _).nodup hexid)]
      have hnd2 : (rest.map (·.id)).Nodup := by
        rw [List.map_cons, List.nodup_cons] at hnd
        exact hnd.2
      have hhead : w.id ∉ rest.map (·.id) := by
        rw [List.map_cons, List.nodup_cons] at hnd
        exact hnd.1
      rw [ih _ _ hnd2 ?hdW2 ?hdE2]
      case hdW2 =>
        intro u hu p hp
        rcases List.mem_append.mp hp with hp | hp
        · exact hdW u (List.mem_cons_of_mem w hu) p hp
        · simp only [List.mem_singleton] at hp
          subst hp
          intro hcontra
          have hc2 : w.id = u.id := hcontra
          exact hhead (by rw [hc2]; exact List.mem_map.mpr ⟨u, hu, rfl⟩)
      case hdE2 =>
        intro u hu p hp
        rcases List.mem_append.mp hp with hp | hp
        · exact hdE u (List.mem_cons_of_mem w hu) p hp
        · simp only [List.mem_singleton] at hp
          subst hp
          intro hcontra
          have hc2 : w.id = u.id := hcontra
          exact hhead (by rw [hc2]; exact List.mem_map.mpr ⟨u, hu, rfl⟩)
      simp [List.append_assoc]

/-- The change-feed fold inverts the left joins: over any workout list with
distinct server ids (and distinct exercise-instance ids), folding the flat
joined rows yields exactly the per-workout rendered trees, in order. -/
theorem transformServerData_renders (db : Db)
    (hexid : (db.workoutExercises.map (·.id)).Nodup) (ws : List WorkoutRow)
    (hnd : (ws.map (·.id)).Nodup) :
    transformServerDataToClientFormat (ws.flatMap (joinRowsFor db)) =
      ws.map (renderWorkout db) := by
  unfold transformServerDataToClientFormat
  dsimp only
  rw [foldl_transformStep_workouts db hexid ws [] [] hnd
    (fun u _ p hp => absurd hp (List.not_mem_nil p))
    (fun u _ p hp => absurd hp (List.not_mem_nil p))]
  simp only [List.nil_append]
  rw [List.map_map]
  refine List.map_congr_left ?_
  intro u hu
  have hget := jsMapGet_map_pair (·.id)
    (fun x => (db.workoutExercises.filter (fun e => e.workoutId == x.id)).map
      (fun e => (e.id, renderExercise db e))) ws hnd u hu
  simp only [Function.comp]
  rw [hget]
  dsimp only [Option.getD]
  rw [List.map_map]
  rfl

/-- C9: the change feed returns exactly the user's workouts with server-side
last-modified timestamp strictly greater than `since`, ordered by workout date,
and the fold of the flat joined rows produces exactly one rendered entry per
distinct workout and per distinct exercise instance, each set appearing once. -/
theorem C9_change_feed (db : Db) (uid : String) (since : Nat)
    (hwid : (db.workouts.map (·.id)).Nodup)
    (hexid : (db.workoutExercises.map (·.id)).Nodup) :
    getServerWorkoutsSince db uid since =
      (List.insertionSort (fun a b => a.date ≤ b.date)
        (db.workouts.filter (fun w => w.userId == uid && since < w.updatedAt))).map
        (renderWorkout db) ∧
    List.Pairwise (fun a b : WorkoutSyncData => a.date ≤ b.date)
      (getServerWorkoutsSince db uid since) ∧
    (getServerWorkoutsSince db uid since).Perm
      ((db.workouts.filter (fun w => w.userId == uid && since < w.updatedAt)).map
        (renderWorkout db)) ∧
    (∀ (payload : SyncPayload) (now : Nat) (r : Db × Nat × List ConflictData × Nat × Nat),
      ∃ resp, (finishSync noFail uid payload now (.ok r)).1 = .ok resp ∧
        resp.serverData.workouts =
          getServerWorkoutsSince r.1 uid (payload.lastSyncTimestamp.getD 0) ∧
        (payload.lastSyncTimestamp = none →
          resp.serverData.workouts = getServerWorkoutsSince r.1 uid 0)) := by
  have hperm : (List.insertionSort (fun a b => a.date ≤ b.date)
      (db.workouts.filter (fun w => w.userId == uid && since < w.updatedAt))).Perm
      (db.workouts.filter (fun w => w.userId == uid && since < w.updatedAt)) :=
    List.perm_insertionSort _ _
  have hfilnd : ((db.workouts.filter
      (fun w => w.userId == uid && since < w.updatedAt)).map (·.id)).Nodup :=
    ((List.filter_sublist _).map _).nodup hwid
  have hsortnd : ((List.insertionSort (fun a b => a.date ≤ b.date)
      (db.workouts.filter (fun w => w.userId == uid && since < w.updatedAt))).map
        (·.id)).Nodup :=
    ((hperm.map _).nodup_iff).mpr hfilnd
  have h1 : getServerWorkoutsSince db uid since =
      (List.insertionSort (fun a b => a.date ≤ b.date)
        (db.workouts.filter (fun w => w.userId == uid && since < w.updatedAt))).map
        (renderWorkout db) := by
    unfold getServerWorkoutsSince
    dsimp only
    exact transformServerData_renders db hexid _ hsortnd
  refine ⟨h1, ?_, ?_, ?_⟩
  · rw [h1]
    have hsorted : List.Sorted (fun a b : WorkoutRow => a.date ≤ b.date)
        (List.insertionSort (fun a b => a.date ≤ b.date)
          (db.workouts.filter (fun w => w.userId == uid && since < w.updatedAt))) := by
      haveI : IsTotal WorkoutRow (fun a b => a.date ≤ b.date) :=
        ⟨fun a b => Nat.le_total a.date b.date⟩
      haveI : IsTrans WorkoutRow (fun a b => a.date ≤ b.date) :=
        ⟨fun a b c hab hbc => Nat.le_trans hab hbc⟩
      exact List.sorted_insertionSort _ _
    rw [List.pairwise_map]
    exact hsorted
  · rw [h1]
    exact hperm.map _
  · intro payload now r
    refine ⟨_, rfl, rfl, ?_⟩
    intro h
    show getServerWorkoutsSince r.1 uid (payload.lastSyncTimestamp.getD 0) = _
    rw [h]
    rfl

/-- Witness for C9 at a concrete input: two workouts with out-of-order dates
are returned date-sorted as rendered trees. -/
theorem C9_change_feed_witness :
    getServerWorkoutsSince c9db "u1" 0 =
      (List.insertionSort (fun a b => a.date ≤ b.date)
        (c9db.workouts.filter (fun w => w.userId == "u1" && 0 < w.updatedAt))).map
        (renderWorkout c9db) :=
  (C9_change_feed c9db "u1" 0 (by decide) (by decide)).1

end Recess

